import Mathlib

/-!
# Brain Browser: the browsing graph engine

A shallow embedding of `src/brainBrowser.js` (class `BrainBrowser`) and of the
content catalog `src/mockData.js`.

Modelling conventions.

* A JavaScript object used as a dictionary is the list of its entries in
  insertion order (`Dict`); none of the keys used by the program is an
  array index, so `for ... in` and `Object.keys` follow insertion order.
  Outside the namespace `Exact` a property read finds the own keys only and
  the two counters are natural numbers to which `++` adds one: this is the
  program on regular inputs, those on which no page id is a name inherited
  from `Object.prototype` and the counters are below `2^53`.  The namespace
  `Exact` has the methods `pagesAreRelated`, `createNeuron`, `createSynapse`,
  `activateTab`, `navigateTo`, `createNewTab` and `loadFromLocalStorage`
  without the two restrictions; `createNeuron_exact`, `navigateTo_exact` and
  `createNewTab_exact` state where the two agree.
* The neuron id `neuron-k` is the number `k`, the tab id `tab-k` is the
  number `k`.  A synapse key `from_to` is the pair `(from, to)`: neuron ids
  contain no underscore, so `split('_')` recovers exactly that pair.
* Coordinates are rational numbers: `style.left = x%` followed by
  `parseFloat(style.left)` is the identity, floating point rounding is not
  modelled.
* `Math.random()` is an input: a function that may draw takes the draws.
* DOM elements are reduced to the data the program reads back from them:
  for a neuron its `dataset.pageId`, label text, `style.left`, `style.top`
  and the classes `active` and `current`; tab and page elements, the URL
  input, animations and logging are left out.  `saveToLocalStorage` does not
  change the program state, so calls to it inside other methods are left out.
* A `TypeError` raised by reading a property of `undefined` is modelled by
  `Outcome.threw`, carrying the state as mutated up to the throw.
-/

namespace BrainBrowser

/-! ## Dictionaries -/

/-- A JavaScript object used as a dictionary: its entries in insertion order. -/
abbrev Dict (κ : Type) (ν : Type) := List (κ × ν)

namespace Dict

variable {κ ν μ : Type} [DecidableEq κ]

/-- Property read `m[k]`: `none` stands for `undefined`. -/
def get : Dict κ ν → κ → Option ν
  | [], _ => none
  | (k', v) :: rest, k => if k' = k then some v else get rest k

/-- Property write `m[k] = v`: an existing key keeps its place, a new key goes last. -/
def set : Dict κ ν → κ → ν → Dict κ ν
  | [], k, v => [(k, v)]
  | (k', v') :: rest, k, v => if k' = k then (k, v) :: rest else (k', v') :: set rest k v

/-- The statement `delete m[k]`. -/
def delete (m : Dict κ ν) (k : κ) : Dict κ ν :=
  m.filter (fun e => decide (e.1 ≠ k))

/-- The call `Object.keys(m)`. -/
def keys (m : Dict κ ν) : List κ :=
  m.map Prod.fst

/-- In-place mutation of the value stored under `k`, when there is one. -/
def modify (m : Dict κ ν) (k : κ) (f : ν → ν) : Dict κ ν :=
  match get m k with
  | some v => set m k (f v)
  | none => m

/-- The same keys, every value transformed. -/
def mapVals (f : ν → μ) (m : Dict κ ν) : Dict κ μ :=
  m.map (fun e => (e.1, f e.2))

end Dict

/-! ## Data model -/

/-- The number `k` of the neuron id `neuron-k`. -/
abbrev NeuronId := Nat

/-- The number `k` of the tab id `tab-k`. -/
abbrev TabId := Nat

/-- A key of the content catalog, or a synthetic `web:<hostname>` key. -/
abbrev PageId := String

/-- The synapse key `fromId_toId`. -/
abbrev SynapseId := NeuronId × NeuronId

/-- A position in layout space (percent). -/
structure Position where
  x : ℚ
  y : ℚ
  deriving DecidableEq

/-- What the program reads back from a neuron element. -/
structure Neuron where
  pageId : PageId
  label : String
  left : ℚ
  top : ℚ
  active : Bool
  current : Bool
  deriving DecidableEq

/-- What the program reads back from a minimap neuron element. -/
structure MinimapNeuron where
  left : ℚ
  top : ℚ
  active : Bool
  current : Bool
  deriving DecidableEq

/-- The tab data stored in `this.tabs`; `none` stands for `null` or `undefined`. -/
structure Tab where
  id : TabId
  title : String
  url : Option String
  pageId : PageId
  neuronId : Option NeuronId
  isWebUrl : Option Bool
  deriving DecidableEq

/-- A configuration value. -/
inductive CfgVal where
  | num (q : ℚ)
  | bool (b : Bool)
  | str (s : String)
  deriving DecidableEq

/-- The fields of `BrainBrowser` that the graph engine reads and writes. -/
structure State where
  config : Dict String CfgVal
  neuronTemplateLabel : String
  minimap : Bool
  neurons : Dict NeuronId Neuron
  synapses : List SynapseId
  tabs : Dict TabId Tab
  pageNeurons : Dict PageId NeuronId
  minimapNeurons : Dict NeuronId MinimapNeuron
  minimapSynapses : List SynapseId
  activeTabId : Option TabId
  lastTabId : Nat
  lastNeuronId : Nat
  brainScale : ℚ
  brainPosition : Position
  deriving DecidableEq

/-- The configuration the constructor installs. -/
def defaultConfig : Dict String CfgVal :=
  [("neuronSize", .num 60),
   ("neuronGrowAnimation", .bool true),
   ("neuronGrowDuration", .num 500),
   ("synapseWidth", .num 2),
   ("synapseOpacity", .num (1 / 2)),
   ("synapseAnimationDuration", .num 8),
   ("pulseAnimationDuration", .num (3 / 2)),
   ("clusteringEnabled", .bool true),
   ("clusteringMaxDistance", .num 10),
   ("maxVisibleNeurons", .num 100),
   ("maxVisibleSynapses", .num 200),
   ("logLevel", .str "debug"),
   ("trackUserInteractions", .bool true),
   ("performanceMonitoring", .bool true),
   ("trackFrameRate", .bool true),
   ("neuronAnimation", .str "pulse"),
   ("showDebugInfo", .bool false)]

/-- The state the constructor builds before it loads anything.  The label text
of the neuron template and the presence of the minimap element come from the
host document. -/
def State.empty (templateLabel : String) (hasMinimap : Bool) : State :=
  { config := defaultConfig,
    neuronTemplateLabel := templateLabel,
    minimap := hasMinimap,
    neurons := [],
    synapses := [],
    tabs := [],
    pageNeurons := [],
    minimapNeurons := [],
    minimapSynapses := [],
    activeTabId := none,
    lastTabId := 0,
    lastNeuronId := 0,
    brainScale := 1,
    brainPosition := { x := 0, y := 0 } }

/-- The result of a method that may raise a `TypeError`. -/
inductive Outcome where
  | returned (s : State)
  | threw (s : State)
  deriving DecidableEq

/-- The program state after the call, raised or not. -/
def Outcome.state : Outcome → State
  | .returned s => s
  | .threw s => s

/-- Whether the call raised. -/
def Outcome.raised : Outcome → Bool
  | .returned _ => false
  | .threw _ => true

/-! ## Content catalog (`src/mockData.js`) -/

/-- An entry of `mockPages`. -/
structure Page where
  id : String
  title : String
  content : String
  deriving DecidableEq

def mockPages : Dict PageId Page :=
  [("home",
    { id := "home",
      title := "Home Page",
      content := "\n            <h1>Welcome to Brain Browser</h1>\n            <p>This is a demonstration of how browsing can be visualized as neural connections in a brain.</p>\n            <p>Click on the links below to navigate and see how synapses form:</p>\n            <ul>\n                <li><a href=\"#\" data-page-id=\"about\">About Brain Browser</a></li>\n                <li><a href=\"#\" data-page-id=\"features\">Features</a></li>\n                <li><a href=\"#\" data-page-id=\"science\">The Science Behind It</a></li>\n            </ul>\n        " }),
  ("neuroscience",
    { id := "neuroscience",
      title := "Neuroscience Principles",
      content := "\n            <h1>Neuroscience Principles</h1>\n            <p>Brain Browser incorporates several key principles from neuroscience:</p>\n            <ul>\n                <li><strong>Hebbian Learning:</strong> \"Neurons that fire together, wire together\" - connections strengthen with repeated use</li>\n                <li><strong>Neural Plasticity:</strong> The brain's ability to reorganize itself by forming new neural connections</li>\n                <li><strong>Associative Memory:</strong> How related concepts become linked in memory networks</li>\n                <li><strong>Spreading Activation:</strong> How activation of one concept activates related concepts</li>\n            </ul>\n            <p>Further exploration:</p>\n            <ul>\n                <li><a href=\"#\" data-page-id=\"memory\">Memory Formation</a></li>\n                <li><a href=\"#\" data-page-id=\"science\">Back to Science</a></li>\n                <li><a href=\"#\" data-page-id=\"home\">Back to Home</a></li>\n            </ul>\n        " }),
  ("cognition",
    { id := "cognition",
      title := "Cognitive Models",
      content := "\n            <h1>Cognitive Models</h1>\n            <p>Brain Browser is informed by several cognitive models of how humans process information:</p>\n            <ul>\n                <li><strong>Spreading Activation Networks:</strong> How concepts connect and activate each other</li>\n                <li><strong>Connectionist Models:</strong> Understanding cognition as networks of simple units</li>\n                <li><strong>Knowledge Graphs:</strong> Representing relationships between concepts</li>\n                <li><strong>Mental Models:</strong> How we build internal representations of the world</li>\n            </ul>\n            <p>Additional cognitive topics:</p>\n            <ul>\n                <li><a href=\"#\" data-page-id=\"attention\">Attention Systems</a></li>\n                <li><a href=\"#\" data-page-id=\"science\">Back to Science</a></li>\n                <li><a href=\"#\" data-page-id=\"home\">Back to Home</a></li>\n            </ul>\n        " }),
  ("search",
    { id := "search",
      title := "Search Capabilities",
      content := "\n            <h1>Neural Search Capabilities</h1>\n            <p>Brain Browser offers innovative ways to search your browsing history:</p>\n            <ul>\n                <li><strong>Neural Path Search:</strong> Follow the pathways of your thoughts</li>\n                <li><strong>Association Search:</strong> Find content based on contextual associations</li>\n                <li><strong>Visual History:</strong> Scan your neural map to visually locate content</li>\n                <li><strong>Temporal Navigation:</strong> Travel through your browsing timeline</li>\n            </ul>\n            <p>Try these search examples:</p>\n            <ul>\n                <li><a href=\"#\" data-page-id=\"navigation\">Back to Navigation</a></li>\n                <li><a href=\"#\" data-page-id=\"features\">Back to Features</a></li>\n                <li><a href=\"#\" data-page-id=\"home\">Back to Home</a></li>\n            </ul>\n        " }),
  ("visualization",
    { id := "visualization",
      title := "Visualization Details",
      content := "\n            <h1>Visualization Details</h1>\n            <p>Brain Browser uses advanced visualization techniques to represent your browsing as neural activity:</p>\n            <ul>\n                <li><strong>Dynamic Neuron Positioning:</strong> Neurons organically position themselves based on content relationships</li>\n                <li><strong>Adaptive Synapse Strength:</strong> Connections grow stronger with repeated use</li>\n                <li><strong>Contextual Coloring:</strong> Colors help identify different types of content</li>\n                <li><strong>Interactive Zoom:</strong> Explore your neural network at different scales</li>\n            </ul>\n            <p>Related topics:</p>\n            <ul>\n                <li><a href=\"#\" data-page-id=\"interface\">User Interface</a></li>\n                <li><a href=\"#\" data-page-id=\"features\">Back to Features</a></li>\n                <li><a href=\"#\" data-page-id=\"home\">Back to Home</a></li>\n            </ul>\n        " }),
  ("navigation",
    { id := "navigation",
      title := "Navigation Features",
      content := "\n            <h1>Navigation Features</h1>\n            <p>Brain Browser reimagines how you navigate the web:</p>\n            <ul>\n                <li><strong>Neural Search:</strong> Find content by exploring your neural network</li>\n                <li><strong>Path Replay:</strong> Retrace and replay your browsing sessions</li>\n                <li><strong>Contextual Suggestions:</strong> Get recommendations based on your neural patterns</li>\n                <li><strong>Focus Mode:</strong> Highlight specific neural pathways while dimming others</li>\n            </ul>\n            <p>Learn more about navigation:</p>\n            <ul>\n                <li><a href=\"#\" data-page-id=\"search\">Search Capabilities</a></li>\n                <li><a href=\"#\" data-page-id=\"features\">Back to Features</a></li>\n                <li><a href=\"#\" data-page-id=\"home\">Back to Home</a></li>\n            </ul>\n        " }),
  ("team",
    { id := "team",
      title := "Our Team",
      content := "\n            <h1>Our Team</h1>\n            <p>Brain Browser was developed by a team of neuroscientists, web developers, and UX designers passionate about creating innovative ways to visualize information.</p>\n            <p>Our mission is to transform how people understand their browsing habits by providing beautiful and insightful visualizations.</p>\n            <p>Learn more about:</p>\n            <ul>\n                <li><a href=\"#\" data-page-id=\"careers\">Join Our Team</a></li>\n                <li><a href=\"#\" data-page-id=\"about\">Back to About</a></li>\n                <li><a href=\"#\" data-page-id=\"home\">Back to Home</a></li>\n            </ul>\n        " }),
  ("technology",
    { id := "technology",
      title := "Technology",
      content := "\n            <h1>Technology Behind Brain Browser</h1>\n            <p>Brain Browser leverages cutting-edge web technologies to create its immersive neural visualization:</p>\n            <ul>\n                <li><strong>Dynamic SVG:</strong> For fluid, responsive neural connections</li>\n                <li><strong>Physics Simulation:</strong> To create organic neuron placement</li>\n                <li><strong>CSS Animations:</strong> For lifelike neural pulsing and activity</li>\n                <li><strong>Local Storage:</strong> To maintain your neural network between sessions</li>\n            </ul>\n            <p>More technical details:</p>\n            <ul>\n                <li><a href=\"#\" data-page-id=\"architecture\">System Architecture</a></li>\n                <li><a href=\"#\" data-page-id=\"about\">Back to About</a></li>\n                <li><a href=\"#\" data-page-id=\"home\">Back to Home</a></li>\n            </ul>\n        " }),
  ("about",
    { id := "about",
      title := "About Brain Browser",
      content := "\n            <h1>About Brain Browser</h1>\n            <p>Brain Browser is a conceptual web application that visualizes web browsing as a neural network.</p>\n            <p>Each tab represents a neuron in a brain-like network, and connections between pages form synapses.</p>\n            <p>This creates a visual representation of your browsing journey.</p>\n            <p>Learn more:</p>\n            <ul>\n                <li><a href=\"#\" data-page-id=\"team\">Our Team</a></li>\n                <li><a href=\"#\" data-page-id=\"technology\">Technology</a></li>\n                <li><a href=\"#\" data-page-id=\"home\">Back to Home</a></li>\n            </ul>\n        " }),
  ("features",
    { id := "features",
      title := "Features",
      content := "\n            <h1>Features</h1>\n            <p>Brain Browser comes with a variety of innovative features:</p>\n            <ul>\n                <li><strong>Neural Visualization:</strong> See your tabs as neurons in a brain network</li>\n                <li><strong>Synaptic Connections:</strong> Watch connections form as you navigate</li>\n                <li><strong>History Pathways:</strong> Browsing history visualized as neural pathways</li>\n                <li><strong>Context Awareness:</strong> Related tabs form closer clusters</li>\n            </ul>\n            <p>Explore more specific features:</p>\n            <ul>\n                <li><a href=\"#\" data-page-id=\"visualization\">Visualization Details</a></li>\n                <li><a href=\"#\" data-page-id=\"navigation\">Navigation Features</a></li>\n                <li><a href=\"#\" data-page-id=\"home\">Back to Home</a></li>\n            </ul>\n        " }),
  ("science",
    { id := "science",
      title := "The Science Behind It",
      content := "\n            <h1>The Science Behind Brain Browser</h1>\n            <p>Brain Browser is inspired by actual neuroscience and how the human brain processes information.</p>\n            <p>The visualization mimics several neural processes:</p>\n            <ul>\n                <li><strong>Neuroplasticity:</strong> The brain's ability to form new connections</li>\n                <li><strong>Neural Pathways:</strong> How information travels through the brain</li>\n                <li><strong>Clustering:</strong> How related concepts group together</li>\n            </ul>\n            <p>Dive deeper into the science:</p>\n            <ul>\n                <li><a href=\"#\" data-page-id=\"neuroscience\">Neuroscience Principles</a></li>\n                <li><a href=\"#\" data-page-id=\"cognition\">Cognitive Models</a></li>\n                <li><a href=\"#\" data-page-id=\"home\">Back to Home</a></li>\n            </ul>\n        " }),
  ("memory",
    { id := "memory",
      title := "Memory Formation",
      content := "\n            <h1>Memory Formation</h1>\n            <p>Brain Browser uses principles of memory formation to enhance your browsing experience:</p>\n            <ul>\n                <li><strong>Encoding:</strong> How information is initially learned and stored</li>\n                <li><strong>Consolidation:</strong> The process of stabilizing a memory trace</li>\n                <li><strong>Retrieval:</strong> Accessing stored information when needed</li>\n            </ul>\n            <p>Explore more about memory:</p>\n            <ul>\n                <li><a href=\"#\" data-page-id=\"neuroscience\">Neuroscience Principles</a></li>\n                <li><a href=\"#\" data-page-id=\"cognition\">Cognitive Models</a></li>\n                <li><a href=\"#\" data-page-id=\"home\">Back to Home</a></li>\n            </ul>\n        " }),
  ("attention",
    { id := "attention",
      title := "Attention Systems",
      content := "\n            <h1>Attention Systems</h1>\n            <p>Brain Browser implements attention mechanisms inspired by human cognitive systems:</p>\n            <ul>\n                <li><strong>Focus Highlighting:</strong> Active neurons and pathways become more prominent</li>\n                <li><strong>Context Dimming:</strong> Less relevant connections fade into the background</li>\n                <li><strong>Temporal Attention:</strong> Recently accessed nodes maintain higher activation</li>\n                <li><strong>Spatial Attention:</strong> Nearby neurons are more likely to be related</li>\n            </ul>\n            <p>Related topics:</p>\n            <ul>\n                <li><a href=\"#\" data-page-id=\"cognition\">Back to Cognitive Models</a></li>\n                <li><a href=\"#\" data-page-id=\"interface\">User Interface</a></li>\n                <li><a href=\"#\" data-page-id=\"home\">Back to Home</a></li>\n            </ul>\n        " }),
  ("interface",
    { id := "interface",
      title := "User Interface",
      content := "\n            <h1>User Interface Design</h1>\n            <p>Brain Browser's interface is designed for intuitive interaction with your neural network:</p>\n            <ul>\n                <li><strong>Minimap Navigation:</strong> Quick overview and navigation of your entire network</li>\n                <li><strong>Zoom Controls:</strong> Examine connections at different levels of detail</li>\n                <li><strong>Drag & Drop:</strong> Reorganize neurons to create meaningful layouts</li>\n                <li><strong>Visual Feedback:</strong> Immediate response to user interactions</li>\n            </ul>\n            <p>Explore more:</p>\n            <ul>\n                <li><a href=\"#\" data-page-id=\"visualization\">Visualization Details</a></li>\n                <li><a href=\"#\" data-page-id=\"features\">Feature Overview</a></li>\n                <li><a href=\"#\" data-page-id=\"home\">Back to Home</a></li>\n            </ul>\n        " }),
  ("careers",
    { id := "careers",
      title := "Join Our Team",
      content := "\n            <h1>Join Our Team</h1>\n            <p>We're looking for passionate individuals to help us revolutionize how people interact with their browsing history:</p>\n            <ul>\n                <li><strong>Software Engineers:</strong> Build the next generation of neural visualization</li>\n                <li><strong>UX Designers:</strong> Create intuitive interfaces for complex data</li>\n                <li><strong>Data Scientists:</strong> Develop algorithms for neural clustering</li>\n                <li><strong>Neuroscience Consultants:</strong> Inform our biological modeling</li>\n            </ul>\n            <p>Learn more about:</p>\n            <ul>\n                <li><a href=\"#\" data-page-id=\"team\">Our Current Team</a></li>\n                <li><a href=\"#\" data-page-id=\"technology\">Our Technology</a></li>\n                <li><a href=\"#\" data-page-id=\"home\">Back to Home</a></li>\n            </ul>\n        " }),
  ("architecture",
    { id := "architecture",
      title := "System Architecture",
      content := "\n            <h1>System Architecture</h1>\n            <p>Brain Browser is built on a modern, scalable architecture:</p>\n            <ul>\n                <li><strong>Frontend Layer:</strong> Responsive UI and visualization engine</li>\n                <li><strong>Core Services:</strong> Neural modeling and state management</li>\n                <li><strong>Data Layer:</strong> Efficient storage and retrieval of browsing data</li>\n                <li><strong>Rendering Pipeline:</strong> High-performance graphics processing</li>\n            </ul>\n            <p>Technical details:</p>\n            <ul>\n                <li><a href=\"#\" data-page-id=\"technology\">Technology Stack</a></li>\n                <li><a href=\"#\" data-page-id=\"visualization\">Visualization Engine</a></li>\n                <li><a href=\"#\" data-page-id=\"home\">Back to Home</a></li>\n            </ul>\n        " }),
  ("learning",
    { id := "learning",
      title := "Learning Algorithms",
      content := "\n            <h1>Learning Algorithms</h1>\n            <p>Brain Browser employs sophisticated learning algorithms to improve over time:</p>\n            <ul>\n                <li><strong>Pattern Recognition:</strong> Identifying common browsing patterns</li>\n                <li><strong>Adaptive Clustering:</strong> Dynamic organization of related content</li>\n                <li><strong>Reinforcement Learning:</strong> Strengthening frequently used paths</li>\n                <li><strong>Predictive Navigation:</strong> Anticipating user behavior</li>\n            </ul>\n            <p>Related topics:</p>\n            <ul>\n                <li><a href=\"#\" data-page-id=\"neuroscience\">Neuroscience Principles</a></li>\n                <li><a href=\"#\" data-page-id=\"technology\">Technology Stack</a></li>\n                <li><a href=\"#\" data-page-id=\"home\">Back to Home</a></li>\n            </ul>\n        " })]

def mockPageUrls : Dict PageId String :=
  [("home", "https://brainbrowser.example/home"),
   ("about", "https://brainbrowser.example/about"),
   ("features", "https://brainbrowser.example/features"),
   ("science", "https://brainbrowser.example/science"),
   ("team", "https://brainbrowser.example/team"),
   ("technology", "https://brainbrowser.example/technology"),
   ("visualization", "https://brainbrowser.example/visualization"),
   ("navigation", "https://brainbrowser.example/navigation"),
   ("neuroscience", "https://brainbrowser.example/neuroscience"),
   ("cognition", "https://brainbrowser.example/cognition"),
   ("search", "https://brainbrowser.example/search"),
   ("memory", "https://brainbrowser.example/memory"),
   ("attention", "https://brainbrowser.example/attention"),
   ("interface", "https://brainbrowser.example/interface"),
   ("careers", "https://brainbrowser.example/careers"),
   ("architecture", "https://brainbrowser.example/architecture"),
   ("learning", "https://brainbrowser.example/learning")]

/-! ## Layout (`getClusteredPosition`, `findRelatedPages`, `pagesAreRelated`) -/

/-- The values returned by the successive calls of `Math.random()`. -/
structure Rnd where
  r1 : ℚ
  r2 : ℚ
  r3 : ℚ
  r4 : ℚ
  deriving DecidableEq

/-- Method `getRandomPosition(min, max)`, with the draw `r` of `Math.random()`. -/
def getRandomPosition (min max r : ℚ) : ℚ :=
  min + r * (max - min)

/-- Worker of `splitWhitespace`; `prevWs` tells that the previous character
was white space, so that a run of white space separates only once. -/
def splitWhitespaceGo : Bool → List Char → List (List Char)
  | _, [] => [[]]
  | prevWs, c :: cs =>
    if c.isWhitespace then
      if prevWs then splitWhitespaceGo true cs else [] :: splitWhitespaceGo true cs
    else
      match splitWhitespaceGo false cs with
      | [] => [[c]]
      | w :: ws => (c :: w) :: ws

/-- The call `str.split(/\s+/)`. -/
def splitWhitespace (cs : List Char) : List (List Char) :=
  splitWhitespaceGo false cs

/-- The words of `title.toLowerCase().split(/\s+/)` longer than three characters. -/
def titleWords (title : String) : List (List Char) :=
  (splitWhitespace (title.toList.map Char.toLower)).filter (fun w => decide (w.length > 3))

/-- Whether the second list begins with the first (`hay.startsWith(needle)`, needle first). -/
def beginsWith : List Char → List Char → Bool
  | [], _ => true
  | _ :: _, [] => false
  | a :: as, b :: bs => a == b && beginsWith as bs

/-- The call `hay.includes(needle)` on the characters of two strings. -/
def includesChars : List Char → List Char → Bool
  | [], needle => needle.isEmpty
  | c :: cs, needle => beginsWith needle (c :: cs) || includesChars cs needle

/-- The text `data-page-id="<pageId>"` of a link to `pageId`. -/
def linkReference (pageId : PageId) : List Char :=
  "data-page-id=\"".toList ++ pageId.toList ++ "\"".toList

/-- Method `pagesAreRelated(pageId1, pageId2)`. -/
def pagesAreRelated (pageId1 pageId2 : PageId) : Bool :=
  match Dict.get mockPages pageId1, Dict.get mockPages pageId2 with
  | some page1, some page2 =>
    let titleWords1 := titleWords page1.title
    let titleWords2 := titleWords page2.title
    if titleWords1.any (fun word => decide (word ∈ titleWords2)) then true
    else
      includesChars page1.content.toList (linkReference pageId2)
        || includesChars page2.content.toList (linkReference pageId1)
  | _, _ => false

/-- Method `findRelatedPages(pageId)`. -/
def findRelatedPages (s : State) (pageId : PageId) : List PageId :=
  (Dict.keys s.pageNeurons).filter
    (fun existingPageId => decide (existingPageId ≠ pageId) && pagesAreRelated pageId existingPageId)

/-- The loop of `getClusteredPosition` over the related pages: the sums of the
coordinates of their live neurons and the number of those neurons. -/
def sumRelated (s : State) (relatedPageIds : List PageId) : ℚ × ℚ × Nat :=
  relatedPageIds.foldl
    (fun acc relatedPageId =>
      match Dict.get s.pageNeurons relatedPageId with
      | some relatedNeuronId =>
        match Dict.get s.neurons relatedNeuronId with
        | some neuron => (acc.1 + neuron.left, acc.2.1 + neuron.top, acc.2.2 + 1)
        | none => acc
      | none => acc)
    (0, 0, 0)

/-- Method `getClusteredPosition(pageId)`. -/
def getClusteredPosition (s : State) (pageId : PageId) (rnd : Rnd) : Position :=
  let position : Position :=
    { x := getRandomPosition 30 70 rnd.r1, y := getRandomPosition 30 70 rnd.r2 }
  let relatedPageIds := findRelatedPages s pageId
  if relatedPageIds.length > 0 then
    let totals := sumRelated s relatedPageIds
    let count := totals.2.2
    if count > 0 then
      let avgX := totals.1 / count
      let avgY := totals.2.1 / count
      { x := max 10 (min 90 (avgX + getRandomPosition (-10) 10 rnd.r3)),
        y := max 10 (min 90 (avgY + getRandomPosition (-10) 10 rnd.r4)) }
    else position
  else position

/-! ## Neurons and synapses -/

/-- Method `addNeuronToMinimap(neuronId)`. -/
def addNeuronToMinimap (s : State) (neuronId : NeuronId) : State :=
  if s.minimap then
    match Dict.get s.neurons neuronId with
    | none => s
    | some neuron =>
      { s with minimapNeurons := Dict.set s.minimapNeurons neuronId
                 { left := neuron.left, top := neuron.top,
                   active := neuron.active, current := neuron.current } }
  else s

/-- Method `createNeuron(pageId, title, position = null)`: the state after the
call and the neuron id returned.  An empty `title` is falsy and leaves the
label of the template in place; a neuron cloned from the template carries
neither the class `active` nor `current`. -/
def createNeuron (s : State) (pageId : PageId) (title : String)
    (position : Option Position) (rnd : Rnd) : State × NeuronId :=
  match Dict.get s.pageNeurons pageId with
  | some existing => (s, existing)
  | none =>
    let neuronId := s.lastNeuronId + 1
    let s1 := { s with lastNeuronId := neuronId }
    let pos := match position with
      | some p => p
      | none => getClusteredPosition s1 pageId rnd
    let neuron : Neuron :=
      { pageId := pageId,
        label := if title = "" then s1.neuronTemplateLabel else title,
        left := pos.x, top := pos.y, active := false, current := false }
    let s2 := { s1 with neurons := Dict.set s1.neurons neuronId neuron,
                        pageNeurons := Dict.set s1.pageNeurons pageId neuronId }
    (addNeuronToMinimap s2 neuronId, neuronId)

/-- Method `addSynapseToMinimap(fromId, toId)`. -/
def addSynapseToMinimap (s : State) (fromId toId : NeuronId) : State :=
  if s.minimap then
    match Dict.get s.neurons fromId, Dict.get s.neurons toId with
    | some _, some _ =>
      if (fromId, toId) ∈ s.minimapSynapses then s
      else { s with minimapSynapses := s.minimapSynapses ++ [(fromId, toId)] }
    | _, _ => s
  else s

/-- Method `createSynapse(fromId, toId)`; the value it returns is used by no caller. -/
def createSynapse (s : State) (fromId toId : NeuronId) : State :=
  if (fromId, toId) ∈ s.synapses then s
  else
    match Dict.get s.neurons fromId, Dict.get s.neurons toId with
    | some _, some _ =>
      addSynapseToMinimap { s with synapses := s.synapses ++ [(fromId, toId)] } fromId toId
    | _, _ => s

/-! ## Tabs -/

/-- First loop over the neurons in `activateTab`: remove `active` and `current` everywhere. -/
def clearNeuronStates (neurons : Dict NeuronId Neuron) : Dict NeuronId Neuron :=
  Dict.mapVals (fun n => { n with active := false, current := false }) neurons

/-- Second loop of `activateTab`: the neuron of every open tab gets `active`. -/
def markActive (tabs : Dict TabId Tab) (neurons : Dict NeuronId Neuron) : Dict NeuronId Neuron :=
  tabs.foldl
    (fun acc e =>
      match e.2.neuronId with
      | some neuronId => Dict.modify acc neuronId (fun n => { n with active := true })
      | none => acc)
    neurons

/-- Third step of `activateTab`: the neuron of the page of the tab gets `current`. -/
def markCurrent (pageNeurons : Dict PageId NeuronId) (pageId : PageId)
    (neurons : Dict NeuronId Neuron) : Dict NeuronId Neuron :=
  if pageId = "" then neurons
  else
    match Dict.get pageNeurons pageId with
    | some neuronId => Dict.modify neurons neuronId (fun n => { n with current := true })
    | none => neurons

/-- Last loop of `activateTab`: every minimap neuron takes the two classes of its neuron. -/
def syncMinimapStates (neurons : Dict NeuronId Neuron)
    (minimapNeurons : Dict NeuronId MinimapNeuron) : Dict NeuronId MinimapNeuron :=
  minimapNeurons.map
    (fun e =>
      (e.1,
        { e.2 with
          active := match Dict.get neurons e.1 with
            | some n => n.active
            | none => false,
          current := match Dict.get neurons e.1 with
            | some n => n.current
            | none => false }))

/-- Method `activateTab(tabId)`. -/
def activateTab (s : State) (tabId : TabId) : State :=
  match Dict.get s.tabs tabId with
  | none => s
  | some tab =>
    let neurons :=
      markCurrent s.pageNeurons tab.pageId (markActive s.tabs (clearNeuronStates s.neurons))
    { s with activeTabId := some tabId,
             neurons := neurons,
             minimapNeurons := syncMinimapStates neurons s.minimapNeurons }

/-- The part of `closeTab(id)` that removes `active` and `current` from the
neuron of the tab and from its minimap neuron. -/
def clearTabNeuron (s : State) (id : TabId) : State :=
  match Dict.get s.tabs id with
  | none => s
  | some tabData =>
    match tabData.neuronId with
    | none => s
    | some neuronId =>
      match Dict.get s.neurons neuronId with
      | none => s
      | some neuron =>
        { s with
          neurons := Dict.set s.neurons neuronId { neuron with active := false, current := false },
          minimapNeurons :=
            Dict.modify s.minimapNeurons neuronId
              (fun m => { m with active := false, current := false }) }

/-- Method `closeTab(id)`. -/
def closeTab (s : State) (id : TabId) : State :=
  let s1 := clearTabNeuron s id
  let s2 := { s1 with tabs := Dict.delete s1.tabs id }
  if s2.activeTabId = some id then
    match Dict.keys s2.tabs with
    | first :: _ => activateTab s2 first
    | [] => { s2 with activeTabId := none }
  else s2

/-- The loop of `removeNeuron` over `synapsesToRemove`. -/
def removeSynapses (s : State) (synapsesToRemove : List SynapseId) : State :=
  synapsesToRemove.foldl
    (fun st synapseId =>
      if synapseId ∈ st.synapses then
        { st with synapses := st.synapses.erase synapseId,
                  minimapSynapses := st.minimapSynapses.erase synapseId }
      else st)
    s

/-- Method `removeNeuron(neuronId)`. -/
def removeNeuron (s : State) (neuronId : NeuronId) : State :=
  match Dict.get s.neurons neuronId with
  | none => s
  | some neuron =>
    let pageId := neuron.pageId
    let tabsToClose :=
      Dict.keys (s.tabs.filter (fun e => decide (e.2.neuronId = some neuronId)))
    let s1 := tabsToClose.foldl closeTab s
    let synapsesToRemove :=
      s1.synapses.filter (fun sid => decide (sid.1 = neuronId) || decide (sid.2 = neuronId))
    let s2 := removeSynapses s1 synapsesToRemove
    let s3 := { s2 with minimapNeurons := Dict.delete s2.minimapNeurons neuronId }
    let s4 :=
      if Dict.get s3.pageNeurons pageId = some neuronId then
        { s3 with pageNeurons := Dict.delete s3.pageNeurons pageId }
      else s3
    { s4 with neurons := Dict.delete s4.neurons neuronId }

/-- The synapse policy at the end of `navigateTo`: from the source neuron when
one is given, differs from the destination and a synapse is wanted; otherwise
from the previous neuron of the tab when the tab showed another page. -/
def navigateSynapse (s : State) (pageId oldPageId : PageId) (oldNeuronId : Option NeuronId)
    (neuronId : NeuronId) (sourceNeuronId : Option NeuronId) (withSynapse : Bool) : State :=
  match sourceNeuronId.filter (fun source => decide (source ≠ neuronId) && withSynapse) with
  | some source => createSynapse s source neuronId
  | none =>
    match oldNeuronId.filter
        (fun _ => decide (oldPageId ≠ "") && decide (oldPageId ≠ pageId) && withSynapse) with
    | some old => createSynapse s old neuronId
    | none => s

/-- Method `navigateTo(pageId, tabId = null, sourceNeuronId = null, createSynapse = true)`.
Reading `this.tabs[targetTabId].pageId` raises when the target tab is not open. -/
def navigateTo (s : State) (pageId : PageId) (tabId : Option TabId)
    (sourceNeuronId : Option NeuronId) (withSynapse : Bool) (rnd : Rnd) : Outcome :=
  match tabId <|> s.activeTabId with
  | none => .returned s
  | some targetTabId =>
    match Dict.get mockPages pageId with
    | none => .returned s
    | some page =>
      match Dict.get s.tabs targetTabId with
      | none => .threw s
      | some tab =>
        let oldPageId := tab.pageId
        let oldNeuronId := tab.neuronId
        let created :=
          match Dict.get s.pageNeurons pageId with
          | some neuronId => (s, neuronId)
          | none => createNeuron s pageId page.title none rnd
        let s1 := created.1
        let neuronId := created.2
        let s2 :=
          { s1 with tabs := Dict.set s1.tabs targetTabId
                      { tab with title := page.title,
                                 url := Dict.get mockPageUrls pageId,
                                 pageId := pageId,
                                 neuronId := some neuronId,
                                 isWebUrl := some false } }
        let s3 := navigateSynapse s2 pageId oldPageId oldNeuronId neuronId sourceNeuronId withSynapse
        .returned (activateTab s3 targetTabId)

/-- Method `createNewTab()`: the state after the call and the tab id returned. -/
def createNewTab (s : State) (rnd : Rnd) : State × TabId :=
  let tabId := s.lastTabId + 1
  let s1 :=
    { s with lastTabId := tabId,
             tabs := Dict.set s.tabs tabId
               { id := tabId, title := "New Tab", url := some "", pageId := "",
                 neuronId := none, isWebUrl := none } }
  let s2 := activateTab s1 tabId
  ((navigateTo s2 "home" (some tabId) none true rnd).state, tabId)

/-- Method `findOrCreateNeuronForDomain(domain, url)`. -/
def findOrCreateNeuronForDomain (s : State) (domain : String) (rnd : Rnd) : State × NeuronId :=
  let webPageId := "web:" ++ domain
  match Dict.get s.pageNeurons webPageId with
  | some neuronId => (s, neuronId)
  | none => createNeuron s webPageId domain none rnd

/-- The protocol step of `navigateToRealUrl`: `https://` is put in front of a
URL that starts with neither `http://` nor `https://`. -/
def withProtocol (url : String) : String :=
  if beginsWith "http://".toList url.toList || beginsWith "https://".toList url.toList then url
  else "https://" ++ url

/-- Method `navigateToRealUrl(url)`.  `hostname` is the result of
`new URL(url).hostname` on the URL with its protocol, `none` when the URL
constructor raises.  `rndTab` serves the tab created when none is active. -/
def navigateToRealUrl (s : State) (url : String) (hostname : Option String)
    (rndTab rnd : Rnd) : Outcome :=
  let s0 := if s.activeTabId = none then (createNewTab s rndTab).1 else s
  let url := withProtocol url
  let domain := hostname.getD url
  let created := findOrCreateNeuronForDomain s0 domain rnd
  let s1 := created.1
  let neuronId := created.2
  match s1.activeTabId with
  | none => .threw s1
  | some tabId =>
    match Dict.get s1.tabs tabId with
    | none => .threw s1
    | some tab =>
      let oldPageId := tab.pageId
      let oldNeuronId := tab.neuronId
      let s2 :=
        { s1 with tabs := Dict.set s1.tabs tabId
                    { tab with title := domain,
                               url := some url,
                               pageId := "web:" ++ domain,
                               neuronId := some neuronId,
                               isWebUrl := some true } }
      let s3 :=
        match oldNeuronId.filter
            (fun _ => decide (oldPageId ≠ "") && decide (oldPageId ≠ "web:" ++ domain)) with
        | some old => createSynapse s2 old neuronId
        | none => s2
      .returned (activateTab s3 tabId)

/-- Method `activatePageNeuron(pageId)`, the click handler of a neuron.
`rndTab` serves the tab created when none is open. -/
def activatePageNeuron (s : State) (pageId : PageId) (rndTab rnd : Rnd) : Outcome :=
  match (s.tabs.find? (fun e => decide (e.2.pageId = pageId))).map Prod.fst with
  | some tabId => .returned (activateTab s tabId)
  | none =>
    match s.activeTabId with
    | some active => navigateTo s pageId (some active) none false rnd
    | none =>
      let created := createNewTab s rndTab
      navigateTo created.1 pageId (some created.2) none false rnd

/-- The action `connect` of the context menu opened on the neuron `neuronId`
of page `pageId`. -/
def connectToCurrent (s : State) (neuronId : NeuronId) (pageId : PageId) : Outcome :=
  match s.activeTabId with
  | none => .returned s
  | some active =>
    match Dict.get s.tabs active with
    | none => .threw s
    | some tab =>
      let currentPageId := tab.pageId
      if currentPageId ≠ "" ∧ currentPageId ≠ pageId then
        match Dict.get s.pageNeurons currentPageId with
        | some currentNeuronId => .returned (createSynapse s currentNeuronId neuronId)
        | none => .returned s
      else .returned s

/-- Method `updateMinimapConnectedSynapses(neuronId)`. -/
def updateMinimapConnectedSynapses (s : State) (neuronId : NeuronId) : State :=
  if s.minimap then
    s.synapses.foldl
      (fun st sid =>
        if sid.1 = neuronId ∨ sid.2 = neuronId then
          if sid ∈ st.minimapSynapses then st else addSynapseToMinimap st sid.1 sid.2
        else st)
      s
  else s

/-- Method `updateMinimapNeuron(neuronId)`. -/
def updateMinimapNeuron (s : State) (neuronId : NeuronId) : State :=
  if s.minimap then
    match Dict.get s.neurons neuronId, Dict.get s.minimapNeurons neuronId with
    | some neuron, some _ =>
      updateMinimapConnectedSynapses
        { s with minimapNeurons := Dict.set s.minimapNeurons neuronId
                   { left := neuron.left, top := neuron.top,
                     active := neuron.active, current := neuron.current } }
        neuronId
    | _, _ => s
  else s

/-- The `mousemove` handler installed by `makeNeuronDraggable` while the
neuron `neuronId` is dragged by `(deltaX, deltaY)` pixels. -/
def dragNeuron (s : State) (neuronId : NeuronId)
    (deltaX deltaY offsetWidth offsetHeight : ℚ) : State :=
  match Dict.get s.neurons neuronId with
  | none => s
  | some neuron =>
    let newLeft := neuron.left + (deltaX / offsetWidth) * 100 / s.brainScale
    let newTop := neuron.top + (deltaY / offsetHeight) * 100 / s.brainScale
    updateMinimapNeuron
      { s with neurons := Dict.set s.neurons neuronId { neuron with left := newLeft, top := newTop } }
      neuronId

/-! ## Persistence -/

/-- The value stored for a neuron in the saved record. -/
structure NeuronData where
  left : ℚ
  top : ℚ
  pageId : PageId
  label : String
  deriving DecidableEq

/-- The record `saveData`, as JSON carries it to and from the store. -/
structure SaveData where
  neurons : Dict NeuronId NeuronData
  synapses : List SynapseId
  pageNeurons : Dict PageId NeuronId
  lastNeuronId : Nat
  lastTabId : Nat
  config : Option (Dict String CfgVal)
  deriving DecidableEq

/-- The entry of a neuron in the saved record. -/
def Neuron.data (n : Neuron) : NeuronData :=
  { left := n.left, top := n.top, pageId := n.pageId, label := n.label }

/-- Method `saveToLocalStorage()`: the record handed to the store. -/
def saveToLocalStorage (s : State) : SaveData :=
  { neurons := Dict.mapVals Neuron.data s.neurons,
    synapses := s.synapses,
    pageNeurons := s.pageNeurons,
    lastNeuronId := s.lastNeuronId,
    lastTabId := s.lastTabId,
    config := some s.config }

/-- The object spread of two configurations: the keys of `persisted` override. -/
def mergeConfig (current persisted : Dict String CfgVal) : Dict String CfgVal :=
  persisted.foldl (fun acc e => Dict.set acc e.1 e.2) current

/-- The loop of `loadFromLocalStorage` over the saved neurons. -/
def restoreNeurons (s : State) (saved : Dict NeuronId NeuronData) (rnd : Rnd) : State :=
  saved.foldl
    (fun st e =>
      match Dict.get st.pageNeurons e.2.pageId with
      | some _ => st
      | none =>
        (createNeuron st e.2.pageId e.2.label (some { x := e.2.left, y := e.2.top }) rnd).1)
    s

/-- The loop of `loadFromLocalStorage` over the saved synapse keys. -/
def restoreSynapses (s : State) (saved : List SynapseId) : State :=
  saved.foldl (fun st sid => createSynapse st sid.1 sid.2) s

/-- Method `loadFromLocalStorage()`; `stored` is what the store holds under
the key `brainBrowser`, `none` when it holds nothing. -/
def loadFromLocalStorage (s : State) (stored : Option SaveData) (rnd : Rnd) : State :=
  match stored with
  | none => s
  | some data =>
    let s1 := match data.config with
      | some config => { s with config := mergeConfig s.config config }
      | none => s
    let s2 := restoreNeurons s1 data.neurons rnd
    let s3 := restoreSynapses s2 data.synapses
    { s3 with lastNeuronId := max s3.lastNeuronId data.lastNeuronId,
              lastTabId := max s3.lastTabId data.lastTabId }

/-! ## Sessions -/

/-- The entry points through which a session changes the program state. -/
inductive Op where
  | createNeuron (pageId : PageId) (title : String) (position : Option Position) (rnd : Rnd)
  | createSynapse (fromId toId : NeuronId)
  | removeNeuron (neuronId : NeuronId)
  | createNewTab (rnd : Rnd)
  | activateTab (tabId : TabId)
  | closeTab (tabId : TabId)
  | navigateTo (pageId : PageId) (tabId : Option TabId) (sourceNeuronId : Option NeuronId)
      (withSynapse : Bool) (rnd : Rnd)
  | navigateToRealUrl (url : String) (hostname : Option String) (rndTab rnd : Rnd)
  | activatePageNeuron (pageId : PageId) (rndTab rnd : Rnd)
  | connectToCurrent (neuronId : NeuronId)
  | dragNeuron (neuronId : NeuronId) (deltaX deltaY offsetWidth offsetHeight : ℚ)
  | loadFromLocalStorage (stored : Option SaveData) (rnd : Rnd)
  deriving DecidableEq

/-- The program state after one entry point has run.  A raised `TypeError`
ends the event handler and leaves the state as it was at the throw.  The
context menu is opened on a displayed neuron. -/
def step (s : State) : Op → State
  | .createNeuron pageId title position rnd => (createNeuron s pageId title position rnd).1
  | .createSynapse fromId toId => createSynapse s fromId toId
  | .removeNeuron neuronId => removeNeuron s neuronId
  | .createNewTab rnd => (createNewTab s rnd).1
  | .activateTab tabId => activateTab s tabId
  | .closeTab tabId => closeTab s tabId
  | .navigateTo pageId tabId sourceNeuronId withSynapse rnd =>
    (navigateTo s pageId tabId sourceNeuronId withSynapse rnd).state
  | .navigateToRealUrl url hostname rndTab rnd => (navigateToRealUrl s url hostname rndTab rnd).state
  | .activatePageNeuron pageId rndTab rnd => (activatePageNeuron s pageId rndTab rnd).state
  | .connectToCurrent neuronId =>
    match Dict.get s.neurons neuronId with
    | some neuron => (connectToCurrent s neuronId neuron.pageId).state
    | none => s
  | .dragNeuron neuronId deltaX deltaY offsetWidth offsetHeight =>
    dragNeuron s neuronId deltaX deltaY offsetWidth offsetHeight
  | .loadFromLocalStorage stored rnd => loadFromLocalStorage s stored rnd

/-- The program state after a sequence of entry points. -/
def run (s : State) (ops : List Op) : State :=
  ops.foldl step s

/-! ## The URL bar (`navigateToUrl`) -/

/-- The characters `String.prototype.trim` removes: the white space and line
terminator code points of ECMAScript. -/
def isTrimmed (c : Char) : Bool :=
  c.toNat ∈ [0x9, 0xA, 0xB, 0xC, 0xD, 0x20, 0xA0, 0x1680, 0x2000, 0x2001, 0x2002, 0x2003,
    0x2004, 0x2005, 0x2006, 0x2007, 0x2008, 0x2009, 0x200A, 0x2028, 0x2029, 0x202F, 0x205F,
    0x3000, 0xFEFF]

/-- The call `str.trim()`. -/
def trim (str : String) : String :=
  String.mk ((str.toList.dropWhile isTrimmed).reverse.dropWhile isTrimmed).reverse

/-- The loop of `navigateToUrl` over `Object.entries(mockPageUrls)`: the first
id whose URL is `url` or whose text `url` contains, `none` standing for
`null`.  No key of `mockPageUrls` is the empty string, so a found id is truthy. -/
def findMockPage (url : String) : Option PageId :=
  (mockPageUrls.find?
    (fun e => decide (url = e.2) || includesChars url.toList e.1.toList)).map Prod.fst

/-- Method `navigateToUrl()`.  `input` is the value of the URL input,
`validUrl` the result of `isValidUrl(url)` (whether the `URL` constructor
accepts the trimmed text with its protocol) and `hostname` the host name that
constructor gives, as in `navigateToRealUrl`. -/
def navigateToUrl (s : State) (input : String) (validUrl : Bool) (hostname : Option String)
    (rndTab rnd : Rnd) : Outcome :=
  let url := trim input
  match findMockPage url with
  | some pageId => navigateTo s pageId none none true rnd
  | none =>
    if validUrl then navigateToRealUrl s url hostname rndTab rnd
    else if s.activeTabId ≠ none then navigateTo s "home" none none true rnd
    else .returned s

/-! ## The view: zoom, pan and the minimap viewport -/

/-- Method `zoomBrain(delta)`. -/
def zoomBrain (s : State) (delta : ℚ) : State :=
  { s with brainScale := max (1 / 2) (min 3 (s.brainScale + delta)) }

/-- Method `resetBrainView()`. -/
def resetBrainView (s : State) : State :=
  { s with brainScale := 1, brainPosition := { x := 0, y := 0 } }

/-- The width and height of a `getBoundingClientRect()`. -/
structure Rect where
  width : ℚ
  height : ℚ
  deriving DecidableEq

/-- The style `updateMinimapViewport` writes on the viewport element, in pixels. -/
structure ViewportStyle where
  width : ℚ
  height : ℚ
  left : ℚ
  top : ℚ
  deriving DecidableEq

/-- Method `updateMinimapViewport()`: the style written, `none` when the
method returns at its guard.  `hasViewport` tells that the viewport element
exists, `container` and `minimapRect` are the two bounding rectangles,
`offsetWidth` and `offsetHeight` the layout size of the neural network. -/
def updateMinimapViewport (s : State) (hasViewport : Bool) (container minimapRect : Rect)
    (offsetWidth offsetHeight : ℚ) : Option ViewportStyle :=
  if !s.minimap || !hasViewport then none
  else
    let brainWidth := offsetWidth * s.brainScale
    let brainHeight := offsetHeight * s.brainScale
    let scaleX := minimapRect.width / brainWidth
    let scaleY := minimapRect.height / brainHeight
    let viewportLeft := (-s.brainPosition.x / s.brainScale) * scaleX
    let viewportTop := (-s.brainPosition.y / s.brainScale) * scaleY
    let viewportWidth := (container.width / s.brainScale) * scaleX
    let viewportHeight := (container.height / s.brainScale) * scaleY
    some
      { width := min viewportWidth minimapRect.width,
        height := min viewportHeight minimapRect.height,
        left := max 0 (min viewportLeft (minimapRect.width - viewportWidth)),
        top := max 0 (min viewportTop (minimapRect.height - viewportHeight)) }

/-- The two controls that write the view scale. -/
inductive ViewOp where
  | zoomBrain (delta : ℚ)
  | resetBrainView
  deriving DecidableEq

/-- The program state after one view control has run. -/
def viewStep (s : State) : ViewOp → State
  | .zoomBrain delta => zoomBrain s delta
  | .resetBrainView => resetBrainView s

/-- The program state after a sequence of view controls. -/
def runView (s : State) (ops : List ViewOp) : State :=
  ops.foldl viewStep s

/-! ## The engine on every page id and every counter value (`Exact`)

The definitions above take a property read `obj[pageId]` to find the own keys
of the object only, and a counter to be a natural number with `++` adding
one.  That is what the program does as long as no page id is a name that a
plain object inherits from `Object.prototype` and the counters are below
`2^53`.  The namespace `Exact` gives the methods on which this matters
without these two restrictions: a property read sees the inherited names, a
counter is the double the program holds, and a `TypeError` is an outcome of
its own. -/

namespace Exact

/-- The property names a plain object inherits from `Object.prototype`.  The
value read under each is a function, under `__proto__` the prototype object:
it is truthy, it has no property `title`, and used as a key of `neurons` it
names no neuron. -/
def inheritedNames : List String :=
  ["constructor", "__defineGetter__", "__defineSetter__", "hasOwnProperty",
   "__lookupGetter__", "__lookupSetter__", "isPrototypeOf", "propertyIsEnumerable",
   "toString", "valueOf", "__proto__", "toLocaleString"]

/-- What the property read `obj[key]` gives on a plain object: the value of an
own key, the value inherited under a name of `Object.prototype`, or `undefined`. -/
inductive Lookup (α : Type) where
  | own (value : α)
  | inherited (name : String)
  | undefined
  deriving DecidableEq

/-- The property read `obj[key]` on a plain object with own entries `m`. -/
def lookup {α : Type} (m : Dict String α) (key : String) : Lookup α :=
  match Dict.get m key with
  | some value => .own value
  | none => if key ∈ inheritedNames then .inherited key else .undefined

/-- A value held where the program expects a neuron id: the id `neuron-k`, or
the value inherited under a name of `Object.prototype`. -/
inductive Ref where
  | neuron (id : NeuronId)
  | inherited (name : String)
  deriving DecidableEq

/-- The expression `++counter` on a double that holds a natural number: below
`2^53` it adds one; from `2^53` on the sum is rounded to the nearest double,
ties to even, which is the number itself except between `2^53` and `2^54`
at a number that is 2 modulo 4, where it is the number plus two. -/
def increment (n : Nat) : Nat :=
  if n < 9007199254740992 then n + 1
  else if n < 18014398509481984 ∧ n % 4 = 2 then n + 2
  else n

/-- The tab data stored in `this.tabs`; `none` stands for `null` or `undefined`. -/
structure Tab where
  id : TabId
  title : Option String
  url : Lookup String
  pageId : PageId
  neuronId : Option Ref
  isWebUrl : Option Bool
  deriving DecidableEq

/-- The fields of `BrainBrowser` that the graph engine reads and writes. -/
structure State where
  config : Dict String CfgVal
  neuronTemplateLabel : String
  minimap : Bool
  neurons : Dict NeuronId Neuron
  synapses : List SynapseId
  tabs : Dict TabId Tab
  pageNeurons : Dict PageId NeuronId
  minimapNeurons : Dict NeuronId MinimapNeuron
  minimapSynapses : List SynapseId
  activeTabId : Option TabId
  lastTabId : Nat
  lastNeuronId : Nat
  brainScale : ℚ
  brainPosition : Position
  deriving DecidableEq

/-- The state the constructor builds before it loads anything. -/
def State.empty (templateLabel : String) (hasMinimap : Bool) : State :=
  { config := defaultConfig,
    neuronTemplateLabel := templateLabel,
    minimap := hasMinimap,
    neurons := [],
    synapses := [],
    tabs := [],
    pageNeurons := [],
    minimapNeurons := [],
    minimapSynapses := [],
    activeTabId := none,
    lastTabId := 0,
    lastNeuronId := 0,
    brainScale := 1,
    brainPosition := { x := 0, y := 0 } }

/-- The result of a method that may raise a `TypeError`, with the state as
mutated up to the return or the throw. -/
inductive Outcome where
  | returned (s : State)
  | threw (s : State)
  deriving DecidableEq

/-- The program state after the call, raised or not. -/
def Outcome.state : Outcome → State
  | .returned s => s
  | .threw s => s

/-- Whether the call raised. -/
def Outcome.raised : Outcome → Bool
  | .returned _ => false
  | .threw _ => true

/-- Worker of `splitWhitespace`; `prevWs` tells that the previous character
was white space, so that a run of white space separates only once.  The class
`\s` is the set of characters `trim` removes. -/
def splitWhitespaceGo : Bool → List Char → List (List Char)
  | _, [] => [[]]
  | prevWs, c :: cs =>
    if isTrimmed c then
      if prevWs then splitWhitespaceGo true cs else [] :: splitWhitespaceGo true cs
    else
      match splitWhitespaceGo false cs with
      | [] => [[c]]
      | w :: ws => (c :: w) :: ws

/-- The call `str.split(/\s+/)`. -/
def splitWhitespace (cs : List Char) : List (List Char) :=
  splitWhitespaceGo false cs

/-- The words of `title.toLowerCase().split(/\s+/)` longer than three
characters.  The titles of the catalog are ASCII text, on which `toLowerCase`
is `Char.toLower` on every character. -/
def titleWords (title : String) : List (List Char) :=
  (splitWhitespace (title.toList.map Char.toLower)).filter (fun w => decide (w.length > 3))

/-- Method `pagesAreRelated(pageId1, pageId2)`: the value returned, `none` when
the call raises a `TypeError`.  It returns `false` when one of the two reads
of `mockPages` is `undefined`; after that an inherited value has no `title`,
and `page.title.toLowerCase()` raises. -/
def pagesAreRelated (pageId1 pageId2 : PageId) : Option Bool :=
  match lookup mockPages pageId1, lookup mockPages pageId2 with
  | .undefined, _ => some false
  | _, .undefined => some false
  | .own page1, .own page2 =>
    let titleWords1 := titleWords page1.title
    let titleWords2 := titleWords page2.title
    if titleWords1.any (fun word => decide (word ∈ titleWords2)) then some true
    else
      some (includesChars page1.content.toList (linkReference pageId2)
        || includesChars page2.content.toList (linkReference pageId1))
  | _, _ => none

/-- The loop of `findRelatedPages(pageId)` over the keys of `pageNeurons`:
`none` when a call of `pagesAreRelated` raises. -/
def findRelatedPagesGo (pageId : PageId) : List PageId → Option (List PageId)
  | [] => some []
  | existingPageId :: rest =>
    if existingPageId = pageId then findRelatedPagesGo pageId rest
    else
      match pagesAreRelated pageId existingPageId with
      | none => none
      | some related =>
        (findRelatedPagesGo pageId rest).map
          (fun relatedPages => if related then existingPageId :: relatedPages else relatedPages)

/-- Method `findRelatedPages(pageId)`; `none` when it raises. -/
def findRelatedPages (s : State) (pageId : PageId) : Option (List PageId) :=
  findRelatedPagesGo pageId (Dict.keys s.pageNeurons)

/-- The loop of `getClusteredPosition` over the related pages, which are own
keys of `pageNeurons`: the sums of the coordinates of their live neurons and
the number of those neurons. -/
def sumRelated (s : State) (relatedPageIds : List PageId) : ℚ × ℚ × Nat :=
  relatedPageIds.foldl
    (fun acc relatedPageId =>
      match Dict.get s.pageNeurons relatedPageId with
      | some relatedNeuronId =>
        match Dict.get s.neurons relatedNeuronId with
        | some neuron => (acc.1 + neuron.left, acc.2.1 + neuron.top, acc.2.2 + 1)
        | none => acc
      | none => acc)
    (0, 0, 0)

/-- Method `getClusteredPosition(pageId)`; `none` when it raises. -/
def getClusteredPosition (s : State) (pageId : PageId) (rnd : Rnd) : Option Position :=
  let position : Position :=
    { x := getRandomPosition 30 70 rnd.r1, y := getRandomPosition 30 70 rnd.r2 }
  match findRelatedPages s pageId with
  | none => none
  | some relatedPageIds =>
    if relatedPageIds.length > 0 then
      let totals := sumRelated s relatedPageIds
      let count := totals.2.2
      if count > 0 then
        let avgX := totals.1 / count
        let avgY := totals.2.1 / count
        some
          { x := max 10 (min 90 (avgX + getRandomPosition (-10) 10 rnd.r3)),
            y := max 10 (min 90 (avgY + getRandomPosition (-10) 10 rnd.r4)) }
      else some position
    else some position

/-- Method `addNeuronToMinimap(neuronId)`. -/
def addNeuronToMinimap (s : State) (neuronId : NeuronId) : State :=
  if s.minimap then
    match Dict.get s.neurons neuronId with
    | none => s
    | some neuron =>
      { s with minimapNeurons := Dict.set s.minimapNeurons neuronId
                 { left := neuron.left, top := neuron.top,
                   active := neuron.active, current := neuron.current } }
  else s

/-- The result of `createNeuron`: the state and the value returned, or the
state at the throw. -/
inductive Created where
  | returned (s : State) (neuronId : Ref)
  | threw (s : State)
  deriving DecidableEq

/-- The program state after `createNeuron`, raised or not. -/
def Created.state : Created → State
  | .returned s _ => s
  | .threw s => s

/-- The value `createNeuron` returned, `none` when it raised. -/
def Created.neuronId : Created → Option Ref
  | .returned _ neuronId => some neuronId
  | .threw _ => none

/-- Method `createNeuron(pageId, title, position = null)`.  The read
`this.pageNeurons[pageId]` is truthy for an own key and for an inherited name,
and its value is returned; otherwise the id is minted with `++this.lastNeuronId`
and the neuron is stored under it, in place of a neuron that has that id. -/
def createNeuron (s : State) (pageId : PageId) (title : String)
    (position : Option Position) (rnd : Rnd) : Created :=
  match lookup s.pageNeurons pageId with
  | .own existing => .returned s (.neuron existing)
  | .inherited name => .returned s (.inherited name)
  | .undefined =>
    let neuronId := increment s.lastNeuronId
    let s1 := { s with lastNeuronId := neuronId }
    let pos := match position with
      | some p => some p
      | none => getClusteredPosition s1 pageId rnd
    match pos with
    | none => .threw s1
    | some pos =>
      let neuron : Neuron :=
        { pageId := pageId,
          label := if title = "" then s1.neuronTemplateLabel else title,
          left := pos.x, top := pos.y, active := false, current := false }
      let s2 := { s1 with neurons := Dict.set s1.neurons neuronId neuron,
                          pageNeurons := Dict.set s1.pageNeurons pageId neuronId }
      .returned (addNeuronToMinimap s2 neuronId) (.neuron neuronId)

/-- Method `addSynapseToMinimap(fromId, toId)`. -/
def addSynapseToMinimap (s : State) (fromId toId : NeuronId) : State :=
  if s.minimap then
    match Dict.get s.neurons fromId, Dict.get s.neurons toId with
    | some _, some _ =>
      if (fromId, toId) ∈ s.minimapSynapses then s
      else { s with minimapSynapses := s.minimapSynapses ++ [(fromId, toId)] }
    | _, _ => s
  else s

/-- Method `createSynapse(fromId, toId)`.  With an inherited value for an end
the key is no stored key and `this.neurons[...]` is `undefined`: the method
logs and returns. -/
def createSynapse (s : State) (fromRef toRef : Ref) : State :=
  match fromRef, toRef with
  | .neuron fromId, .neuron toId =>
    if (fromId, toId) ∈ s.synapses then s
    else
      match Dict.get s.neurons fromId, Dict.get s.neurons toId with
      | some _, some _ =>
        addSynapseToMinimap { s with synapses := s.synapses ++ [(fromId, toId)] } fromId toId
      | _, _ => s
  | _, _ => s

/-- Second loop of `activateTab`: the neuron of every open tab gets `active`;
an inherited value names no neuron. -/
def markActive (tabs : Dict TabId Tab) (neurons : Dict NeuronId Neuron) : Dict NeuronId Neuron :=
  tabs.foldl
    (fun acc e =>
      match e.2.neuronId with
      | some (.neuron neuronId) => Dict.modify acc neuronId (fun n => { n with active := true })
      | _ => acc)
    neurons

/-- Method `activateTab(tabId)`.  The read `this.pageNeurons[pageId]` under an
inherited name gives a value that names no neuron, so that only an own key
marks a neuron `current`. -/
def activateTab (s : State) (tabId : TabId) : State :=
  match Dict.get s.tabs tabId with
  | none => s
  | some tab =>
    let neurons :=
      markCurrent s.pageNeurons tab.pageId (markActive s.tabs (clearNeuronStates s.neurons))
    { s with activeTabId := some tabId,
             neurons := neurons,
             minimapNeurons := syncMinimapStates neurons s.minimapNeurons }

/-- The synapse policy at the end of `navigateTo`. -/
def navigateSynapse (s : State) (pageId oldPageId : PageId) (oldNeuronId : Option Ref)
    (neuronId : Ref) (sourceNeuronId : Option NeuronId) (withSynapse : Bool) : State :=
  match sourceNeuronId.filter
      (fun source => decide (Ref.neuron source ≠ neuronId) && withSynapse) with
  | some source => createSynapse s (.neuron source) neuronId
  | none =>
    match oldNeuronId.filter
        (fun _ => decide (oldPageId ≠ "") && decide (oldPageId ≠ pageId) && withSynapse) with
    | some old => createSynapse s old neuronId
    | none => s

/-- Method `navigateTo(pageId, tabId = null, sourceNeuronId = null, createSynapse = true)`.
The guard `!mockPages[pageId]` lets a catalog key and an inherited name pass;
for an inherited name the title read is `undefined`.  `createNeuron` makes
the read of `pageNeurons` the method makes before it calls it. -/
def navigateTo (s : State) (pageId : PageId) (tabId : Option TabId)
    (sourceNeuronId : Option NeuronId) (withSynapse : Bool) (rnd : Rnd) : Outcome :=
  match tabId <|> s.activeTabId with
  | none => .returned s
  | some targetTabId =>
    match lookup mockPages pageId with
    | .undefined => .returned s
    | page =>
      match Dict.get s.tabs targetTabId with
      | none => .threw s
      | some tab =>
        let title := match page with
          | .own found => some found.title
          | _ => none
        let oldPageId := tab.pageId
        let oldNeuronId := tab.neuronId
        match createNeuron s pageId (title.getD "") none rnd with
        | .threw s1 => .threw s1
        | .returned s1 neuronId =>
          let s2 :=
            { s1 with tabs := Dict.set s1.tabs targetTabId
                        { tab with title := title,
                                   url := lookup mockPageUrls pageId,
                                   pageId := pageId,
                                   neuronId := some neuronId,
                                   isWebUrl := some false } }
          let s3 :=
            navigateSynapse s2 pageId oldPageId oldNeuronId neuronId sourceNeuronId withSynapse
          .returned (activateTab s3 targetTabId)

/-- Method `createNewTab()`: the outcome and the tab id minted with
`++this.lastTabId`, under which the tab data is stored, in place of the data
of an open tab that has that id. -/
def createNewTab (s : State) (rnd : Rnd) : Outcome × TabId :=
  let tabId := increment s.lastTabId
  let s1 :=
    { s with lastTabId := tabId,
             tabs := Dict.set s.tabs tabId
               { id := tabId, title := some "New Tab", url := .own "", pageId := "",
                 neuronId := none, isWebUrl := none } }
  let s2 := activateTab s1 tabId
  (navigateTo s2 "home" (some tabId) none true rnd, tabId)

/-- The loop of `loadFromLocalStorage` over the saved neurons; a neuron
created at a given position calls no `getClusteredPosition`. -/
def restoreNeurons (s : State) (saved : Dict NeuronId NeuronData) (rnd : Rnd) : State :=
  saved.foldl
    (fun st e =>
      match createNeuron st e.2.pageId e.2.label (some { x := e.2.left, y := e.2.top }) rnd with
      | .returned st1 _ => st1
      | .threw st1 => st1)
    s

/-- The loop of `loadFromLocalStorage` over the saved synapse keys. -/
def restoreSynapses (s : State) (saved : List SynapseId) : State :=
  saved.foldl (fun st sid => createSynapse st (.neuron sid.1) (.neuron sid.2)) s

/-- Method `loadFromLocalStorage()`; `stored` is what the store holds under
the key `brainBrowser`, `none` when it holds nothing.  The counters of the
record are the doubles `JSON.parse` gives. -/
def loadFromLocalStorage (s : State) (stored : Option SaveData) (rnd : Rnd) : State :=
  match stored with
  | none => s
  | some data =>
    let s1 := match data.config with
      | some config => { s with config := mergeConfig s.config config }
      | none => s
    let s2 := restoreNeurons s1 data.neurons rnd
    let s3 := restoreSynapses s2 data.synapses
    { s3 with lastNeuronId := max s3.lastNeuronId data.lastNeuronId,
              lastTabId := max s3.lastTabId data.lastTabId }

end Exact

/-! ## Notions used in the statements and proofs -/

/-- The neurons as the saved record shows them: without the classes `active` and `current`. -/
def State.graph (s : State) : Dict NeuronId NeuronData :=
  Dict.mapVals Neuron.data s.neurons

/-- The neuron element `createNeuron` builds for a page that has none. -/
def newNeuron (s : State) (pageId : PageId) (title : String) (position : Option Position)
    (rnd : Rnd) : Neuron :=
  let pos := match position with
    | some p => p
    | none => getClusteredPosition { s with lastNeuronId := s.lastNeuronId + 1 } pageId rnd
  { pageId := pageId,
    label := if title = "" then s.neuronTemplateLabel else title,
    left := pos.x, top := pos.y, active := false, current := false }

/-- What holds of the program state throughout a session. -/
structure Inv (s : State) : Prop where
  neurons_nodup : (Dict.keys s.graph).Nodup
  tabs_nodup : (Dict.keys s.tabs).Nodup
  pages_nodup : (Dict.keys s.pageNeurons).Nodup
  synapses_nodup : s.synapses.Nodup
  page_neuron : ∀ p n, Dict.get s.pageNeurons p = some n →
    ∃ d, Dict.get s.graph n = some d ∧ d.pageId = p
  neuron_page : ∀ n d, Dict.get s.graph n = some d → Dict.get s.pageNeurons d.pageId = some n
  neuron_le : ∀ n, n ∈ Dict.keys s.graph → n ≤ s.lastNeuronId
  tab_le : ∀ t, t ∈ Dict.keys s.tabs → t ≤ s.lastTabId
  tab_neuron : ∀ t tab n, Dict.get s.tabs t = some tab → tab.neuronId = some n →
    ∃ d, Dict.get s.graph n = some d ∧ d.pageId = tab.pageId
  active_open : ∀ t, s.activeTabId = some t → t ∈ Dict.keys s.tabs
  synapse_live : ∀ a b, (a, b) ∈ s.synapses → a ∈ Dict.keys s.graph ∧ b ∈ Dict.keys s.graph
  label_ok : ∀ n d, Dict.get s.graph n = some d → d.label ≠ "" ∨ d.label = s.neuronTemplateLabel

/-- The tab data `navigateTo` writes. -/
def navigatedTab (tab : Tab) (page : Page) (pageId : PageId) (neuronId : NeuronId) : Tab :=
  { tab with title := page.title, url := Dict.get mockPageUrls pageId, pageId := pageId,
             neuronId := some neuronId, isWebUrl := some false }

/-- The tabs `removeNeuron` closes: those bound to the neuron. -/
def tabsToClose (s : State) (neuronId : NeuronId) : List TabId :=
  Dict.keys (s.tabs.filter (fun e => decide (e.2.neuronId = some neuronId)))

/-- Whether a synapse has the neuron as an endpoint. -/
def touches (neuronId : NeuronId) (sid : SynapseId) : Bool :=
  decide (sid.1 = neuronId) || decide (sid.2 = neuronId)

/-- The two states have the same graph, tabs and counters. -/
structure SameCore (s s' : State) : Prop where
  graph : s'.graph = s.graph
  tabs : s'.tabs = s.tabs
  pageNeurons : s'.pageNeurons = s.pageNeurons
  synapses : s'.synapses = s.synapses
  activeTabId : s'.activeTabId = s.activeTabId
  lastNeuronId : s'.lastNeuronId = s.lastNeuronId
  lastTabId : s'.lastTabId = s.lastTabId
  neuronTemplateLabel : s'.neuronTemplateLabel = s.neuronTemplateLabel
  minimap : s'.minimap = s.minimap

/-- The draws `1/2, 1/2, 1/2, 1/2` of `Math.random()`, used in the examples. -/
def rndHalf : Rnd :=
  { r1 := 1 / 2, r2 := 1 / 2, r3 := 1 / 2, r4 := 1 / 2 }

/-- A session that visits three pages in one tab: `home` (`neuron-1`),
`about` (`neuron-2`) and `features` (`neuron-3`), with the synapses
`neuron-1_neuron-2` and `neuron-2_neuron-3`. -/
def threePages : List Op :=
  [.createNewTab rndHalf,
   .navigateTo "about" none none true rndHalf,
   .navigateTo "features" none none true rndHalf]

/-- A session in which the neuron of `home` is removed after `about`,
`features` (first tab) and `science` (second tab) were visited. -/
def homeRemoved : List Op :=
  threePages ++
    [.createNewTab rndHalf,
     .navigateTo "science" none none true rndHalf,
     .removeNeuron 1]

/-- Neither counter is lower in `s'` than in `s`, and the two fields taken
from the host document are the same. -/
structure Grows (s s' : State) : Prop where
  neuron : s.lastNeuronId ≤ s'.lastNeuronId
  tab : s.lastTabId ≤ s'.lastTabId
  template : s'.neuronTemplateLabel = s.neuronTemplateLabel
  minimap : s'.minimap = s.minimap

/-- One pass of the loop of `loadFromLocalStorage` over the saved neurons. -/
def restoreNeuron (st : State) (e : NeuronId × NeuronData) (rnd : Rnd) : State :=
  match Dict.get st.pageNeurons e.2.pageId with
  | some _ => st
  | none => (createNeuron st e.2.pageId e.2.label (some { x := e.2.left, y := e.2.top }) rnd).1

/-- The state in which `loadFromLocalStorage` starts its loops: the configuration merged. -/
def withConfig (s : State) (config : Option (Dict String CfgVal)) : State :=
  match config with
  | some config => { s with config := mergeConfig s.config config }
  | none => s

/-- What holds of the tabs and the active-tab pointer throughout a session: a
tab has no neuron exactly when it has no page, and some tab is active
whenever a tab is open. -/
structure TabInv (tabs : Dict TabId Tab) (activeTabId : Option TabId) : Prop where
  tab_page : ∀ e ∈ tabs, (e.2.neuronId = none ↔ e.2.pageId = "")
  has_active : tabs ≠ [] → activeTabId ≠ none

/-- The synapse keys `keys` plus the key `sid`: unchanged when it is there already. -/
def addKey (keys : List SynapseId) (sid : SynapseId) : List SynapseId :=
  if sid ∈ keys then keys else keys ++ [sid]

/-- The synapse policy of `navigateTo`, as the code has it, for a call from
the state `s` with target tab `t`: writing `d` for the destination neuron
(the neuron of `pageId` after the call) and `after` for the synapse keys
after the call,
* with a synapse wanted and a source given that differs from `d`, `after` is
  the old keys plus `source_d` when the source is a live neuron, and the old
  keys when it is not;
* otherwise, with a synapse wanted and the tab showing before a non-empty
  page other than `pageId`, `after` is the old keys plus `prior_d`, `prior`
  being the neuron the tab was bound to;
* in every other case `after` is the old keys. -/
def SynapsePolicy (s : State) (pageId : PageId) (t : TabId) (sourceNeuronId : Option NeuronId)
    (withSynapse : Bool) (after : State) : Prop :=
  ∀ d tab, Dict.get after.pageNeurons pageId = some d → Dict.get s.tabs t = some tab →
    (∀ src, withSynapse = true → sourceNeuronId = some src → src ≠ d →
        src ∈ Dict.keys s.neurons → after.synapses = addKey s.synapses (src, d))
      ∧ (∀ src, withSynapse = true → sourceNeuronId = some src → src ≠ d →
        src ∉ Dict.keys s.neurons → after.synapses = s.synapses)
      ∧ (withSynapse = true → (sourceNeuronId = none ∨ sourceNeuronId = some d) →
        tab.pageId ≠ "" → tab.pageId ≠ pageId →
        ∃ prior, tab.neuronId = some prior ∧ after.synapses = addKey s.synapses (prior, d))
      ∧ ((withSynapse = false
          ∨ ((sourceNeuronId = none ∨ sourceNeuronId = some d)
              ∧ (tab.pageId = "" ∨ tab.pageId = pageId))) →
        after.synapses = s.synapses)

/-- The session used to instantiate C12: one tab, on `about` after `home`. -/
def homeThenAbout : List Op :=
  [.createNewTab rndHalf, .navigateTo "about" none none true rndHalf]

/-- No stored synapse joins a neuron to itself. -/
def NoLoop (s : State) : Prop :=
  ∀ a, (a, a) ∉ s.synapses

/-- The entry points a user reaches: `createNewTab`, `navigateTo`,
`navigateToRealUrl`, `activatePageNeuron`, the action `connect` of the
context menu, `closeTab` and `removeNeuron`. -/
def Op.isUserEntry : Op → Bool
  | .createNewTab _ => true
  | .navigateTo _ _ _ _ _ => true
  | .navigateToRealUrl _ _ _ _ => true
  | .activatePageNeuron _ _ _ => true
  | .connectToCurrent _ => true
  | .closeTab _ => true
  | .removeNeuron _ => true
  | _ => false

/-- The state in which `createNewTab` calls `navigateTo`: the new tab stored and activated. -/
def openedTab (s : State) : State :=
  activateTab
    { s with lastTabId := s.lastTabId + 1,
             tabs := Dict.set s.tabs (s.lastTabId + 1)
               { id := s.lastTabId + 1, title := "New Tab", url := some "", pageId := "",
                 neuronId := none, isWebUrl := none } }
    (s.lastTabId + 1)

/-- A session through every kind of user entry point. -/
def userSession : List Op :=
  [.createNewTab rndHalf,
   .navigateTo "about" none none true rndHalf,
   .navigateTo "features" none (some 1) true rndHalf,
   .createNewTab rndHalf,
   .navigateToRealUrl "example.org" (some "example.org") rndHalf rndHalf,
   .activatePageNeuron "about" rndHalf rndHalf,
   .connectToCurrent 1,
   .closeTab 1,
   .removeNeuron 2]

/-- The tab `tab-1` after the session `homeThenAbout`: on `about`, bound to `neuron-2`. -/
def aboutTab : Tab :=
  { id := 1,
    title := ((Dict.get mockPages "about").map (fun page => page.title)).getD "",
    url := Dict.get mockPageUrls "about",
    pageId := "about",
    neuronId := some 2,
    isWebUrl := some false }

/-- A saved record with a two-key configuration: one key of the defaults and a new one. -/
def recordWithConfig : SaveData :=
  { neurons := [], synapses := [], pageNeurons := [], lastNeuronId := 0, lastTabId := 0,
    config := some [("logLevel", .str "none"), ("theme", .str "dark")] }

/-- A view panned to the right and zoomed in, with a minimap. -/
def pannedView : State :=
  { State.empty "" true with brainScale := 2, brainPosition := { x := -300, y := 50 } }

/-- The neurons `getClusteredPosition(pageId)` averages: for each related page
with an entry in `pageNeurons` whose neuron is live, that neuron. -/
def relatedNeurons (s : State) (pageId : PageId) : List Neuron :=
  (findRelatedPages s pageId).filterMap
    (fun p => (Dict.get s.pageNeurons p).bind (fun n => Dict.get s.neurons n))

/-- The arithmetic mean of a list of numbers. -/
def mean (xs : List ℚ) : ℚ :=
  xs.sum / xs.length

/-- The mean of the `left` coordinates of the related neurons. -/
def relatedMeanX (s : State) (pageId : PageId) : ℚ :=
  mean ((relatedNeurons s pageId).map (fun n => n.left))

/-- The mean of the `top` coordinates of the related neurons. -/
def relatedMeanY (s : State) (pageId : PageId) : ℚ :=
  mean ((relatedNeurons s pageId).map (fun n => n.top))

/-- A state with the neurons of the pages `search`, at (40, 40), and
`features`, at (60, 60); both pages are related to `navigation`. -/
def clusterState : State :=
  { State.empty "" true with
    neurons :=
      [(1, { pageId := "search", label := "Search Capabilities", left := 40, top := 40,
             active := false, current := false }),
       (2, { pageId := "features", label := "Features", left := 60, top := 60,
             active := false, current := false })],
    pageNeurons := [("search", 1), ("features", 2)],
    lastNeuronId := 2 }

/-- A property of the state that the building blocks of the entry points
keep: then every entry point keeps it (`kept_step`). -/
structure Kept (P : State → Prop) : Prop where
  activateTab : ∀ s t, P s → P (activateTab s t)
  closeTab : ∀ s t, P s → P (closeTab s t)
  createSynapse : ∀ s a b, P s → P (createSynapse s a b)
  createNeuron : ∀ s pageId title position rnd, P s →
    P (createNeuron s pageId title position rnd).1
  removeNeuron : ∀ s n, P s → P (removeNeuron s n)
  dragNeuron : ∀ s n deltaX deltaY offsetWidth offsetHeight, P s →
    P (dragNeuron s n deltaX deltaY offsetWidth offsetHeight)
  setTabs : ∀ (s : State) tabs, P s → P { s with tabs := tabs }
  setLastTabId : ∀ (s : State) k, P s → P { s with lastTabId := k }
  setLastNeuronId : ∀ (s : State) k, P s → P { s with lastNeuronId := k }
  setConfig : ∀ (s : State) config, P s → P { s with config := config }

/-- The positions of the neurons, by id. -/
def State.layout (s : State) : Dict NeuronId (ℚ × ℚ) :=
  Dict.mapVals (fun n : Neuron => (n.left, n.top)) s.neurons

/-- The positions of the minimap neurons, by id. -/
def State.miniLayout (s : State) : Dict NeuronId (ℚ × ℚ) :=
  Dict.mapVals (fun m : MinimapNeuron => (m.left, m.top)) s.minimapNeurons

/-- The minimap mirrors the graph: there is a minimap element, the minimap
neurons have the ids and the positions of the neurons, in the same order, and
the minimap synapses have the keys of the synapses. -/
structure Mini (s : State) : Prop where
  flag : s.minimap = true
  layout : s.miniLayout = s.layout
  synapses : s.minimapSynapses = s.synapses

/-- A stored record without neurons whose `lastNeuronId` is `2^53`. -/
def recordNeuronCounter : SaveData :=
  { neurons := [], synapses := [], pageNeurons := [], lastNeuronId := 9007199254740992,
    lastTabId := 0, config := none }

/-- A stored record without neurons whose `lastTabId` is `2^53`. -/
def recordTabCounter : SaveData :=
  { neurons := [], synapses := [], pageNeurons := [], lastNeuronId := 0,
    lastTabId := 9007199254740992, config := none }

/-- The state the constructor builds when the store holds `recordNeuronCounter`. -/
def afterNeuronCounter : Exact.State :=
  Exact.loadFromLocalStorage (Exact.State.empty "" true) (some recordNeuronCounter) rndHalf

/-- The state the constructor builds when the store holds `recordTabCounter`. -/
def afterTabCounter : Exact.State :=
  Exact.loadFromLocalStorage (Exact.State.empty "" true) (some recordTabCounter) rndHalf

/-- The session of C1 on the code: the store holds `recordNeuronCounter`, a tab
is opened (on `home`) and navigated to `about`. -/
def sharedNeuronState : Exact.State :=
  (Exact.navigateTo (Exact.createNewTab afterNeuronCounter rndHalf).1.state "about" none none
    true rndHalf).state

/-- The state after `createNewTab()` in a fresh document: `tab-1` on `home`,
bound to `neuron-1`. -/
def oneTab : Exact.State :=
  (Exact.createNewTab (Exact.State.empty "" true) rndHalf).1.state

/-- The relatedness of two pages in the words of the specification, written
with the library: both ids are keys of the catalog, and either the titles,
lower-cased (`String.toLower`) and split at white space (`List.splitOnP`),
share a word of more than three characters, or the content of one contains
(`List.IsInfix`) the text `data-page-id="<id>"` for the id of the other. -/
def RelatedBySpec (a b : PageId) : Prop :=
  ∃ pa pb, (a, pa) ∈ mockPages ∧ (b, pb) ∈ mockPages
    ∧ ((∃ w, w ∈ List.splitOnP Char.isWhitespace pa.title.toLower.toList
          ∧ w ∈ List.splitOnP Char.isWhitespace pb.title.toLower.toList ∧ w.length > 3)
      ∨ ("data-page-id=\"" ++ b ++ "\"").toList <:+: pa.content.toList
      ∨ ("data-page-id=\"" ++ a ++ "\"").toList <:+: pb.content.toList)

/-- The tab data of the model on regular inputs, as the exact tab data. -/
def embedTab (tab : Tab) : Exact.Tab :=
  { id := tab.id,
    title := some tab.title,
    url := match tab.url with
      | some url => .own url
      | none => .undefined,
    pageId := tab.pageId,
    neuronId := tab.neuronId.map Exact.Ref.neuron,
    isWebUrl := tab.isWebUrl }

/-- A state of the model on regular inputs, as an exact state. -/
def embed (s : State) : Exact.State :=
  { config := s.config,
    neuronTemplateLabel := s.neuronTemplateLabel,
    minimap := s.minimap,
    neurons := s.neurons,
    synapses := s.synapses,
    tabs := Dict.mapVals embedTab s.tabs,
    pageNeurons := s.pageNeurons,
    minimapNeurons := s.minimapNeurons,
    minimapSynapses := s.minimapSynapses,
    activeTabId := s.activeTabId,
    lastTabId := s.lastTabId,
    lastNeuronId := s.lastNeuronId,
    brainScale := s.brainScale,
    brainPosition := s.brainPosition }

/-- An outcome of the model on regular inputs, as an exact outcome. -/
def embedOutcome : Outcome → Exact.Outcome
  | .returned s => .returned (embed s)
  | .threw s => .threw (embed s)

/-- No page with a neuron has a name inherited from `Object.prototype`. -/
def RegularPages (s : State) : Prop :=
  ∀ p ∈ Dict.keys s.pageNeurons, p ∉ Exact.inheritedNames

/-! ## Dictionary lemmas -/

namespace Dict

set_option linter.unusedSectionVars false

variable {κ ν μ : Type} [DecidableEq κ]

@[simp] theorem get_nil (k : κ) : get ([] : Dict κ ν) k = none := rfl

theorem get_cons (k' : κ) (v : ν) (rest : Dict κ ν) (k : κ) :
    get ((k', v) :: rest) k = if k' = k then some v else get rest k := rfl

theorem get_set (m : Dict κ ν) (k : κ) (v : ν) (k' : κ) :
    get (set m k v) k' = if k = k' then some v else get m k' := by
  induction m with
  | nil => simp [set, get_cons]
  | cons e rest ih =>
    obtain ⟨a, b⟩ := e
    by_cases h : a = k
    · subst h
      by_cases h2 : a = k' <;> simp [set, get_cons, h2]
    · by_cases h2 : a = k'
      · subst h2
        simp [set, get_cons, h, Ne.symm h]
      · simp [set, get_cons, h, h2, ih]

@[simp] theorem get_set_self (m : Dict κ ν) (k : κ) (v : ν) : get (set m k v) k = some v := by
  simp [get_set]

theorem get_set_ne (m : Dict κ ν) {k k' : κ} (v : ν) (h : k ≠ k') :
    get (set m k v) k' = get m k' := by
  simp [get_set, h]

theorem delete_cons (a : κ) (b : ν) (rest : Dict κ ν) (k : κ) :
    delete ((a, b) :: rest) k = if a = k then delete rest k else (a, b) :: delete rest k := by
  by_cases h : a = k <;> simp [delete, List.filter_cons, h]

theorem get_delete (m : Dict κ ν) (k k' : κ) :
    get (delete m k) k' = if k' = k then none else get m k' := by
  induction m with
  | nil => simp [delete]
  | cons e rest ih =>
    obtain ⟨a, b⟩ := e
    rw [delete_cons]
    by_cases h : a = k
    · subst h
      rw [if_pos rfl, ih, get_cons]
      by_cases h2 : k' = a
      · simp [h2]
      · simp [h2, Ne.symm h2]
    · rw [if_neg h, get_cons, get_cons, ih]
      by_cases h2 : a = k'
      · subst h2
        simp [h]
      · simp [h2]

@[simp] theorem get_delete_self (m : Dict κ ν) (k : κ) : get (delete m k) k = none := by
  simp [get_delete]

theorem get_delete_ne (m : Dict κ ν) {k k' : κ} (h : k' ≠ k) :
    get (delete m k) k' = get m k' := by
  simp [get_delete, h]

theorem mem_keys_iff (m : Dict κ ν) (k : κ) : k ∈ keys m ↔ ∃ v, get m k = some v := by
  induction m with
  | nil => simp [keys]
  | cons e rest ih =>
    obtain ⟨a, b⟩ := e
    by_cases h : a = k
    · subst h
      simp [keys, get_cons]
    · have h' : ¬ k = a := fun hh => h hh.symm
      simp only [keys, List.map_cons, List.mem_cons, h', false_or, get_cons, h, if_false]
      exact ih

theorem get_eq_none_iff (m : Dict κ ν) (k : κ) : get m k = none ↔ k ∉ keys m := by
  rw [mem_keys_iff]
  cases h : get m k <;> simp

theorem mem_of_get {m : Dict κ ν} {k : κ} {v : ν} (h : get m k = some v) : (k, v) ∈ m := by
  induction m with
  | nil => simp at h
  | cons e rest ih =>
    obtain ⟨a, b⟩ := e
    rw [get_cons] at h
    by_cases h1 : a = k
    · subst h1
      simp at h
      simp [h]
    · simp [h1] at h
      exact List.mem_cons_of_mem _ (ih h)

theorem mem_keys_of_mem {m : Dict κ ν} {k : κ} {v : ν} (h : (k, v) ∈ m) : k ∈ keys m :=
  List.mem_map.2 ⟨(k, v), h, rfl⟩

theorem get_of_mem {m : Dict κ ν} (hm : (keys m).Nodup) {k : κ} {v : ν} (h : (k, v) ∈ m) :
    get m k = some v := by
  induction m with
  | nil => simp at h
  | cons e rest ih =>
    obtain ⟨a, b⟩ := e
    simp only [keys, List.map_cons, List.nodup_cons] at hm
    rw [get_cons]
    rcases List.mem_cons.1 h with h1 | h1
    · cases h1
      simp
    · have hne : a ≠ k := by
        intro hak
        subst hak
        exact hm.1 (mem_keys_of_mem h1)
      simp [hne]
      exact ih hm.2 h1

theorem get_iff_mem {m : Dict κ ν} (hm : (keys m).Nodup) (k : κ) (v : ν) :
    get m k = some v ↔ (k, v) ∈ m :=
  ⟨mem_of_get, get_of_mem hm⟩

theorem keys_set (m : Dict κ ν) (k : κ) (v : ν) :
    keys (set m k v) = if k ∈ keys m then keys m else keys m ++ [k] := by
  induction m with
  | nil => simp [set, keys]
  | cons e rest ih =>
    obtain ⟨a, b⟩ := e
    by_cases h : a = k
    · subst h
      simp [set, keys]
    · have h' : ¬ k = a := fun hh => h hh.symm
      simp only [keys] at ih
      simp only [set, h, if_false, keys, List.map_cons, List.mem_cons, h', false_or, ih]
      split <;> simp

theorem set_of_not_mem {m : Dict κ ν} {k : κ} (h : k ∉ keys m) (v : ν) :
    set m k v = m ++ [(k, v)] := by
  induction m with
  | nil => simp [set]
  | cons e rest ih =>
    obtain ⟨a, b⟩ := e
    simp only [keys, List.map_cons, List.mem_cons, not_or] at h
    have h1 : ¬ a = k := fun hh => h.1 hh.symm
    simp [set, h1, ih h.2]

theorem keys_delete (m : Dict κ ν) (k : κ) :
    keys (delete m k) = (keys m).filter (fun a => decide (a ≠ k)) := by
  simp [keys, delete, List.filter_map, Function.comp_def]

theorem mem_delete_iff (m : Dict κ ν) (k : κ) (e : κ × ν) :
    e ∈ delete m k ↔ e ∈ m ∧ e.1 ≠ k := by
  simp [delete]

theorem nodup_keys_set {m : Dict κ ν} (hm : (keys m).Nodup) (k : κ) (v : ν) :
    (keys (set m k v)).Nodup := by
  rw [keys_set]
  split
  · exact hm
  · rename_i h
    exact List.Nodup.append hm (List.nodup_singleton k) (by simpa using h)

theorem nodup_keys_delete {m : Dict κ ν} (hm : (keys m).Nodup) (k : κ) :
    (keys (delete m k)).Nodup := by
  rw [keys_delete]
  exact hm.filter _

theorem mem_set_iff {m : Dict κ ν} (hm : (keys m).Nodup) (k : κ) (v : ν) (e : κ × ν) :
    e ∈ set m k v ↔ e = (k, v) ∨ (e ∈ m ∧ e.1 ≠ k) := by
  obtain ⟨a, b⟩ := e
  rw [← get_iff_mem (nodup_keys_set hm k v), get_set]
  by_cases h : k = a
  · subst h
    simp [eq_comm]
  · have h' : ¬ a = k := fun hh => h hh.symm
    simp [h, h', get_iff_mem hm]

@[simp] theorem keys_mapVals (f : ν → μ) (m : Dict κ ν) : keys (mapVals f m) = keys m := by
  simp [keys, mapVals, Function.comp_def]

theorem get_mapVals (f : ν → μ) (m : Dict κ ν) (k : κ) :
    get (mapVals f m) k = (get m k).map f := by
  induction m with
  | nil => simp [mapVals]
  | cons e rest ih =>
    obtain ⟨a, b⟩ := e
    simp only [mapVals, List.map_cons] at ih ⊢
    rw [get_cons, get_cons, ih]
    split <;> simp

theorem mapVals_set (f : ν → μ) (m : Dict κ ν) (k : κ) (v : ν) :
    mapVals f (set m k v) = set (mapVals f m) k (f v) := by
  induction m with
  | nil => simp [mapVals, set]
  | cons e rest ih =>
    obtain ⟨a, b⟩ := e
    simp only [mapVals, List.map_cons, set] at ih ⊢
    split
    · simp
    · simp [ih]

theorem mapVals_delete (f : ν → μ) (m : Dict κ ν) (k : κ) :
    mapVals f (delete m k) = delete (mapVals f m) k := by
  simp [mapVals, delete, List.filter_map, Function.comp_def]

theorem mapVals_mapVals {ρ : Type} (g : μ → ρ) (f : ν → μ) (m : Dict κ ν) :
    mapVals g (mapVals f m) = mapVals (fun v => g (f v)) m := by
  simp [mapVals, Function.comp_def]

theorem mapVals_set_same (g : ν → μ) {m : Dict κ ν} {k : κ} {v v' : ν}
    (h : get m k = some v) (hg : g v' = g v) : mapVals g (set m k v') = mapVals g m := by
  induction m with
  | nil => simp at h
  | cons e rest ih =>
    obtain ⟨a, b⟩ := e
    rw [get_cons] at h
    by_cases h1 : a = k
    · subst h1
      simp at h
      subst h
      simp [set, mapVals, hg]
    · simp [h1] at h
      simp only [mapVals, List.map_cons] at ih
      simp [set, h1, mapVals, ih h]

theorem mapVals_modify_same (g : ν → μ) (f : ν → ν) (hg : ∀ v, g (f v) = g v)
    (m : Dict κ ν) (k : κ) : mapVals g (modify m k f) = mapVals g m := by
  unfold modify
  cases h : get m k with
  | none => rfl
  | some v => exact mapVals_set_same g h (hg v)

theorem get_modify (m : Dict κ ν) (k : κ) (f : ν → ν) (k' : κ) :
    get (modify m k f) k' = if k = k' then (get m k').map f else get m k' := by
  unfold modify
  cases h : get m k with
  | none =>
    by_cases hk : k = k'
    · subst hk
      simp [h]
    · simp [hk]
  | some v =>
    rw [get_set]
    by_cases hk : k = k'
    · subst hk
      simp [h]
    · simp [hk]

@[simp] theorem keys_modify (m : Dict κ ν) (k : κ) (f : ν → ν) : keys (modify m k f) = keys m := by
  unfold modify
  cases h : get m k with
  | none => rfl
  | some v =>
    rw [keys_set]
    have : k ∈ keys m := (mem_keys_iff m k).2 ⟨v, h⟩
    simp [this]

end Dict

/-! ## How each method changes the fields of the state -/

theorem graph_eq_saved (s : State) : s.graph = (saveToLocalStorage s).neurons := rfl

theorem get_graph (s : State) (n : NeuronId) :
    Dict.get s.graph n = (Dict.get s.neurons n).map Neuron.data :=
  Dict.get_mapVals _ _ _

@[simp] theorem keys_graph (s : State) : Dict.keys s.graph = Dict.keys s.neurons :=
  Dict.keys_mapVals _ _

theorem data_clearNeuronStates (neurons : Dict NeuronId Neuron) :
    Dict.mapVals Neuron.data (clearNeuronStates neurons) = Dict.mapVals Neuron.data neurons := by
  unfold clearNeuronStates
  rw [Dict.mapVals_mapVals]
  rfl

theorem data_markActive (tabs : Dict TabId Tab) (neurons : Dict NeuronId Neuron) :
    Dict.mapVals Neuron.data (markActive tabs neurons) = Dict.mapVals Neuron.data neurons := by
  unfold markActive
  induction tabs generalizing neurons with
  | nil => rfl
  | cons e rest ih =>
    rw [List.foldl_cons, ih]
    cases e.2.neuronId with
    | none => rfl
    | some n =>
      apply Dict.mapVals_modify_same
      intro v
      rfl

theorem data_markCurrent (pageNeurons : Dict PageId NeuronId) (pageId : PageId)
    (neurons : Dict NeuronId Neuron) :
    Dict.mapVals Neuron.data (markCurrent pageNeurons pageId neurons)
      = Dict.mapVals Neuron.data neurons := by
  unfold markCurrent
  split
  · rfl
  · split
    · apply Dict.mapVals_modify_same
      intro v
      rfl
    · rfl

@[simp] theorem activateTab_graph (s : State) (t : TabId) : (activateTab s t).graph = s.graph := by
  unfold activateTab State.graph
  split
  · rfl
  · simp only [data_markCurrent, data_markActive, data_clearNeuronStates]

@[simp] theorem activateTab_synapses (s : State) (t : TabId) :
    (activateTab s t).synapses = s.synapses := by
  unfold activateTab; split <;> rfl

@[simp] theorem activateTab_tabs (s : State) (t : TabId) : (activateTab s t).tabs = s.tabs := by
  unfold activateTab; split <;> rfl

@[simp] theorem activateTab_pageNeurons (s : State) (t : TabId) :
    (activateTab s t).pageNeurons = s.pageNeurons := by
  unfold activateTab; split <;> rfl

@[simp] theorem activateTab_lastNeuronId (s : State) (t : TabId) :
    (activateTab s t).lastNeuronId = s.lastNeuronId := by
  unfold activateTab; split <;> rfl

@[simp] theorem activateTab_lastTabId (s : State) (t : TabId) :
    (activateTab s t).lastTabId = s.lastTabId := by
  unfold activateTab; split <;> rfl

@[simp] theorem activateTab_neuronTemplateLabel (s : State) (t : TabId) :
    (activateTab s t).neuronTemplateLabel = s.neuronTemplateLabel := by
  unfold activateTab; split <;> rfl

@[simp] theorem activateTab_minimap (s : State) (t : TabId) :
    (activateTab s t).minimap = s.minimap := by
  unfold activateTab; split <;> rfl

theorem activateTab_activeTabId (s : State) (t : TabId) :
    (activateTab s t).activeTabId = if t ∈ Dict.keys s.tabs then some t else s.activeTabId := by
  unfold activateTab
  split
  · rename_i h
    rw [if_neg ((Dict.get_eq_none_iff _ _).1 h)]
  · rename_i tab h
    rw [if_pos ((Dict.mem_keys_iff _ _).2 ⟨tab, h⟩)]

@[simp] theorem clearTabNeuron_graph (s : State) (t : TabId) :
    (clearTabNeuron s t).graph = s.graph := by
  unfold clearTabNeuron State.graph
  split
  · rfl
  · split
    · rfl
    · split
      · rfl
      · rename_i h
        exact Dict.mapVals_set_same _ h rfl

@[simp] theorem clearTabNeuron_tabs (s : State) (t : TabId) :
    (clearTabNeuron s t).tabs = s.tabs := by
  unfold clearTabNeuron; (repeat' split) <;> rfl

@[simp] theorem clearTabNeuron_synapses (s : State) (t : TabId) :
    (clearTabNeuron s t).synapses = s.synapses := by
  unfold clearTabNeuron; (repeat' split) <;> rfl

@[simp] theorem clearTabNeuron_pageNeurons (s : State) (t : TabId) :
    (clearTabNeuron s t).pageNeurons = s.pageNeurons := by
  unfold clearTabNeuron; (repeat' split) <;> rfl

@[simp] theorem clearTabNeuron_activeTabId (s : State) (t : TabId) :
    (clearTabNeuron s t).activeTabId = s.activeTabId := by
  unfold clearTabNeuron; (repeat' split) <;> rfl

@[simp] theorem clearTabNeuron_lastNeuronId (s : State) (t : TabId) :
    (clearTabNeuron s t).lastNeuronId = s.lastNeuronId := by
  unfold clearTabNeuron; (repeat' split) <;> rfl

@[simp] theorem clearTabNeuron_lastTabId (s : State) (t : TabId) :
    (clearTabNeuron s t).lastTabId = s.lastTabId := by
  unfold clearTabNeuron; (repeat' split) <;> rfl

@[simp] theorem clearTabNeuron_neuronTemplateLabel (s : State) (t : TabId) :
    (clearTabNeuron s t).neuronTemplateLabel = s.neuronTemplateLabel := by
  unfold clearTabNeuron; (repeat' split) <;> rfl

@[simp] theorem clearTabNeuron_minimap (s : State) (t : TabId) :
    (clearTabNeuron s t).minimap = s.minimap := by
  unfold clearTabNeuron; (repeat' split) <;> rfl

@[simp] theorem closeTab_graph (s : State) (t : TabId) : (closeTab s t).graph = s.graph := by
  unfold closeTab
  simp only
  split
  · split
    · rw [activateTab_graph]
      exact clearTabNeuron_graph s t
    · exact clearTabNeuron_graph s t
  · exact clearTabNeuron_graph s t

@[simp] theorem closeTab_tabs (s : State) (t : TabId) :
    (closeTab s t).tabs = Dict.delete s.tabs t := by
  unfold closeTab
  simp only
  split
  · split
    · rw [activateTab_tabs, clearTabNeuron_tabs]
    · rw [clearTabNeuron_tabs]
  · rw [clearTabNeuron_tabs]

@[simp] theorem closeTab_synapses (s : State) (t : TabId) :
    (closeTab s t).synapses = s.synapses := by
  unfold closeTab
  simp only
  split
  · split
    · rw [activateTab_synapses]
      exact clearTabNeuron_synapses s t
    · exact clearTabNeuron_synapses s t
  · exact clearTabNeuron_synapses s t

@[simp] theorem closeTab_pageNeurons (s : State) (t : TabId) :
    (closeTab s t).pageNeurons = s.pageNeurons := by
  unfold closeTab
  simp only
  split
  · split
    · rw [activateTab_pageNeurons]
      exact clearTabNeuron_pageNeurons s t
    · exact clearTabNeuron_pageNeurons s t
  · exact clearTabNeuron_pageNeurons s t

@[simp] theorem closeTab_lastNeuronId (s : State) (t : TabId) :
    (closeTab s t).lastNeuronId = s.lastNeuronId := by
  unfold closeTab
  simp only
  split
  · split
    · rw [activateTab_lastNeuronId]
      exact clearTabNeuron_lastNeuronId s t
    · exact clearTabNeuron_lastNeuronId s t
  · exact clearTabNeuron_lastNeuronId s t

@[simp] theorem closeTab_lastTabId (s : State) (t : TabId) :
    (closeTab s t).lastTabId = s.lastTabId := by
  unfold closeTab
  simp only
  split
  · split
    · rw [activateTab_lastTabId]
      exact clearTabNeuron_lastTabId s t
    · exact clearTabNeuron_lastTabId s t
  · exact clearTabNeuron_lastTabId s t

@[simp] theorem closeTab_neuronTemplateLabel (s : State) (t : TabId) :
    (closeTab s t).neuronTemplateLabel = s.neuronTemplateLabel := by
  unfold closeTab
  simp only
  split
  · split
    · rw [activateTab_neuronTemplateLabel]
      exact clearTabNeuron_neuronTemplateLabel s t
    · exact clearTabNeuron_neuronTemplateLabel s t
  · exact clearTabNeuron_neuronTemplateLabel s t

@[simp] theorem closeTab_minimap (s : State) (t : TabId) :
    (closeTab s t).minimap = s.minimap := by
  unfold closeTab
  simp only
  split
  · split
    · rw [activateTab_minimap]
      exact clearTabNeuron_minimap s t
    · exact clearTabNeuron_minimap s t
  · exact clearTabNeuron_minimap s t

theorem closeTab_activeTabId (s : State) (t : TabId) :
    (closeTab s t).activeTabId
      = if s.activeTabId = some t then (Dict.keys (Dict.delete s.tabs t)).head? else s.activeTabId := by
  unfold closeTab
  simp only [clearTabNeuron_activeTabId, clearTabNeuron_tabs]
  split
  · split
    · rename_i first rest h
      rw [activateTab_activeTabId]
      simp [h]
    · rename_i h
      simp [h]
  · rfl

/-! ### `createSynapse` -/

@[simp] theorem addSynapseToMinimap_neurons (s : State) (a b : NeuronId) :
    (addSynapseToMinimap s a b).neurons = s.neurons := by
  unfold addSynapseToMinimap; (repeat' split) <;> rfl

@[simp] theorem addSynapseToMinimap_synapses (s : State) (a b : NeuronId) :
    (addSynapseToMinimap s a b).synapses = s.synapses := by
  unfold addSynapseToMinimap; (repeat' split) <;> rfl

@[simp] theorem addSynapseToMinimap_tabs (s : State) (a b : NeuronId) :
    (addSynapseToMinimap s a b).tabs = s.tabs := by
  unfold addSynapseToMinimap; (repeat' split) <;> rfl

@[simp] theorem addSynapseToMinimap_pageNeurons (s : State) (a b : NeuronId) :
    (addSynapseToMinimap s a b).pageNeurons = s.pageNeurons := by
  unfold addSynapseToMinimap; (repeat' split) <;> rfl

@[simp] theorem addSynapseToMinimap_activeTabId (s : State) (a b : NeuronId) :
    (addSynapseToMinimap s a b).activeTabId = s.activeTabId := by
  unfold addSynapseToMinimap; (repeat' split) <;> rfl

@[simp] theorem addSynapseToMinimap_lastNeuronId (s : State) (a b : NeuronId) :
    (addSynapseToMinimap s a b).lastNeuronId = s.lastNeuronId := by
  unfold addSynapseToMinimap; (repeat' split) <;> rfl

@[simp] theorem addSynapseToMinimap_lastTabId (s : State) (a b : NeuronId) :
    (addSynapseToMinimap s a b).lastTabId = s.lastTabId := by
  unfold addSynapseToMinimap; (repeat' split) <;> rfl

@[simp] theorem addSynapseToMinimap_neuronTemplateLabel (s : State) (a b : NeuronId) :
    (addSynapseToMinimap s a b).neuronTemplateLabel = s.neuronTemplateLabel := by
  unfold addSynapseToMinimap; (repeat' split) <;> rfl

@[simp] theorem addSynapseToMinimap_minimap (s : State) (a b : NeuronId) :
    (addSynapseToMinimap s a b).minimap = s.minimap := by
  unfold addSynapseToMinimap; (repeat' split) <;> rfl

@[simp] theorem createSynapse_neurons (s : State) (a b : NeuronId) :
    (createSynapse s a b).neurons = s.neurons := by
  unfold createSynapse; (repeat' split) <;> simp

@[simp] theorem createSynapse_graph (s : State) (a b : NeuronId) :
    (createSynapse s a b).graph = s.graph := by
  unfold State.graph; rw [createSynapse_neurons]

@[simp] theorem createSynapse_tabs (s : State) (a b : NeuronId) :
    (createSynapse s a b).tabs = s.tabs := by
  unfold createSynapse; (repeat' split) <;> simp

@[simp] theorem createSynapse_pageNeurons (s : State) (a b : NeuronId) :
    (createSynapse s a b).pageNeurons = s.pageNeurons := by
  unfold createSynapse; (repeat' split) <;> simp

@[simp] theorem createSynapse_activeTabId (s : State) (a b : NeuronId) :
    (createSynapse s a b).activeTabId = s.activeTabId := by
  unfold createSynapse; (repeat' split) <;> simp

@[simp] theorem createSynapse_lastNeuronId (s : State) (a b : NeuronId) :
    (createSynapse s a b).lastNeuronId = s.lastNeuronId := by
  unfold createSynapse; (repeat' split) <;> simp

@[simp] theorem createSynapse_lastTabId (s : State) (a b : NeuronId) :
    (createSynapse s a b).lastTabId = s.lastTabId := by
  unfold createSynapse; (repeat' split) <;> simp

@[simp] theorem createSynapse_neuronTemplateLabel (s : State) (a b : NeuronId) :
    (createSynapse s a b).neuronTemplateLabel = s.neuronTemplateLabel := by
  unfold createSynapse; (repeat' split) <;> simp

@[simp] theorem createSynapse_minimap (s : State) (a b : NeuronId) :
    (createSynapse s a b).minimap = s.minimap := by
  unfold createSynapse; (repeat' split) <;> simp

/-- The synapse keys after `createSynapse`: one more key exactly when the key
is new and both neurons are live. -/
theorem createSynapse_synapses (s : State) (a b : NeuronId) :
    (createSynapse s a b).synapses
      = if (a, b) ∉ s.synapses ∧ a ∈ Dict.keys s.neurons ∧ b ∈ Dict.keys s.neurons
        then s.synapses ++ [(a, b)] else s.synapses := by
  unfold createSynapse
  split
  · rename_i h
    simp [h]
  · rename_i h
    split
    · rename_i x y na nb ha hb
      have h1 : a ∈ Dict.keys s.neurons := (Dict.mem_keys_iff _ _).2 ⟨na, ha⟩
      have h2 : b ∈ Dict.keys s.neurons := (Dict.mem_keys_iff _ _).2 ⟨nb, hb⟩
      simp [h, h1, h2]
    · rename_i x y hnot
      have : ¬ (a ∈ Dict.keys s.neurons ∧ b ∈ Dict.keys s.neurons) := by
        rintro ⟨h1, h2⟩
        obtain ⟨na, ha⟩ := (Dict.mem_keys_iff _ _).1 h1
        obtain ⟨nb, hb⟩ := (Dict.mem_keys_iff _ _).1 h2
        exact hnot na nb ha hb
      simp [h, this]

/-! ### `createNeuron` -/

@[simp] theorem addNeuronToMinimap_neurons (s : State) (n : NeuronId) :
    (addNeuronToMinimap s n).neurons = s.neurons := by
  unfold addNeuronToMinimap; (repeat' split) <;> rfl

@[simp] theorem addNeuronToMinimap_synapses (s : State) (n : NeuronId) :
    (addNeuronToMinimap s n).synapses = s.synapses := by
  unfold addNeuronToMinimap; (repeat' split) <;> rfl

@[simp] theorem addNeuronToMinimap_tabs (s : State) (n : NeuronId) :
    (addNeuronToMinimap s n).tabs = s.tabs := by
  unfold addNeuronToMinimap; (repeat' split) <;> rfl

@[simp] theorem addNeuronToMinimap_pageNeurons (s : State) (n : NeuronId) :
    (addNeuronToMinimap s n).pageNeurons = s.pageNeurons := by
  unfold addNeuronToMinimap; (repeat' split) <;> rfl

@[simp] theorem addNeuronToMinimap_activeTabId (s : State) (n : NeuronId) :
    (addNeuronToMinimap s n).activeTabId = s.activeTabId := by
  unfold addNeuronToMinimap; (repeat' split) <;> rfl

@[simp] theorem addNeuronToMinimap_lastNeuronId (s : State) (n : NeuronId) :
    (addNeuronToMinimap s n).lastNeuronId = s.lastNeuronId := by
  unfold addNeuronToMinimap; (repeat' split) <;> rfl

@[simp] theorem addNeuronToMinimap_lastTabId (s : State) (n : NeuronId) :
    (addNeuronToMinimap s n).lastTabId = s.lastTabId := by
  unfold addNeuronToMinimap; (repeat' split) <;> rfl

@[simp] theorem addNeuronToMinimap_neuronTemplateLabel (s : State) (n : NeuronId) :
    (addNeuronToMinimap s n).neuronTemplateLabel = s.neuronTemplateLabel := by
  unfold addNeuronToMinimap; (repeat' split) <;> rfl

@[simp] theorem addNeuronToMinimap_minimap (s : State) (n : NeuronId) :
    (addNeuronToMinimap s n).minimap = s.minimap := by
  unfold addNeuronToMinimap; (repeat' split) <;> rfl

theorem createNeuron_of_some {s : State} {pageId : PageId} {n : NeuronId}
    (h : Dict.get s.pageNeurons pageId = some n) (title : String) (position : Option Position)
    (rnd : Rnd) : createNeuron s pageId title position rnd = (s, n) := by
  unfold createNeuron
  rw [h]

theorem createNeuron_snd_of_none {s : State} {pageId : PageId}
    (h : Dict.get s.pageNeurons pageId = none) (title : String) (position : Option Position)
    (rnd : Rnd) : (createNeuron s pageId title position rnd).2 = s.lastNeuronId + 1 := by
  unfold createNeuron
  rw [h]

theorem createNeuron_neurons_of_none {s : State} {pageId : PageId}
    (h : Dict.get s.pageNeurons pageId = none) (title : String) (position : Option Position)
    (rnd : Rnd) :
    (createNeuron s pageId title position rnd).1.neurons
      = Dict.set s.neurons (s.lastNeuronId + 1) (newNeuron s pageId title position rnd) := by
  unfold createNeuron
  rw [h]
  simp only [addNeuronToMinimap_neurons]
  rfl

theorem createNeuron_graph_of_none {s : State} {pageId : PageId}
    (h : Dict.get s.pageNeurons pageId = none) (title : String) (position : Option Position)
    (rnd : Rnd) :
    (createNeuron s pageId title position rnd).1.graph
      = Dict.set s.graph (s.lastNeuronId + 1) (newNeuron s pageId title position rnd).data := by
  unfold State.graph
  rw [createNeuron_neurons_of_none h, Dict.mapVals_set]

theorem createNeuron_pageNeurons_of_none {s : State} {pageId : PageId}
    (h : Dict.get s.pageNeurons pageId = none) (title : String) (position : Option Position)
    (rnd : Rnd) :
    (createNeuron s pageId title position rnd).1.pageNeurons
      = Dict.set s.pageNeurons pageId (s.lastNeuronId + 1) := by
  unfold createNeuron
  rw [h]
  simp only [addNeuronToMinimap_pageNeurons]

theorem createNeuron_lastNeuronId_of_none {s : State} {pageId : PageId}
    (h : Dict.get s.pageNeurons pageId = none) (title : String) (position : Option Position)
    (rnd : Rnd) :
    (createNeuron s pageId title position rnd).1.lastNeuronId = s.lastNeuronId + 1 := by
  unfold createNeuron
  rw [h]
  simp only [addNeuronToMinimap_lastNeuronId]

@[simp] theorem createNeuron_tabs (s : State) (pageId : PageId) (title : String)
    (position : Option Position) (rnd : Rnd) :
    (createNeuron s pageId title position rnd).1.tabs = s.tabs := by
  unfold createNeuron; split <;> simp

@[simp] theorem createNeuron_synapses (s : State) (pageId : PageId) (title : String)
    (position : Option Position) (rnd : Rnd) :
    (createNeuron s pageId title position rnd).1.synapses = s.synapses := by
  unfold createNeuron; split <;> simp

@[simp] theorem createNeuron_activeTabId (s : State) (pageId : PageId) (title : String)
    (position : Option Position) (rnd : Rnd) :
    (createNeuron s pageId title position rnd).1.activeTabId = s.activeTabId := by
  unfold createNeuron; split <;> simp

@[simp] theorem createNeuron_lastTabId (s : State) (pageId : PageId) (title : String)
    (position : Option Position) (rnd : Rnd) :
    (createNeuron s pageId title position rnd).1.lastTabId = s.lastTabId := by
  unfold createNeuron; split <;> simp

@[simp] theorem createNeuron_neuronTemplateLabel (s : State) (pageId : PageId) (title : String)
    (position : Option Position) (rnd : Rnd) :
    (createNeuron s pageId title position rnd).1.neuronTemplateLabel = s.neuronTemplateLabel := by
  unfold createNeuron; split <;> simp

@[simp] theorem createNeuron_minimap (s : State) (pageId : PageId) (title : String)
    (position : Option Position) (rnd : Rnd) :
    (createNeuron s pageId title position rnd).1.minimap = s.minimap := by
  unfold createNeuron; split <;> simp

theorem createNeuron_lastNeuronId_le (s : State) (pageId : PageId) (title : String)
    (position : Option Position) (rnd : Rnd) :
    s.lastNeuronId ≤ (createNeuron s pageId title position rnd).1.lastNeuronId := by
  cases h : Dict.get s.pageNeurons pageId with
  | none => rw [createNeuron_lastNeuronId_of_none h]; exact Nat.le_succ _
  | some n => rw [createNeuron_of_some h]

/-- After `createNeuron` the page is mapped to the neuron id returned. -/
theorem createNeuron_pageNeurons_get (s : State) (pageId : PageId) (title : String)
    (position : Option Position) (rnd : Rnd) :
    Dict.get (createNeuron s pageId title position rnd).1.pageNeurons pageId
      = some (createNeuron s pageId title position rnd).2 := by
  cases h : Dict.get s.pageNeurons pageId with
  | none =>
    rw [createNeuron_pageNeurons_of_none h, createNeuron_snd_of_none h, Dict.get_set_self]
  | some n => rw [createNeuron_of_some h]; exact h

/-! ## The invariant of a session -/

theorem inv_empty (templateLabel : String) (hasMinimap : Bool) :
    Inv (State.empty templateLabel hasMinimap) := by
  constructor <;> simp [State.empty, State.graph, Dict.mapVals, Dict.keys]

/-- The invariant reads the state only through these fields. -/
theorem Inv.congr {s s' : State} (h : Inv s) (hg : s'.graph = s.graph)
    (ht : s'.tabs = s.tabs) (hp : s'.pageNeurons = s.pageNeurons)
    (hs : s'.synapses = s.synapses) (hn : s'.lastNeuronId = s.lastNeuronId)
    (hl : s'.lastTabId = s.lastTabId) (hlab : s'.neuronTemplateLabel = s.neuronTemplateLabel)
    (ha : ∀ t, s'.activeTabId = some t → t ∈ Dict.keys s.tabs) : Inv s' := by
  constructor
  · rw [hg]; exact h.neurons_nodup
  · rw [ht]; exact h.tabs_nodup
  · rw [hp]; exact h.pages_nodup
  · rw [hs]; exact h.synapses_nodup
  · rw [hg, hp]; exact h.page_neuron
  · rw [hg, hp]; exact h.neuron_page
  · rw [hg, hn]; exact h.neuron_le
  · rw [ht, hl]; exact h.tab_le
  · rw [hg, ht]; exact h.tab_neuron
  · rw [ht]; exact ha
  · rw [hg, hs]; exact h.synapse_live
  · rw [hg, hlab]; exact h.label_ok

theorem inv_activateTab {s : State} (h : Inv s) (t : TabId) : Inv (activateTab s t) := by
  refine h.congr (by simp) (by simp) (by simp) (by simp) (by simp) (by simp) (by simp) ?_
  intro t' ht'
  rw [activateTab_activeTabId] at ht'
  split at ht'
  · cases ht'; assumption
  · exact h.active_open _ ht'

theorem inv_closeTab {s : State} (h : Inv s) (t : TabId) : Inv (closeTab s t) := by
  constructor
  · rw [closeTab_graph]; exact h.neurons_nodup
  · rw [closeTab_tabs]; exact Dict.nodup_keys_delete h.tabs_nodup t
  · rw [closeTab_pageNeurons]; exact h.pages_nodup
  · rw [closeTab_synapses]; exact h.synapses_nodup
  · rw [closeTab_graph, closeTab_pageNeurons]; exact h.page_neuron
  · rw [closeTab_graph, closeTab_pageNeurons]; exact h.neuron_page
  · rw [closeTab_graph, closeTab_lastNeuronId]; exact h.neuron_le
  · rw [closeTab_tabs, closeTab_lastTabId]
    intro t' ht'
    rw [Dict.keys_delete] at ht'
    exact h.tab_le t' (List.mem_filter.1 ht').1
  · rw [closeTab_graph, closeTab_tabs]
    intro t' tab n hget hn
    rw [Dict.get_delete] at hget
    split at hget
    · cases hget
    · exact h.tab_neuron t' tab n hget hn
  · rw [closeTab_tabs, closeTab_activeTabId]
    intro t' ht'
    split at ht'
    · exact List.mem_of_mem_head? ht'
    · rename_i hne
      rw [Dict.keys_delete]
      refine List.mem_filter.2 ⟨h.active_open t' ht', ?_⟩
      have : t' ≠ t := by
        intro heq
        subst heq
        exact hne ht'
      simpa using this
  · rw [closeTab_graph, closeTab_synapses]; exact h.synapse_live
  · rw [closeTab_graph, closeTab_neuronTemplateLabel]; exact h.label_ok

theorem inv_createSynapse {s : State} (h : Inv s) (a b : NeuronId) :
    Inv (createSynapse s a b) := by
  constructor
  · rw [createSynapse_graph]; exact h.neurons_nodup
  · rw [createSynapse_tabs]; exact h.tabs_nodup
  · rw [createSynapse_pageNeurons]; exact h.pages_nodup
  · rw [createSynapse_synapses]
    split
    · rename_i hc
      exact List.Nodup.append h.synapses_nodup (List.nodup_singleton _) (by simpa using hc.1)
    · exact h.synapses_nodup
  · rw [createSynapse_graph, createSynapse_pageNeurons]; exact h.page_neuron
  · rw [createSynapse_graph, createSynapse_pageNeurons]; exact h.neuron_page
  · rw [createSynapse_graph, createSynapse_lastNeuronId]; exact h.neuron_le
  · rw [createSynapse_tabs, createSynapse_lastTabId]; exact h.tab_le
  · rw [createSynapse_graph, createSynapse_tabs]; exact h.tab_neuron
  · rw [createSynapse_tabs, createSynapse_activeTabId]; exact h.active_open
  · rw [createSynapse_graph, createSynapse_synapses]
    intro x y hxy
    split at hxy
    · rename_i hc
      rcases List.mem_append.1 hxy with h1 | h1
      · exact h.synapse_live x y h1
      · simp only [List.mem_singleton, Prod.mk.injEq] at h1
        obtain ⟨rfl, rfl⟩ := h1
        simpa using hc.2
    · exact h.synapse_live x y hxy
  · rw [createSynapse_graph, createSynapse_neuronTemplateLabel]; exact h.label_ok

theorem newNeuron_label_ok (s : State) (pageId : PageId) (title : String)
    (position : Option Position) (rnd : Rnd) :
    (newNeuron s pageId title position rnd).data.label ≠ ""
      ∨ (newNeuron s pageId title position rnd).data.label = s.neuronTemplateLabel := by
  by_cases ht : title = ""
  · right
    simp [newNeuron, Neuron.data, ht]
  · left
    simp [newNeuron, Neuron.data, ht]

theorem inv_createNeuron {s : State} (h : Inv s) (pageId : PageId) (title : String)
    (position : Option Position) (rnd : Rnd) :
    Inv (createNeuron s pageId title position rnd).1 := by
  cases hp : Dict.get s.pageNeurons pageId with
  | some n => rw [createNeuron_of_some hp]; exact h
  | none =>
    have hfresh : s.lastNeuronId + 1 ∉ Dict.keys s.graph := by
      intro hmem
      exact Nat.not_succ_le_self _ (h.neuron_le _ hmem)
    have hgetfresh : Dict.get s.graph (s.lastNeuronId + 1) = none :=
      (Dict.get_eq_none_iff _ _).2 hfresh
    constructor
    · rw [createNeuron_graph_of_none hp]
      exact Dict.nodup_keys_set h.neurons_nodup _ _
    · rw [createNeuron_tabs]; exact h.tabs_nodup
    · rw [createNeuron_pageNeurons_of_none hp]
      exact Dict.nodup_keys_set h.pages_nodup _ _
    · rw [createNeuron_synapses]; exact h.synapses_nodup
    · rw [createNeuron_graph_of_none hp, createNeuron_pageNeurons_of_none hp]
      intro p n hpn
      rw [Dict.get_set] at hpn
      split at hpn
      · rename_i heq
        cases hpn
        subst heq
        exact ⟨_, Dict.get_set_self _ _ _, rfl⟩
      · obtain ⟨d, hd, hdp⟩ := h.page_neuron p n hpn
        refine ⟨d, ?_, hdp⟩
        rw [Dict.get_set]
        split
        · rename_i heq
          rw [← heq, hgetfresh] at hd
          cases hd
        · exact hd
    · rw [createNeuron_graph_of_none hp, createNeuron_pageNeurons_of_none hp]
      intro n d hnd
      rw [Dict.get_set] at hnd
      split at hnd
      · rename_i heq
        cases hnd
        subst heq
        exact Dict.get_set_self _ _ _
      · have hold := h.neuron_page n d hnd
        rw [Dict.get_set]
        split
        · rename_i heq
          rw [← heq, hp] at hold
          cases hold
        · exact hold
    · rw [createNeuron_graph_of_none hp, createNeuron_lastNeuronId_of_none hp]
      intro n hn
      rw [Dict.keys_set] at hn
      rw [if_neg hfresh] at hn
      rcases List.mem_append.1 hn with h1 | h1
      · exact Nat.le_succ_of_le (h.neuron_le n h1)
      · simp only [List.mem_singleton] at h1
        exact le_of_eq h1
    · rw [createNeuron_tabs, createNeuron_lastTabId]; exact h.tab_le
    · rw [createNeuron_graph_of_none hp, createNeuron_tabs]
      intro t tab n ht hn
      obtain ⟨d, hd, hdp⟩ := h.tab_neuron t tab n ht hn
      refine ⟨d, ?_, hdp⟩
      rw [Dict.get_set]
      split
      · rename_i heq
        rw [← heq, hgetfresh] at hd
        cases hd
      · exact hd
    · rw [createNeuron_tabs, createNeuron_activeTabId]; exact h.active_open
    · rw [createNeuron_graph_of_none hp, createNeuron_synapses]
      intro a b hab
      obtain ⟨ha, hb⟩ := h.synapse_live a b hab
      rw [Dict.keys_set, if_neg hfresh]
      exact ⟨List.mem_append_left _ ha, List.mem_append_left _ hb⟩
    · rw [createNeuron_graph_of_none hp, createNeuron_neuronTemplateLabel]
      intro n d hnd
      rw [Dict.get_set] at hnd
      split at hnd
      · cases hnd
        exact newNeuron_label_ok s pageId title position rnd
      · exact h.label_ok n d hnd

/-- Writing the binding of an open tab keeps the invariant when the neuron
bound is a live neuron of the page bound. -/
theorem inv_setTab {s : State} (h : Inv s) (t : TabId) (tab : Tab)
    (ht : t ∈ Dict.keys s.tabs)
    (hb : ∀ n, tab.neuronId = some n → ∃ d, Dict.get s.graph n = some d ∧ d.pageId = tab.pageId) :
    Inv { s with tabs := Dict.set s.tabs t tab } := by
  have hkeys : Dict.keys (Dict.set s.tabs t tab) = Dict.keys s.tabs := by
    rw [Dict.keys_set, if_pos ht]
  constructor
  · exact h.neurons_nodup
  · show (Dict.keys (Dict.set s.tabs t tab)).Nodup
    rw [hkeys]; exact h.tabs_nodup
  · exact h.pages_nodup
  · exact h.synapses_nodup
  · exact h.page_neuron
  · exact h.neuron_page
  · exact h.neuron_le
  · show ∀ t', t' ∈ Dict.keys (Dict.set s.tabs t tab) → t' ≤ s.lastTabId
    rw [hkeys]; exact h.tab_le
  · show ∀ t' tab' n, Dict.get (Dict.set s.tabs t tab) t' = some tab' → tab'.neuronId = some n →
      ∃ d, Dict.get s.graph n = some d ∧ d.pageId = tab'.pageId
    intro t' tab' n hget hn
    rw [Dict.get_set] at hget
    split at hget
    · cases hget
      exact hb n hn
    · exact h.tab_neuron t' tab' n hget hn
  · show ∀ t', s.activeTabId = some t' → t' ∈ Dict.keys (Dict.set s.tabs t tab)
    rw [hkeys]; exact h.active_open
  · exact h.synapse_live
  · exact h.label_ok

/-- Storing the data of a newly minted tab keeps the invariant. -/
theorem inv_newTab {s : State} (h : Inv s) (tab : Tab) (hb : tab.neuronId = none) :
    Inv { s with lastTabId := s.lastTabId + 1,
                 tabs := Dict.set s.tabs (s.lastTabId + 1) tab } := by
  have hfresh : s.lastTabId + 1 ∉ Dict.keys s.tabs := by
    intro hmem
    exact Nat.not_succ_le_self _ (h.tab_le _ hmem)
  have hkeys : Dict.keys (Dict.set s.tabs (s.lastTabId + 1) tab)
      = Dict.keys s.tabs ++ [s.lastTabId + 1] := by
    rw [Dict.keys_set, if_neg hfresh]
  constructor
  · exact h.neurons_nodup
  · exact Dict.nodup_keys_set h.tabs_nodup _ _
  · exact h.pages_nodup
  · exact h.synapses_nodup
  · exact h.page_neuron
  · exact h.neuron_page
  · exact h.neuron_le
  · show ∀ t', t' ∈ Dict.keys (Dict.set s.tabs (s.lastTabId + 1) tab) → t' ≤ s.lastTabId + 1
    rw [hkeys]
    intro t' ht'
    rcases List.mem_append.1 ht' with h1 | h1
    · exact Nat.le_succ_of_le (h.tab_le t' h1)
    · simp only [List.mem_singleton] at h1
      exact le_of_eq h1
  · show ∀ t' tab' n, Dict.get (Dict.set s.tabs (s.lastTabId + 1) tab) t' = some tab' →
      tab'.neuronId = some n → ∃ d, Dict.get s.graph n = some d ∧ d.pageId = tab'.pageId
    intro t' tab' n hget hn
    rw [Dict.get_set] at hget
    split at hget
    · cases hget
      rw [hb] at hn
      cases hn
    · exact h.tab_neuron t' tab' n hget hn
  · show ∀ t', s.activeTabId = some t' → t' ∈ Dict.keys (Dict.set s.tabs (s.lastTabId + 1) tab)
    rw [hkeys]
    intro t' ht'
    exact List.mem_append_left _ (h.active_open t' ht')
  · exact h.synapse_live
  · exact h.label_ok

theorem inv_navigateSynapse {s : State} (h : Inv s) (pageId oldPageId : PageId)
    (oldNeuronId : Option NeuronId) (neuronId : NeuronId) (sourceNeuronId : Option NeuronId)
    (withSynapse : Bool) :
    Inv (navigateSynapse s pageId oldPageId oldNeuronId neuronId sourceNeuronId withSynapse) := by
  unfold navigateSynapse
  split
  · exact inv_createSynapse h _ _
  · split
    · exact inv_createSynapse h _ _
    · exact h

/-- The run of `navigateTo` on a catalog page and an open target tab.  The
lookup in front of the call of `createNeuron` is the one `createNeuron`
makes itself. -/
theorem navigateTo_eq {s : State} {pageId : PageId} {tabId : Option TabId} {t : TabId}
    {page : Page} {tab : Tab} (ht : (tabId <|> s.activeTabId) = some t)
    (hpage : Dict.get mockPages pageId = some page) (htab : Dict.get s.tabs t = some tab)
    (sourceNeuronId : Option NeuronId) (withSynapse : Bool) (rnd : Rnd) :
    navigateTo s pageId tabId sourceNeuronId withSynapse rnd
      = .returned (activateTab
          (navigateSynapse
            { (createNeuron s pageId page.title none rnd).1 with
              tabs := Dict.set (createNeuron s pageId page.title none rnd).1.tabs t
                (navigatedTab tab page pageId (createNeuron s pageId page.title none rnd).2) }
            pageId tab.pageId tab.neuronId (createNeuron s pageId page.title none rnd).2
            sourceNeuronId withSynapse)
          t) := by
  unfold navigateTo
  simp only [ht, hpage, htab]
  cases hp : Dict.get s.pageNeurons pageId with
  | none => rfl
  | some n => simp only [createNeuron_of_some hp]; rfl

theorem navigateTo_of_no_target {s : State} {tabId : Option TabId}
    (ht : (tabId <|> s.activeTabId) = none) (pageId : PageId)
    (sourceNeuronId : Option NeuronId) (withSynapse : Bool) (rnd : Rnd) :
    navigateTo s pageId tabId sourceNeuronId withSynapse rnd = .returned s := by
  unfold navigateTo
  simp only [ht]

theorem navigateTo_of_unknown_page {s : State} {pageId : PageId}
    (hpage : Dict.get mockPages pageId = none) (tabId : Option TabId)
    (sourceNeuronId : Option NeuronId) (withSynapse : Bool) (rnd : Rnd) :
    navigateTo s pageId tabId sourceNeuronId withSynapse rnd = .returned s := by
  unfold navigateTo
  split
  · rfl
  · simp only [hpage]

theorem navigateTo_of_closed_tab {s : State} {pageId : PageId} {tabId : Option TabId} {t : TabId}
    {page : Page} (ht : (tabId <|> s.activeTabId) = some t)
    (hpage : Dict.get mockPages pageId = some page) (htab : Dict.get s.tabs t = none)
    (sourceNeuronId : Option NeuronId) (withSynapse : Bool) (rnd : Rnd) :
    navigateTo s pageId tabId sourceNeuronId withSynapse rnd = .threw s := by
  unfold navigateTo
  simp only [ht, hpage, htab]

/-- The neuron id `createNeuron` returns is a live neuron of the page. -/
theorem createNeuron_live {s : State} (h : Inv s) (pageId : PageId) (title : String)
    (position : Option Position) (rnd : Rnd) :
    ∃ d, Dict.get (createNeuron s pageId title position rnd).1.graph
        (createNeuron s pageId title position rnd).2 = some d ∧ d.pageId = pageId :=
  (inv_createNeuron h pageId title position rnd).page_neuron _ _
    (createNeuron_pageNeurons_get s pageId title position rnd)

theorem inv_navigateTo {s : State} (h : Inv s) (pageId : PageId) (tabId : Option TabId)
    (sourceNeuronId : Option NeuronId) (withSynapse : Bool) (rnd : Rnd) :
    Inv (navigateTo s pageId tabId sourceNeuronId withSynapse rnd).state := by
  cases ht : (tabId <|> s.activeTabId) with
  | none => rw [navigateTo_of_no_target ht]; exact h
  | some t =>
    cases hpage : Dict.get mockPages pageId with
    | none => rw [navigateTo_of_unknown_page hpage]; exact h
    | some page =>
      cases htab : Dict.get s.tabs t with
      | none => rw [navigateTo_of_closed_tab ht hpage htab]; exact h
      | some tab =>
        rw [navigateTo_eq ht hpage htab]
        simp only [Outcome.state]
        apply inv_activateTab
        apply inv_navigateSynapse
        apply inv_setTab (inv_createNeuron h pageId page.title none rnd)
        · rw [createNeuron_tabs]
          exact (Dict.mem_keys_iff _ _).2 ⟨tab, htab⟩
        · intro n hn
          simp only [navigatedTab, Option.some.injEq] at hn
          subst hn
          exact createNeuron_live h pageId page.title none rnd

theorem inv_createNewTab {s : State} (h : Inv s) (rnd : Rnd) : Inv (createNewTab s rnd).1 := by
  unfold createNewTab
  simp only
  apply inv_navigateTo
  apply inv_activateTab
  exact inv_newTab h _ rfl

/-! ### `removeNeuron` -/

theorem foldl_closeTab_graph (ts : List TabId) (s : State) :
    (ts.foldl closeTab s).graph = s.graph := by
  induction ts generalizing s with
  | nil => rfl
  | cons t rest ih => rw [List.foldl_cons, ih, closeTab_graph]

theorem foldl_closeTab_synapses (ts : List TabId) (s : State) :
    (ts.foldl closeTab s).synapses = s.synapses := by
  induction ts generalizing s with
  | nil => rfl
  | cons t rest ih => rw [List.foldl_cons, ih, closeTab_synapses]

theorem foldl_closeTab_pageNeurons (ts : List TabId) (s : State) :
    (ts.foldl closeTab s).pageNeurons = s.pageNeurons := by
  induction ts generalizing s with
  | nil => rfl
  | cons t rest ih => rw [List.foldl_cons, ih, closeTab_pageNeurons]

theorem foldl_closeTab_lastNeuronId (ts : List TabId) (s : State) :
    (ts.foldl closeTab s).lastNeuronId = s.lastNeuronId := by
  induction ts generalizing s with
  | nil => rfl
  | cons t rest ih => rw [List.foldl_cons, ih, closeTab_lastNeuronId]

theorem foldl_closeTab_lastTabId (ts : List TabId) (s : State) :
    (ts.foldl closeTab s).lastTabId = s.lastTabId := by
  induction ts generalizing s with
  | nil => rfl
  | cons t rest ih => rw [List.foldl_cons, ih, closeTab_lastTabId]

theorem foldl_closeTab_neuronTemplateLabel (ts : List TabId) (s : State) :
    (ts.foldl closeTab s).neuronTemplateLabel = s.neuronTemplateLabel := by
  induction ts generalizing s with
  | nil => rfl
  | cons t rest ih => rw [List.foldl_cons, ih, closeTab_neuronTemplateLabel]

theorem foldl_closeTab_minimap (ts : List TabId) (s : State) :
    (ts.foldl closeTab s).minimap = s.minimap := by
  induction ts generalizing s with
  | nil => rfl
  | cons t rest ih => rw [List.foldl_cons, ih, closeTab_minimap]

theorem foldl_closeTab_tabs (ts : List TabId) (s : State) :
    (ts.foldl closeTab s).tabs = s.tabs.filter (fun e => decide (e.1 ∉ ts)) := by
  induction ts generalizing s with
  | nil => simp
  | cons t rest ih =>
    rw [List.foldl_cons, ih, closeTab_tabs, Dict.delete, List.filter_filter]
    apply List.filter_congr
    intro e _
    simp only [List.mem_cons, not_or, ne_eq, Bool.decide_and, Bool.and_comm]

theorem inv_foldl_closeTab {s : State} (h : Inv s) (ts : List TabId) :
    Inv (ts.foldl closeTab s) := by
  induction ts generalizing s with
  | nil => exact h
  | cons t rest ih => exact ih (inv_closeTab h t)

/-- Erasing from a list, one by one, its elements that satisfy `q` leaves
the elements that do not. -/
theorem foldl_erase_filter {α : Type} [BEq α] [LawfulBEq α] (q : α → Bool) (l m : List α)
    (hm : ∀ x ∈ m, q x = false) :
    (l.filter q).foldl List.erase (m ++ l) = m ++ l.filter (fun x => !q x) := by
  induction l generalizing m with
  | nil => simp
  | cons a l ih =>
    by_cases hq : q a = true
    · have ha : a ∉ m := by
        intro hmem
        rw [hm a hmem] at hq
        cases hq
      rw [List.filter_cons_of_pos hq, List.foldl_cons, List.erase_append_right _ ha,
        List.erase_cons_head, ih m hm]
      simp [hq]
    · have hq' : q a = false := by simpa using hq
      rw [List.filter_cons_of_neg hq]
      have happ : m ++ a :: l = (m ++ [a]) ++ l := by simp
      rw [happ, ih (m ++ [a])]
      · simp [hq']
      · intro x hx
        rcases List.mem_append.1 hx with h1 | h1
        · exact hm x h1
        · simp only [List.mem_singleton] at h1
          rw [h1]; exact hq'

theorem removeSynapses_synapses (s : State) (l : List SynapseId) :
    (removeSynapses s l).synapses = l.foldl List.erase s.synapses := by
  unfold removeSynapses
  induction l generalizing s with
  | nil => rfl
  | cons a l ih =>
    rw [List.foldl_cons, List.foldl_cons, ih]
    split
    · rfl
    · rename_i hmem
      rw [List.erase_of_not_mem hmem]

theorem removeSynapses_neurons (s : State) (l : List SynapseId) :
    (removeSynapses s l).neurons = s.neurons := by
  unfold removeSynapses
  induction l generalizing s with
  | nil => rfl
  | cons a l ih => rw [List.foldl_cons, ih]; split <;> rfl

theorem removeSynapses_tabs (s : State) (l : List SynapseId) :
    (removeSynapses s l).tabs = s.tabs := by
  unfold removeSynapses
  induction l generalizing s with
  | nil => rfl
  | cons a l ih => rw [List.foldl_cons, ih]; split <;> rfl

theorem removeSynapses_pageNeurons (s : State) (l : List SynapseId) :
    (removeSynapses s l).pageNeurons = s.pageNeurons := by
  unfold removeSynapses
  induction l generalizing s with
  | nil => rfl
  | cons a l ih => rw [List.foldl_cons, ih]; split <;> rfl

theorem removeSynapses_activeTabId (s : State) (l : List SynapseId) :
    (removeSynapses s l).activeTabId = s.activeTabId := by
  unfold removeSynapses
  induction l generalizing s with
  | nil => rfl
  | cons a l ih => rw [List.foldl_cons, ih]; split <;> rfl

theorem removeSynapses_lastNeuronId (s : State) (l : List SynapseId) :
    (removeSynapses s l).lastNeuronId = s.lastNeuronId := by
  unfold removeSynapses
  induction l generalizing s with
  | nil => rfl
  | cons a l ih => rw [List.foldl_cons, ih]; split <;> rfl

theorem removeSynapses_lastTabId (s : State) (l : List SynapseId) :
    (removeSynapses s l).lastTabId = s.lastTabId := by
  unfold removeSynapses
  induction l generalizing s with
  | nil => rfl
  | cons a l ih => rw [List.foldl_cons, ih]; split <;> rfl

theorem removeSynapses_neuronTemplateLabel (s : State) (l : List SynapseId) :
    (removeSynapses s l).neuronTemplateLabel = s.neuronTemplateLabel := by
  unfold removeSynapses
  induction l generalizing s with
  | nil => rfl
  | cons a l ih => rw [List.foldl_cons, ih]; split <;> rfl

theorem removeSynapses_minimap (s : State) (l : List SynapseId) :
    (removeSynapses s l).minimap = s.minimap := by
  unfold removeSynapses
  induction l generalizing s with
  | nil => rfl
  | cons a l ih => rw [List.foldl_cons, ih]; split <;> rfl

theorem removeNeuron_of_none {s : State} {n : NeuronId} (h : Dict.get s.neurons n = none) :
    removeNeuron s n = s := by
  unfold removeNeuron
  rw [h]

theorem removeNeuron_synapses {s : State} {n : NeuronId} {nd : Neuron}
    (h : Dict.get s.neurons n = some nd) :
    (removeNeuron s n).synapses = s.synapses.filter (fun sid => !touches n sid) := by
  unfold removeNeuron
  rw [h]
  simp only
  split
  all_goals
    show (removeSynapses _ _).synapses = _
    rw [removeSynapses_synapses, foldl_closeTab_synapses]
    exact foldl_erase_filter (touches n) s.synapses [] (by simp)

theorem removeNeuron_graph {s : State} {n : NeuronId} {nd : Neuron}
    (h : Dict.get s.neurons n = some nd) :
    (removeNeuron s n).graph = Dict.delete s.graph n := by
  unfold removeNeuron
  rw [h]
  simp only
  split
  all_goals
    show Dict.mapVals Neuron.data (Dict.delete (removeSynapses _ _).neurons n) = _
    rw [Dict.mapVals_delete, removeSynapses_neurons]
    show Dict.delete (State.graph _) n = _
    rw [foldl_closeTab_graph]

theorem removeNeuron_tabs {s : State} {n : NeuronId} {nd : Neuron}
    (h : Dict.get s.neurons n = some nd) :
    (removeNeuron s n).tabs = s.tabs.filter (fun e => decide (e.1 ∉ tabsToClose s n)) := by
  unfold removeNeuron
  rw [h]
  simp only
  split
  all_goals
    show (removeSynapses _ _).tabs = _
    rw [removeSynapses_tabs, foldl_closeTab_tabs]
    rfl

theorem removeNeuron_pageNeurons {s : State} {n : NeuronId} {nd : Neuron}
    (h : Dict.get s.neurons n = some nd) :
    (removeNeuron s n).pageNeurons
      = if Dict.get s.pageNeurons nd.pageId = some n then Dict.delete s.pageNeurons nd.pageId
        else s.pageNeurons := by
  unfold removeNeuron
  rw [h]
  simp only [removeSynapses_pageNeurons, foldl_closeTab_pageNeurons]
  split <;> simp [removeSynapses_pageNeurons, foldl_closeTab_pageNeurons]

theorem removeNeuron_activeTabId {s : State} {n : NeuronId} {nd : Neuron}
    (h : Dict.get s.neurons n = some nd) :
    (removeNeuron s n).activeTabId = ((tabsToClose s n).foldl closeTab s).activeTabId := by
  unfold removeNeuron
  rw [h]
  simp only
  split
  all_goals
    show (removeSynapses _ _).activeTabId = _
    rw [removeSynapses_activeTabId]
    rfl

theorem removeNeuron_lastNeuronId (s : State) (n : NeuronId) :
    (removeNeuron s n).lastNeuronId = s.lastNeuronId := by
  unfold removeNeuron
  split
  · rfl
  · simp only
    split
    all_goals
      show (removeSynapses _ _).lastNeuronId = _
      rw [removeSynapses_lastNeuronId, foldl_closeTab_lastNeuronId]

theorem removeNeuron_lastTabId (s : State) (n : NeuronId) :
    (removeNeuron s n).lastTabId = s.lastTabId := by
  unfold removeNeuron
  split
  · rfl
  · simp only
    split
    all_goals
      show (removeSynapses _ _).lastTabId = _
      rw [removeSynapses_lastTabId, foldl_closeTab_lastTabId]

theorem removeNeuron_neuronTemplateLabel (s : State) (n : NeuronId) :
    (removeNeuron s n).neuronTemplateLabel = s.neuronTemplateLabel := by
  unfold removeNeuron
  split
  · rfl
  · simp only
    split
    all_goals
      show (removeSynapses _ _).neuronTemplateLabel = _
      rw [removeSynapses_neuronTemplateLabel, foldl_closeTab_neuronTemplateLabel]

theorem get_graph_of_neuron {s : State} {n : NeuronId} {nd : Neuron}
    (h : Dict.get s.neurons n = some nd) : Dict.get s.graph n = some nd.data := by
  rw [get_graph, h]
  rfl

theorem get_filter_of_nodup {κ ν : Type} [DecidableEq κ] {m : Dict κ ν}
    (hm : (Dict.keys m).Nodup) (p : κ × ν → Bool) {k : κ} {v : ν}
    (h : Dict.get (m.filter p) k = some v) : Dict.get m k = some v ∧ p (k, v) = true := by
  have hmem := List.mem_filter.1 (Dict.mem_of_get h)
  exact ⟨Dict.get_of_mem hm hmem.1, hmem.2⟩

theorem nodup_keys_filter {κ ν : Type} {m : Dict κ ν}
    (hm : (Dict.keys m).Nodup) (p : κ × ν → Bool) : (Dict.keys (m.filter p)).Nodup :=
  List.Nodup.sublist ((List.filter_sublist m).map Prod.fst) hm

theorem mem_keys_filter {κ ν : Type} {m : Dict κ ν} (p : κ × ν → Bool) {k : κ}
    (h : k ∈ Dict.keys (m.filter p)) : k ∈ Dict.keys m :=
  ((List.filter_sublist m).map Prod.fst).subset h

theorem inv_removeNeuron {s : State} (h : Inv s) (n : NeuronId) : Inv (removeNeuron s n) := by
  cases hn : Dict.get s.neurons n with
  | none => rw [removeNeuron_of_none hn]; exact h
  | some nd =>
    have hgd : Dict.get s.graph n = some nd.data := get_graph_of_neuron hn
    have hpn : Dict.get s.pageNeurons nd.pageId = some n := h.neuron_page n nd.data hgd
    constructor
    · rw [removeNeuron_graph hn]
      exact Dict.nodup_keys_delete h.neurons_nodup n
    · rw [removeNeuron_tabs hn]
      exact nodup_keys_filter h.tabs_nodup _
    · rw [removeNeuron_pageNeurons hn, if_pos hpn]
      exact Dict.nodup_keys_delete h.pages_nodup _
    · rw [removeNeuron_synapses hn]
      exact h.synapses_nodup.filter _
    · rw [removeNeuron_graph hn, removeNeuron_pageNeurons hn, if_pos hpn]
      intro p m hpm
      rw [Dict.get_delete] at hpm
      split at hpm
      · cases hpm
      · rename_i hne
        obtain ⟨d, hd, hdp⟩ := h.page_neuron p m hpm
        refine ⟨d, ?_, hdp⟩
        rw [Dict.get_delete]
        split
        · rename_i heq
          subst heq
          rw [hgd] at hd
          cases hd
          exact absurd hdp.symm hne
        · exact hd
    · rw [removeNeuron_graph hn, removeNeuron_pageNeurons hn, if_pos hpn]
      intro m d hmd
      rw [Dict.get_delete] at hmd
      split at hmd
      · cases hmd
      · rename_i hne
        have hold := h.neuron_page m d hmd
        rw [Dict.get_delete]
        split
        · rename_i heq
          rw [heq, hpn] at hold
          cases hold
          exact absurd rfl hne
        · exact hold
    · rw [removeNeuron_graph hn, removeNeuron_lastNeuronId]
      intro m hm
      rw [Dict.keys_delete] at hm
      exact h.neuron_le m (List.mem_filter.1 hm).1
    · rw [removeNeuron_tabs hn, removeNeuron_lastTabId]
      intro t ht
      exact h.tab_le t (mem_keys_filter _ ht)
    · rw [removeNeuron_graph hn, removeNeuron_tabs hn]
      intro t tab m hget hm
      obtain ⟨hget', hkeep⟩ := get_filter_of_nodup h.tabs_nodup _ hget
      obtain ⟨d, hd, hdp⟩ := h.tab_neuron t tab m hget' hm
      refine ⟨d, ?_, hdp⟩
      rw [Dict.get_delete]
      split
      · rename_i heq
        subst heq
        exfalso
        simp only [decide_eq_true_eq] at hkeep
        apply hkeep
        unfold tabsToClose
        apply Dict.mem_keys_of_mem
        exact List.mem_filter.2 ⟨Dict.mem_of_get hget', by simpa using hm⟩
      · exact hd
    · rw [removeNeuron_tabs hn, removeNeuron_activeTabId hn, ← foldl_closeTab_tabs]
      exact (inv_foldl_closeTab h _).active_open
    · rw [removeNeuron_graph hn, removeNeuron_synapses hn]
      intro a b hab
      obtain ⟨hmem, hnt⟩ := List.mem_filter.1 hab
      obtain ⟨ha, hb⟩ := h.synapse_live a b hmem
      simp only [touches, Bool.not_or, Bool.and_eq_true, Bool.not_eq_true', decide_eq_false_iff_not]
        at hnt
      rw [Dict.keys_delete]
      exact ⟨List.mem_filter.2 ⟨ha, by simpa using hnt.1⟩,
        List.mem_filter.2 ⟨hb, by simpa using hnt.2⟩⟩
    · rw [removeNeuron_graph hn, removeNeuron_neuronTemplateLabel]
      intro m d hmd
      rw [Dict.get_delete] at hmd
      split at hmd
      · cases hmd
      · exact h.label_ok m d hmd

/-! ### The other entry points -/

theorem findOrCreateNeuronForDomain_eq (s : State) (domain : String) (rnd : Rnd) :
    findOrCreateNeuronForDomain s domain rnd
      = createNeuron s ("web:" ++ domain) domain none rnd := by
  unfold findOrCreateNeuronForDomain
  simp only
  cases h : Dict.get s.pageNeurons ("web:" ++ domain) with
  | none => rfl
  | some n => simp only [createNeuron_of_some h]

theorem inv_navigateToRealUrl {s : State} (h : Inv s) (url : String) (hostname : Option String)
    (rndTab rnd : Rnd) : Inv (navigateToRealUrl s url hostname rndTab rnd).state := by
  unfold navigateToRealUrl
  simp only [findOrCreateNeuronForDomain_eq]
  have h0 : Inv (if s.activeTabId = none then (createNewTab s rndTab).1 else s) := by
    split
    · exact inv_createNewTab h rndTab
    · exact h
  generalize (if s.activeTabId = none then (createNewTab s rndTab).1 else s) = s0 at h0 ⊢
  generalize hostname.getD (withProtocol url) = domain
  have h1 := inv_createNeuron h0 ("web:" ++ domain) domain none rnd
  split
  · exact h1
  · rename_i tabId hactive
    split
    · exact h1
    · rename_i tab htab
      simp only [Outcome.state]
      apply inv_activateTab
      have h2 : Inv { (createNeuron s0 ("web:" ++ domain) domain none rnd).1 with
          tabs := Dict.set (createNeuron s0 ("web:" ++ domain) domain none rnd).1.tabs tabId
            { tab with title := domain, url := some (withProtocol url),
                       pageId := "web:" ++ domain,
                       neuronId := some (createNeuron s0 ("web:" ++ domain) domain none rnd).2,
                       isWebUrl := some true } } := by
        apply inv_setTab h1
        · exact (Dict.mem_keys_iff _ _).2 ⟨tab, htab⟩
        · intro n hn
          simp only [Option.some.injEq] at hn
          subst hn
          exact createNeuron_live h0 _ _ _ _
      split
      · exact inv_createSynapse h2 _ _
      · exact h2

theorem inv_activatePageNeuron {s : State} (h : Inv s) (pageId : PageId) (rndTab rnd : Rnd) :
    Inv (activatePageNeuron s pageId rndTab rnd).state := by
  unfold activatePageNeuron
  split
  · exact inv_activateTab h _
  · split
    · exact inv_navigateTo h _ _ _ _ _
    · exact inv_navigateTo (inv_createNewTab h rndTab) _ _ _ _ _

theorem inv_connectToCurrent {s : State} (h : Inv s) (neuronId : NeuronId) (pageId : PageId) :
    Inv (connectToCurrent s neuronId pageId).state := by
  unfold connectToCurrent
  split
  · exact h
  · split
    · exact h
    · simp only
      split
      · split
        · exact inv_createSynapse h _ _
        · exact h
      · exact h

theorem SameCore.same_refl (s : State) : SameCore s s :=
  ⟨rfl, rfl, rfl, rfl, rfl, rfl, rfl, rfl, rfl⟩

theorem SameCore.same_trans {s s' s'' : State} (h : SameCore s s') (h' : SameCore s' s'') :
    SameCore s s'' :=
  ⟨h'.graph.trans h.graph, h'.tabs.trans h.tabs, h'.pageNeurons.trans h.pageNeurons,
    h'.synapses.trans h.synapses, h'.activeTabId.trans h.activeTabId,
    h'.lastNeuronId.trans h.lastNeuronId, h'.lastTabId.trans h.lastTabId,
    h'.neuronTemplateLabel.trans h.neuronTemplateLabel, h'.minimap.trans h.minimap⟩

theorem Inv.of_sameCore {s s' : State} (h : Inv s) (hc : SameCore s s') : Inv s' :=
  h.congr hc.graph hc.tabs hc.pageNeurons hc.synapses hc.lastNeuronId hc.lastTabId
    hc.neuronTemplateLabel (by rw [hc.activeTabId]; exact h.active_open)

theorem sameCore_addSynapseToMinimap (s : State) (a b : NeuronId) :
    SameCore s (addSynapseToMinimap s a b) := by
  constructor <;> simp [State.graph]

theorem sameCore_foldl_addSynapseToMinimap (n : NeuronId) (l : List SynapseId) (s : State) :
    SameCore s
      (l.foldl
        (fun st sid =>
          if sid.1 = n ∨ sid.2 = n then
            if sid ∈ st.minimapSynapses then st else addSynapseToMinimap st sid.1 sid.2
          else st)
        s) := by
  induction l generalizing s with
  | nil => exact SameCore.same_refl s
  | cons a l ih =>
    rw [List.foldl_cons]
    refine SameCore.same_trans ?_ (ih _)
    split
    · split
      · exact SameCore.same_refl s
      · exact sameCore_addSynapseToMinimap s _ _
    · exact SameCore.same_refl s

theorem sameCore_updateMinimapConnectedSynapses (s : State) (n : NeuronId) :
    SameCore s (updateMinimapConnectedSynapses s n) := by
  unfold updateMinimapConnectedSynapses
  split
  · exact sameCore_foldl_addSynapseToMinimap n s.synapses s
  · exact SameCore.same_refl s

theorem sameCore_updateMinimapNeuron (s : State) (n : NeuronId) :
    SameCore s (updateMinimapNeuron s n) := by
  unfold updateMinimapNeuron
  split
  · split
    · refine SameCore.same_trans ?_ (sameCore_updateMinimapConnectedSynapses _ n)
      exact ⟨rfl, rfl, rfl, rfl, rfl, rfl, rfl, rfl, rfl⟩
    · exact SameCore.same_refl s
  · exact SameCore.same_refl s

/-- Moving a neuron keeps the invariant: its page and label stay. -/
theorem inv_moveNeuron {s : State} (h : Inv s) {n : NeuronId} {nd : Neuron}
    (hn : Dict.get s.neurons n = some nd) (left top : ℚ) :
    Inv { s with neurons := Dict.set s.neurons n { nd with left := left, top := top } } := by
  have hgd : Dict.get s.graph n = some nd.data := get_graph_of_neuron hn
  have hmem : n ∈ Dict.keys s.graph := (Dict.mem_keys_iff _ _).2 ⟨_, hgd⟩
  have hg : State.graph { s with neurons := Dict.set s.neurons n { nd with left := left, top := top } }
      = Dict.set s.graph n { nd.data with left := left, top := top } := by
    show Dict.mapVals Neuron.data (Dict.set s.neurons n _) = _
    rw [Dict.mapVals_set]
    rfl
  have hkeys : Dict.keys (Dict.set s.graph n { nd.data with left := left, top := top })
      = Dict.keys s.graph := by
    rw [Dict.keys_set, if_pos hmem]
  have hget : ∀ m d, Dict.get (Dict.set s.graph n { nd.data with left := left, top := top }) m
      = some d → ∃ d', Dict.get s.graph m = some d' ∧ d'.pageId = d.pageId ∧ d'.label = d.label := by
    intro m d hmd
    rw [Dict.get_set] at hmd
    split at hmd
    · rename_i heq
      subst heq
      cases hmd
      exact ⟨nd.data, hgd, rfl, rfl⟩
    · exact ⟨d, hmd, rfl, rfl⟩
  have hget' : ∀ m d, Dict.get s.graph m = some d →
      ∃ d', Dict.get (Dict.set s.graph n { nd.data with left := left, top := top }) m = some d'
        ∧ d'.pageId = d.pageId := by
    intro m d hmd
    rw [Dict.get_set]
    split
    · rename_i heq
      subst heq
      rw [hgd] at hmd
      cases hmd
      exact ⟨_, rfl, rfl⟩
    · exact ⟨d, hmd, rfl⟩
  constructor
  · rw [hg, hkeys]; exact h.neurons_nodup
  · exact h.tabs_nodup
  · exact h.pages_nodup
  · exact h.synapses_nodup
  · rw [hg]
    intro p m hpm
    obtain ⟨d, hd, hdp⟩ := h.page_neuron p m hpm
    obtain ⟨d', hd', hdp'⟩ := hget' m d hd
    exact ⟨d', hd', hdp'.trans hdp⟩
  · rw [hg]
    intro m d hmd
    obtain ⟨d', hd', hdp', _⟩ := hget m d hmd
    rw [← hdp']
    exact h.neuron_page m d' hd'
  · rw [hg, hkeys]; exact h.neuron_le
  · exact h.tab_le
  · rw [hg]
    intro t tab m ht hm
    obtain ⟨d, hd, hdp⟩ := h.tab_neuron t tab m ht hm
    obtain ⟨d', hd', hdp'⟩ := hget' m d hd
    exact ⟨d', hd', hdp'.trans hdp⟩
  · exact h.active_open
  · rw [hg, hkeys]; exact h.synapse_live
  · rw [hg]
    intro m d hmd
    obtain ⟨d', hd', _, hl⟩ := hget m d hmd
    rw [← hl]
    exact h.label_ok m d' hd'

theorem inv_dragNeuron {s : State} (h : Inv s) (n : NeuronId)
    (deltaX deltaY offsetWidth offsetHeight : ℚ) :
    Inv (dragNeuron s n deltaX deltaY offsetWidth offsetHeight) := by
  unfold dragNeuron
  split
  · exact h
  · rename_i nd hn
    exact (inv_moveNeuron h hn _ _).of_sameCore (sameCore_updateMinimapNeuron _ n)

/-! ### `loadFromLocalStorage` -/

theorem inv_restoreNeurons {s : State} (h : Inv s) (saved : Dict NeuronId NeuronData)
    (rnd : Rnd) : Inv (restoreNeurons s saved rnd) := by
  unfold restoreNeurons
  induction saved generalizing s with
  | nil => exact h
  | cons e rest ih =>
    rw [List.foldl_cons]
    apply ih
    split
    · exact h
    · exact inv_createNeuron h _ _ _ _

theorem inv_restoreSynapses {s : State} (h : Inv s) (saved : List SynapseId) :
    Inv (restoreSynapses s saved) := by
  unfold restoreSynapses
  induction saved generalizing s with
  | nil => exact h
  | cons e rest ih =>
    rw [List.foldl_cons]
    exact ih (inv_createSynapse h _ _)

/-- Raising the two counters keeps the invariant. -/
theorem inv_raiseIds {s : State} (h : Inv s) (a b : Nat) :
    Inv { s with lastNeuronId := max s.lastNeuronId a, lastTabId := max s.lastTabId b } := by
  constructor
  · exact h.neurons_nodup
  · exact h.tabs_nodup
  · exact h.pages_nodup
  · exact h.synapses_nodup
  · exact h.page_neuron
  · exact h.neuron_page
  · intro n hn
    exact le_trans (h.neuron_le n hn) (le_max_left _ _)
  · intro t ht
    exact le_trans (h.tab_le t ht) (le_max_left _ _)
  · exact h.tab_neuron
  · exact h.active_open
  · exact h.synapse_live
  · exact h.label_ok

theorem inv_setConfig {s : State} (h : Inv s) (config : Dict String CfgVal) :
    Inv { s with config := config } :=
  h.of_sameCore ⟨rfl, rfl, rfl, rfl, rfl, rfl, rfl, rfl, rfl⟩

theorem inv_loadFromLocalStorage {s : State} (h : Inv s) (stored : Option SaveData) (rnd : Rnd) :
    Inv (loadFromLocalStorage s stored rnd) := by
  unfold loadFromLocalStorage
  split
  · exact h
  · simp only
    apply inv_raiseIds
    apply inv_restoreSynapses
    apply inv_restoreNeurons
    split
    · exact inv_setConfig h _
    · exact h

/-! ### Sessions -/

theorem inv_step {s : State} (h : Inv s) (op : Op) : Inv (step s op) := by
  cases op with
  | createNeuron pageId title position rnd => exact inv_createNeuron h _ _ _ _
  | createSynapse fromId toId => exact inv_createSynapse h _ _
  | removeNeuron neuronId => exact inv_removeNeuron h _
  | createNewTab rnd => exact inv_createNewTab h _
  | activateTab tabId => exact inv_activateTab h _
  | closeTab tabId => exact inv_closeTab h _
  | navigateTo pageId tabId sourceNeuronId withSynapse rnd => exact inv_navigateTo h _ _ _ _ _
  | navigateToRealUrl url hostname rndTab rnd => exact inv_navigateToRealUrl h _ _ _ _
  | activatePageNeuron pageId rndTab rnd => exact inv_activatePageNeuron h _ _ _
  | connectToCurrent neuronId =>
    show Inv (match Dict.get s.neurons neuronId with
      | some neuron => (connectToCurrent s neuronId neuron.pageId).state
      | none => s)
    split
    · exact inv_connectToCurrent h _ _
    · exact h
  | dragNeuron neuronId deltaX deltaY offsetWidth offsetHeight => exact inv_dragNeuron h _ _ _ _ _
  | loadFromLocalStorage stored rnd => exact inv_loadFromLocalStorage h _ _

theorem inv_run_from {s : State} (h : Inv s) (ops : List Op) : Inv (run s ops) := by
  unfold run
  induction ops generalizing s with
  | nil => exact h
  | cons op rest ih => exact ih (inv_step h op)

/-- The invariant holds in every state of every session. -/
theorem inv_run (templateLabel : String) (hasMinimap : Bool) (ops : List Op) :
    Inv (run (State.empty templateLabel hasMinimap) ops) :=
  inv_run_from (inv_empty templateLabel hasMinimap) ops

/-! ## The graph store -/

theorem get_neurons_of_graph {s : State} {n : NeuronId} {d : NeuronData}
    (h : Dict.get s.graph n = some d) : ∃ nd, Dict.get s.neurons n = some nd ∧ nd.data = d := by
  rw [get_graph] at h
  cases hn : Dict.get s.neurons n with
  | none => rw [hn] at h; cases h
  | some nd =>
    rw [hn] at h
    simp only [Option.map_some', Option.some.injEq] at h
    exact ⟨nd, rfl, h⟩

/-- The index `pageNeurons` of a state that satisfies the invariant is
injective and maps every page to a live neuron of that page. -/
theorem Inv.bijection {s : State} (h : Inv s) :
    (∀ p q n, Dict.get s.pageNeurons p = some n → Dict.get s.pageNeurons q = some n → p = q)
      ∧ (∀ p n, Dict.get s.pageNeurons p = some n →
          ∃ nd, Dict.get s.neurons n = some nd ∧ nd.pageId = p) := by
  constructor
  · intro p q n hp hq
    obtain ⟨d, hd, hdp⟩ := h.page_neuron p n hp
    obtain ⟨d', hd', hdq⟩ := h.page_neuron q n hq
    rw [hd] at hd'
    cases hd'
    exact hdp.symm.trans hdq
  · intro p n hp
    obtain ⟨d, hd, hdp⟩ := h.page_neuron p n hp
    obtain ⟨nd, hnd, hdata⟩ := get_neurons_of_graph hd
    refine ⟨nd, hnd, ?_⟩
    rw [← hdp, ← hdata]
    rfl

/-- With counters that are natural numbers and property reads that find own
keys only: in every state reached from the empty state by a sequence of entry
points (`createNeuron`, `removeNeuron`, `createNewTab`, `navigateTo`,
`navigateToRealUrl`, `closeTab`, `loadFromLocalStorage`, and the other
constructors of `Op` as well), no two distinct page ids are mapped by
`pageNeurons` to the same neuron id, and every page id in `pageNeurons` is
mapped to a key of `neurons` whose neuron has that page id. -/
theorem pageNeurons_bijection (templateLabel : String) (hasMinimap : Bool) (ops : List Op) :
    (∀ p q n, Dict.get (run (State.empty templateLabel hasMinimap) ops).pageNeurons p = some n →
        Dict.get (run (State.empty templateLabel hasMinimap) ops).pageNeurons q = some n → p = q)
      ∧ (∀ p n, Dict.get (run (State.empty templateLabel hasMinimap) ops).pageNeurons p = some n →
          ∃ nd, Dict.get (run (State.empty templateLabel hasMinimap) ops).neurons n = some nd
            ∧ nd.pageId = p) :=
  (inv_run templateLabel hasMinimap ops).bijection

/-- C2, as the code has it. `createSynapse(x, x)` leaves the synapse keys
unchanged exactly when the key `x_x` is already there or `x` is not a live
neuron; for a live neuron `x` without that key it adds the self-loop.
`createSynapse` has no guard of its own against equal ends: its callers
compare the two ends before they call it. -/
theorem createSynapse_self_unchanged_iff (s : State) (x : NeuronId) :
    (createSynapse s x x).synapses = s.synapses
      ↔ ((x, x) ∈ s.synapses ∨ x ∉ Dict.keys s.neurons) := by
  rw [createSynapse_synapses]
  by_cases h1 : (x, x) ∈ s.synapses
  · simp [h1]
  · by_cases h2 : x ∈ Dict.keys s.neurons
    · simp [h1, h2]
    · simp [h1, h2]

/-- C2 fails as stated: once the first tab is open, `neuron-1` is live and
`createSynapse('neuron-1', 'neuron-1')` stores the synapse `neuron-1_neuron-1`. -/
theorem createSynapse_self_creates :
    (run (State.empty "" true) [.createNewTab rndHalf]).synapses = []
      ∧ (createSynapse (run (State.empty "" true) [.createNewTab rndHalf]) 1 1).synapses
          = [(1, 1)] := by
  decide

theorem count_eq_one_of_nodup_of_mem {α : Type} [BEq α] [LawfulBEq α] {l : List α} {a : α}
    (hn : l.Nodup) (hm : a ∈ l) : l.count a = 1 := by
  induction l with
  | nil => cases hm
  | cons x xs ih =>
    rw [List.nodup_cons] at hn
    rw [List.count_cons]
    rcases List.mem_cons.1 hm with h | h
    · subst h
      have h0 : List.count a xs = 0 := List.count_eq_zero.2 hn.1
      simp [h0]
    · have hx : x ≠ a := fun e => hn.1 (e ▸ h)
      simp [ih hn.2 h, hx]

/-- C3. For live neurons `a` and `b` (distinct or not), after two calls of
`createSynapse(a, b)` the key `a_b` is stored exactly once, and the second
call leaves the synapse keys unchanged.  The keys of the object `synapses`
are distinct, which is the hypothesis `hkeys`. -/
theorem createSynapse_twice (s : State) (a b : NeuronId)
    (ha : a ∈ Dict.keys s.neurons) (hb : b ∈ Dict.keys s.neurons) (hkeys : s.synapses.Nodup) :
    (createSynapse (createSynapse s a b) a b).synapses = (createSynapse s a b).synapses
      ∧ (createSynapse (createSynapse s a b) a b).synapses.count (a, b) = 1 := by
  have hmem : (a, b) ∈ (createSynapse s a b).synapses := by
    rw [createSynapse_synapses]
    by_cases h1 : (a, b) ∈ s.synapses
    · simp [h1]
    · simp [h1, ha, hb]
  have hnodup : (createSynapse s a b).synapses.Nodup := by
    rw [createSynapse_synapses]
    split
    · rename_i hc
      exact List.Nodup.append hkeys (List.nodup_singleton _) (by simpa using hc.1)
    · exact hkeys
  have hsame : (createSynapse (createSynapse s a b) a b).synapses
      = (createSynapse s a b).synapses := by
    rw [createSynapse_synapses (createSynapse s a b)]
    simp [hmem]
  refine ⟨hsame, ?_⟩
  rw [hsame]
  exact count_eq_one_of_nodup_of_mem hnodup hmem

theorem createSynapse_twice_witness :
    (1 ∈ Dict.keys (run (State.empty "" true)
          [.createNewTab rndHalf, .navigateTo "about" none none false rndHalf]).neurons
      ∧ 2 ∈ Dict.keys (run (State.empty "" true)
          [.createNewTab rndHalf, .navigateTo "about" none none false rndHalf]).neurons
      ∧ (run (State.empty "" true)
          [.createNewTab rndHalf, .navigateTo "about" none none false rndHalf]).synapses.Nodup)
      ∧ ((createSynapse (createSynapse (run (State.empty "" true)
            [.createNewTab rndHalf, .navigateTo "about" none none false rndHalf]) 1 2) 1 2).synapses
          = (createSynapse (run (State.empty "" true)
            [.createNewTab rndHalf, .navigateTo "about" none none false rndHalf]) 1 2).synapses
        ∧ (createSynapse (createSynapse (run (State.empty "" true)
            [.createNewTab rndHalf, .navigateTo "about" none none false rndHalf]) 1 2) 1 2).synapses.count
            (1, 2) = 1) :=
  ⟨by decide,
    createSynapse_twice _ 1 2 (by decide) (by decide) (by decide)⟩

/-- What `removeNeuron` leaves of a live neuron in a state that satisfies the invariant. -/
theorem Inv.cascade {s : State} (h : Inv s) {n : NeuronId}
    (hn : n ∈ Dict.keys s.neurons) :
    (∀ a b, (a, b) ∈ (removeNeuron s n).synapses → a ≠ n ∧ b ≠ n)
      ∧ n ∉ Dict.keys (removeNeuron s n).neurons
      ∧ ∀ p, Dict.get (removeNeuron s n).pageNeurons p ≠ some n := by
  obtain ⟨nd, hnd⟩ := (Dict.mem_keys_iff _ _).1 hn
  refine ⟨?_, ?_, ?_⟩
  · intro a b hab
    rw [removeNeuron_synapses hnd] at hab
    have hnt := (List.mem_filter.1 hab).2
    simpa [touches] using hnt
  · rw [← keys_graph, removeNeuron_graph hnd, Dict.keys_delete]
    intro hmem
    have := (List.mem_filter.1 hmem).2
    simp at this
  · intro p hp
    obtain ⟨d, hd, _⟩ := (inv_removeNeuron h n).page_neuron p n hp
    rw [removeNeuron_graph hnd, Dict.get_delete_self] at hd
    cases hd

/-- C4. For every state reached in a session and every live neuron `n`,
after `removeNeuron(n)` no stored synapse has `n` as its from-end or its
to-end, `n` is no key of `neurons`, and no page id is mapped to `n` by
`pageNeurons`. -/
theorem removeNeuron_cascade (templateLabel : String) (hasMinimap : Bool) (ops : List Op)
    (n : NeuronId) (hn : n ∈ Dict.keys (run (State.empty templateLabel hasMinimap) ops).neurons) :
    (∀ a b, (a, b) ∈ (removeNeuron (run (State.empty templateLabel hasMinimap) ops) n).synapses →
        a ≠ n ∧ b ≠ n)
      ∧ n ∉ Dict.keys (removeNeuron (run (State.empty templateLabel hasMinimap) ops) n).neurons
      ∧ ∀ p, Dict.get (removeNeuron (run (State.empty templateLabel hasMinimap) ops) n).pageNeurons p
          ≠ some n :=
  (inv_run templateLabel hasMinimap ops).cascade hn

theorem removeNeuron_cascade_witness :
    2 ∈ Dict.keys (run (State.empty "" true) threePages).neurons
      ∧ ((∀ a b, (a, b) ∈ (removeNeuron (run (State.empty "" true) threePages) 2).synapses →
            a ≠ 2 ∧ b ≠ 2)
        ∧ 2 ∉ Dict.keys (removeNeuron (run (State.empty "" true) threePages) 2).neurons
        ∧ ∀ p, Dict.get (removeNeuron (run (State.empty "" true) threePages) 2).pageNeurons p
            ≠ some 2) :=
  ⟨by decide, removeNeuron_cascade "" true threePages 2 (by decide)⟩

/-- C5 fails on the code. After the session `homeRemoved` the state has the
neurons `neuron-2` (page `about`), `neuron-3` (`features`) and `neuron-4`
(`science`) and the one synapse `neuron-2_neuron-3`, from `about` to
`features`.  Loading the record saved from it into the empty state mints the
ids anew, `neuron-1` for `about`, `neuron-2` for `features` and `neuron-3`
for `science`, and `createSynapse('neuron-2', 'neuron-3')` then joins
`features` to `science`: the synapse from `about` to `features` is lost and
one from `features` to `science` appears. -/
theorem restore_renumbers_synapse_ends :
    (run (State.empty "" true) homeRemoved).pageNeurons
        = [("about", 2), ("features", 3), ("science", 4)]
      ∧ (run (State.empty "" true) homeRemoved).synapses = [(2, 3)]
      ∧ (loadFromLocalStorage (State.empty "" true)
          (some (saveToLocalStorage (run (State.empty "" true) homeRemoved)))
          rndHalf).pageNeurons = [("about", 1), ("features", 2), ("science", 3)]
      ∧ (loadFromLocalStorage (State.empty "" true)
          (some (saveToLocalStorage (run (State.empty "" true) homeRemoved)))
          rndHalf).synapses = [(2, 3)] := by
  decide

/-! ## Counters -/

theorem Grows.grows_refl (s : State) : Grows s s :=
  ⟨le_refl _, le_refl _, rfl, rfl⟩

theorem Grows.grows_trans {s s' s'' : State} (h : Grows s s') (h' : Grows s' s'') : Grows s s'' :=
  ⟨le_trans h.neuron h'.neuron, le_trans h.tab h'.tab, h'.template.trans h.template,
    h'.minimap.trans h.minimap⟩

theorem Grows.of_same {s s' : State} (h : SameCore s s') : Grows s s' :=
  ⟨le_of_eq h.lastNeuronId.symm, le_of_eq h.lastTabId.symm, h.neuronTemplateLabel, h.minimap⟩

theorem grows_activateTab (s : State) (t : TabId) : Grows s (activateTab s t) :=
  ⟨by simp, by simp, by simp, by simp⟩

theorem grows_closeTab (s : State) (t : TabId) : Grows s (closeTab s t) :=
  ⟨by simp, by simp, by simp, by simp⟩

theorem grows_createSynapse (s : State) (a b : NeuronId) : Grows s (createSynapse s a b) :=
  ⟨by simp, by simp, by simp, by simp⟩

theorem grows_createNeuron (s : State) (pageId : PageId) (title : String)
    (position : Option Position) (rnd : Rnd) :
    Grows s (createNeuron s pageId title position rnd).1 :=
  ⟨createNeuron_lastNeuronId_le s pageId title position rnd, by simp, by simp, by simp⟩

theorem removeNeuron_minimap (s : State) (n : NeuronId) :
    (removeNeuron s n).minimap = s.minimap := by
  unfold removeNeuron
  split
  · rfl
  · simp only
    split
    all_goals
      show (removeSynapses _ _).minimap = _
      rw [removeSynapses_minimap, foldl_closeTab_minimap]

theorem grows_removeNeuron (s : State) (n : NeuronId) : Grows s (removeNeuron s n) :=
  ⟨le_of_eq (removeNeuron_lastNeuronId s n).symm, le_of_eq (removeNeuron_lastTabId s n).symm,
    removeNeuron_neuronTemplateLabel s n, removeNeuron_minimap s n⟩

theorem grows_navigateSynapse (s : State) (pageId oldPageId : PageId)
    (oldNeuronId : Option NeuronId) (neuronId : NeuronId) (sourceNeuronId : Option NeuronId)
    (withSynapse : Bool) :
    Grows s (navigateSynapse s pageId oldPageId oldNeuronId neuronId sourceNeuronId withSynapse) := by
  unfold navigateSynapse
  split
  · exact grows_createSynapse s _ _
  · split
    · exact grows_createSynapse s _ _
    · exact Grows.grows_refl s

theorem grows_setTabs (s : State) (tabs : Dict TabId Tab) : Grows s { s with tabs := tabs } :=
  ⟨le_refl _, le_refl _, rfl, rfl⟩

theorem grows_navigateTo (s : State) (pageId : PageId) (tabId : Option TabId)
    (sourceNeuronId : Option NeuronId) (withSynapse : Bool) (rnd : Rnd) :
    Grows s (navigateTo s pageId tabId sourceNeuronId withSynapse rnd).state := by
  cases ht : (tabId <|> s.activeTabId) with
  | none => rw [navigateTo_of_no_target ht]; exact Grows.grows_refl s
  | some t =>
    cases hpage : Dict.get mockPages pageId with
    | none => rw [navigateTo_of_unknown_page hpage]; exact Grows.grows_refl s
    | some page =>
      cases htab : Dict.get s.tabs t with
      | none => rw [navigateTo_of_closed_tab ht hpage htab]; exact Grows.grows_refl s
      | some tab =>
        rw [navigateTo_eq ht hpage htab]
        simp only [Outcome.state]
        exact (((grows_createNeuron s pageId page.title none rnd).grows_trans
          (grows_setTabs _ _)).grows_trans (grows_navigateSynapse _ _ _ _ _ _ _)).grows_trans
          (grows_activateTab _ _)

theorem grows_createNewTab (s : State) (rnd : Rnd) : Grows s (createNewTab s rnd).1 := by
  unfold createNewTab
  simp only
  refine Grows.grows_trans ?_ (grows_navigateTo _ _ _ _ _ _)
  refine Grows.grows_trans ?_ (grows_activateTab _ _)
  exact ⟨le_refl _, Nat.le_succ _, rfl, rfl⟩

theorem grows_navigateToRealUrl (s : State) (url : String) (hostname : Option String)
    (rndTab rnd : Rnd) : Grows s (navigateToRealUrl s url hostname rndTab rnd).state := by
  unfold navigateToRealUrl
  simp only [findOrCreateNeuronForDomain_eq]
  have h0 : Grows s (if s.activeTabId = none then (createNewTab s rndTab).1 else s) := by
    split
    · exact grows_createNewTab s rndTab
    · exact Grows.grows_refl s
  generalize (if s.activeTabId = none then (createNewTab s rndTab).1 else s) = s0 at h0 ⊢
  generalize hostname.getD (withProtocol url) = domain
  have h1 := h0.grows_trans (grows_createNeuron s0 ("web:" ++ domain) domain none rnd)
  split
  · exact h1
  · split
    · exact h1
    · simp only [Outcome.state]
      refine Grows.grows_trans ?_ (grows_activateTab _ _)
      split
      · exact (h1.grows_trans (grows_setTabs _ _)).grows_trans (grows_createSynapse _ _ _)
      · exact h1.grows_trans (grows_setTabs _ _)

theorem grows_activatePageNeuron (s : State) (pageId : PageId) (rndTab rnd : Rnd) :
    Grows s (activatePageNeuron s pageId rndTab rnd).state := by
  unfold activatePageNeuron
  split
  · exact grows_activateTab s _
  · split
    · exact grows_navigateTo s _ _ _ _ _
    · exact (grows_createNewTab s rndTab).grows_trans (grows_navigateTo _ _ _ _ _ _)

theorem grows_connectToCurrent (s : State) (neuronId : NeuronId) (pageId : PageId) :
    Grows s (connectToCurrent s neuronId pageId).state := by
  unfold connectToCurrent
  split
  · exact Grows.grows_refl s
  · split
    · exact Grows.grows_refl s
    · simp only
      split
      · split
        · exact grows_createSynapse s _ _
        · exact Grows.grows_refl s
      · exact Grows.grows_refl s

theorem grows_setNeurons (s : State) (neurons : Dict NeuronId Neuron) :
    Grows s { s with neurons := neurons } :=
  ⟨le_refl _, le_refl _, rfl, rfl⟩

theorem grows_dragNeuron (s : State) (n : NeuronId)
    (deltaX deltaY offsetWidth offsetHeight : ℚ) :
    Grows s (dragNeuron s n deltaX deltaY offsetWidth offsetHeight) := by
  unfold dragNeuron
  split
  · exact Grows.grows_refl s
  · simp only
    exact (grows_setNeurons s _).grows_trans (Grows.of_same (sameCore_updateMinimapNeuron _ n))

theorem grows_restoreNeurons (s : State) (saved : Dict NeuronId NeuronData) (rnd : Rnd) :
    Grows s (restoreNeurons s saved rnd) := by
  unfold restoreNeurons
  induction saved generalizing s with
  | nil => exact Grows.grows_refl s
  | cons e rest ih =>
    rw [List.foldl_cons]
    refine Grows.grows_trans ?_ (ih _)
    split
    · exact Grows.grows_refl s
    · exact grows_createNeuron s _ _ _ _

theorem grows_restoreSynapses (s : State) (saved : List SynapseId) :
    Grows s (restoreSynapses s saved) := by
  unfold restoreSynapses
  induction saved generalizing s with
  | nil => exact Grows.grows_refl s
  | cons e rest ih =>
    rw [List.foldl_cons]
    exact (grows_createSynapse s _ _).grows_trans (ih _)

theorem grows_loadFromLocalStorage (s : State) (stored : Option SaveData) (rnd : Rnd) :
    Grows s (loadFromLocalStorage s stored rnd) := by
  unfold loadFromLocalStorage
  split
  · exact Grows.grows_refl s
  · simp only
    refine Grows.grows_trans ?_ ⟨le_max_left _ _, le_max_left _ _, rfl, rfl⟩
    refine Grows.grows_trans ?_ (grows_restoreSynapses _ _)
    refine Grows.grows_trans ?_ (grows_restoreNeurons _ _ _)
    split
    · exact ⟨le_refl _, le_refl _, rfl, rfl⟩
    · exact Grows.grows_refl s

theorem grows_step (s : State) (op : Op) : Grows s (step s op) := by
  cases op with
  | createNeuron pageId title position rnd => exact grows_createNeuron s _ _ _ _
  | createSynapse fromId toId => exact grows_createSynapse s _ _
  | removeNeuron neuronId => exact grows_removeNeuron s _
  | createNewTab rnd => exact grows_createNewTab s _
  | activateTab tabId => exact grows_activateTab s _
  | closeTab tabId => exact grows_closeTab s _
  | navigateTo pageId tabId sourceNeuronId withSynapse rnd => exact grows_navigateTo s _ _ _ _ _
  | navigateToRealUrl url hostname rndTab rnd => exact grows_navigateToRealUrl s _ _ _ _
  | activatePageNeuron pageId rndTab rnd => exact grows_activatePageNeuron s _ _ _
  | connectToCurrent neuronId =>
    show Grows s (match Dict.get s.neurons neuronId with
      | some neuron => (connectToCurrent s neuronId neuron.pageId).state
      | none => s)
    split
    · exact grows_connectToCurrent s _ _
    · exact Grows.grows_refl s
  | dragNeuron neuronId deltaX deltaY offsetWidth offsetHeight => exact grows_dragNeuron s _ _ _ _ _
  | loadFromLocalStorage stored rnd => exact grows_loadFromLocalStorage s _ _

theorem grows_run (s : State) (ops : List Op) : Grows s (run s ops) := by
  unfold run
  induction ops generalizing s with
  | nil => exact Grows.grows_refl s
  | cons op rest ih => exact (grows_step s op).grows_trans (ih _)

theorem createNewTab_snd (s : State) (rnd : Rnd) : (createNewTab s rnd).2 = s.lastTabId + 1 := rfl

/-- With counters that are natural numbers, to which `++` adds one: every
entry point leaves `lastNeuronId` and `lastTabId` at least as high as they
were, from any state; in every state reached in a session the
number of each live neuron id is at most `lastNeuronId` and the number of
each open tab id is at most `lastTabId`; hence the id `createNeuron` mints
for a page without neuron is no key of `neurons`, and the id `createNewTab`
mints is no key of `tabs`. -/
theorem ids_monotone_and_fresh (s : State) (op : Op) (templateLabel : String)
    (hasMinimap : Bool) (ops : List Op) (pageId : PageId) (title : String)
    (position : Option Position) (rnd : Rnd) :
    (s.lastNeuronId ≤ (step s op).lastNeuronId ∧ s.lastTabId ≤ (step s op).lastTabId)
      ∧ (∀ n, n ∈ Dict.keys (run (State.empty templateLabel hasMinimap) ops).neurons →
          n ≤ (run (State.empty templateLabel hasMinimap) ops).lastNeuronId)
      ∧ (∀ t, t ∈ Dict.keys (run (State.empty templateLabel hasMinimap) ops).tabs →
          t ≤ (run (State.empty templateLabel hasMinimap) ops).lastTabId)
      ∧ (Dict.get (run (State.empty templateLabel hasMinimap) ops).pageNeurons pageId = none →
          (createNeuron (run (State.empty templateLabel hasMinimap) ops) pageId title position rnd).2
            ∉ Dict.keys (run (State.empty templateLabel hasMinimap) ops).neurons)
      ∧ (createNewTab (run (State.empty templateLabel hasMinimap) ops) rnd).2
          ∉ Dict.keys (run (State.empty templateLabel hasMinimap) ops).tabs := by
  have h := inv_run templateLabel hasMinimap ops
  refine ⟨⟨(grows_step s op).neuron, (grows_step s op).tab⟩, ?_, h.tab_le, ?_, ?_⟩
  · intro n hn
    exact h.neuron_le n (by rw [keys_graph]; exact hn)
  · intro hnone hmem
    rw [createNeuron_snd_of_none hnone] at hmem
    exact Nat.not_succ_le_self _ (h.neuron_le _ (by rw [keys_graph]; exact hmem))
  · intro hmem
    rw [createNewTab_snd] at hmem
    exact Nat.not_succ_le_self _ (h.tab_le _ hmem)

/-! ## Tabs and their neurons -/

/-- With property reads that find own keys only: in every state reached in a
session (by `createNewTab`, `navigateTo`,
`navigateToRealUrl`, `activateTab`, `closeTab`, `removeNeuron`, and the
other constructors of `Op` as well), every open tab whose `neuronId` is not
null refers to a live neuron whose `pageId` is the `pageId` of the tab, and
`pageNeurons` maps that page id to that neuron. -/
theorem tab_binding (templateLabel : String) (hasMinimap : Bool) (ops : List Op) :
    ∀ t tab n, Dict.get (run (State.empty templateLabel hasMinimap) ops).tabs t = some tab →
      tab.neuronId = some n →
      ∃ nd, Dict.get (run (State.empty templateLabel hasMinimap) ops).neurons n = some nd
        ∧ nd.pageId = tab.pageId
        ∧ Dict.get (run (State.empty templateLabel hasMinimap) ops).pageNeurons tab.pageId
            = some n := by
  intro t tab n ht hn
  have h := inv_run templateLabel hasMinimap ops
  obtain ⟨d, hd, hdp⟩ := h.tab_neuron t tab n ht hn
  obtain ⟨nd, hnd, hdata⟩ := get_neurons_of_graph hd
  have hpage : nd.pageId = tab.pageId := by
    rw [← hdp, ← hdata]
    rfl
  refine ⟨nd, hnd, hpage, ?_⟩
  rw [← hdp]
  exact h.neuron_page n d hd

/-- C10 fails on the code. Two tabs are opened, both on `home` and so both
bound to `neuron-1`, the second being the active tab; then the first tab is
closed.  `closeTab` removes `active` and `current` from `neuron-1` and, the
closed tab not being the active one, nothing recomputes them: the open,
active tab `tab-2` is bound to `neuron-1`, which carries neither class. -/
theorem closeTab_clears_shared_neuron :
    (Dict.get (run (State.empty "" true)
        [.createNewTab rndHalf, .createNewTab rndHalf, .closeTab 1]).tabs 2).map
        (fun tab => tab.neuronId) = some (some 1)
      ∧ (run (State.empty "" true)
          [.createNewTab rndHalf, .createNewTab rndHalf, .closeTab 1]).activeTabId = some 2
      ∧ (Dict.get (run (State.empty "" true)
          [.createNewTab rndHalf, .createNewTab rndHalf, .closeTab 1]).neurons 1).map
          (fun n => (n.active, n.current)) = some (false, false) := by
  decide

/-! ## Restore -/

theorem createSynapse_eq_self {s : State} {a b : NeuronId}
    (h : (a, b) ∈ s.synapses ∨ ¬ (a ∈ Dict.keys s.neurons ∧ b ∈ Dict.keys s.neurons)) :
    createSynapse s a b = s := by
  unfold createSynapse
  split
  · rfl
  · rename_i hmem
    split
    · rename_i x y na nb ha hb
      exfalso
      rcases h with h | h
      · exact hmem h
      · exact h ⟨(Dict.mem_keys_iff _ _).2 ⟨na, ha⟩, (Dict.mem_keys_iff _ _).2 ⟨nb, hb⟩⟩
    · rfl

theorem createNeuron_pageNeurons_keeps {s : State} {p : PageId} {n : NeuronId}
    (h : Dict.get s.pageNeurons p = some n) (pageId : PageId) (title : String)
    (position : Option Position) (rnd : Rnd) :
    Dict.get (createNeuron s pageId title position rnd).1.pageNeurons p = some n := by
  cases hq : Dict.get s.pageNeurons pageId with
  | some m => rw [createNeuron_of_some hq]; exact h
  | none =>
    rw [createNeuron_pageNeurons_of_none hq, Dict.get_set]
    split
    · rename_i heq
      rw [heq, h] at hq
      cases hq
    · exact h

theorem restoreNeurons_cons (s : State) (e : NeuronId × NeuronData)
    (rest : Dict NeuronId NeuronData) (rnd : Rnd) :
    restoreNeurons s (e :: rest) rnd = restoreNeurons (restoreNeuron s e rnd) rest rnd := by
  rfl

theorem restoreNeurons_nil (s : State) (rnd : Rnd) : restoreNeurons s [] rnd = s := rfl

theorem restoreNeuron_keeps {s : State} {p : PageId} {n : NeuronId}
    (h : Dict.get s.pageNeurons p = some n) (e : NeuronId × NeuronData) (rnd : Rnd) :
    Dict.get (restoreNeuron s e rnd).pageNeurons p = some n := by
  unfold restoreNeuron
  split
  · exact h
  · exact createNeuron_pageNeurons_keeps h _ _ _ _

theorem restoreNeuron_present (s : State) (e : NeuronId × NeuronData) (rnd : Rnd) :
    ∃ n, Dict.get (restoreNeuron s e rnd).pageNeurons e.2.pageId = some n := by
  unfold restoreNeuron
  split
  · rename_i n hn
    exact ⟨n, hn⟩
  · exact ⟨_, createNeuron_pageNeurons_get _ _ _ _ _⟩

theorem restoreNeurons_keeps {s : State} {p : PageId} {n : NeuronId}
    (h : Dict.get s.pageNeurons p = some n) (saved : Dict NeuronId NeuronData) (rnd : Rnd) :
    Dict.get (restoreNeurons s saved rnd).pageNeurons p = some n := by
  induction saved generalizing s with
  | nil => exact h
  | cons e rest ih =>
    rw [restoreNeurons_cons]
    exact ih (restoreNeuron_keeps h e rnd)

/-- After the loop every saved page has a neuron. -/
theorem restoreNeurons_present (s : State) (saved : Dict NeuronId NeuronData) (rnd : Rnd) :
    ∀ e ∈ saved, ∃ n, Dict.get (restoreNeurons s saved rnd).pageNeurons e.2.pageId = some n := by
  induction saved generalizing s with
  | nil => intro e he; cases he
  | cons e0 rest ih =>
    intro e he
    rw [restoreNeurons_cons]
    rcases List.mem_cons.1 he with h | h
    · subst h
      obtain ⟨n, hn⟩ := restoreNeuron_present s e rnd
      exact ⟨n, restoreNeurons_keeps hn rest rnd⟩
    · exact ih _ e h

/-- The loop changes nothing when every saved page has a neuron already. -/
theorem restoreNeurons_eq_self {s : State} {saved : Dict NeuronId NeuronData}
    (h : ∀ e ∈ saved, ∃ n, Dict.get s.pageNeurons e.2.pageId = some n) (rnd : Rnd) :
    restoreNeurons s saved rnd = s := by
  induction saved with
  | nil => rfl
  | cons e rest ih =>
    rw [restoreNeurons_cons]
    obtain ⟨n, hn⟩ := h e (List.mem_cons_self _ _)
    have hstep : restoreNeuron s e rnd = s := by
      unfold restoreNeuron
      rw [hn]
    rw [hstep]
    exact ih (fun e' he' => h e' (List.mem_cons_of_mem _ he'))

theorem restoreSynapses_cons (s : State) (sid : SynapseId) (rest : List SynapseId) :
    restoreSynapses s (sid :: rest) = restoreSynapses (createSynapse s sid.1 sid.2) rest := by
  rfl

@[simp] theorem restoreSynapses_neurons (s : State) (saved : List SynapseId) :
    (restoreSynapses s saved).neurons = s.neurons := by
  induction saved generalizing s with
  | nil => rfl
  | cons sid rest ih => rw [restoreSynapses_cons, ih, createSynapse_neurons]

@[simp] theorem restoreSynapses_pageNeurons (s : State) (saved : List SynapseId) :
    (restoreSynapses s saved).pageNeurons = s.pageNeurons := by
  induction saved generalizing s with
  | nil => rfl
  | cons sid rest ih => rw [restoreSynapses_cons, ih, createSynapse_pageNeurons]

@[simp] theorem restoreSynapses_lastNeuronId (s : State) (saved : List SynapseId) :
    (restoreSynapses s saved).lastNeuronId = s.lastNeuronId := by
  induction saved generalizing s with
  | nil => rfl
  | cons sid rest ih => rw [restoreSynapses_cons, ih, createSynapse_lastNeuronId]

@[simp] theorem restoreSynapses_lastTabId (s : State) (saved : List SynapseId) :
    (restoreSynapses s saved).lastTabId = s.lastTabId := by
  induction saved generalizing s with
  | nil => rfl
  | cons sid rest ih => rw [restoreSynapses_cons, ih, createSynapse_lastTabId]

theorem createSynapse_synapses_keeps {s : State} {x : SynapseId} (h : x ∈ s.synapses)
    (a b : NeuronId) : x ∈ (createSynapse s a b).synapses := by
  rw [createSynapse_synapses]
  split
  · exact List.mem_append_left _ h
  · exact h

theorem restoreSynapses_keeps {s : State} {x : SynapseId} (h : x ∈ s.synapses)
    (saved : List SynapseId) : x ∈ (restoreSynapses s saved).synapses := by
  induction saved generalizing s with
  | nil => exact h
  | cons sid rest ih =>
    rw [restoreSynapses_cons]
    exact ih (createSynapse_synapses_keeps h _ _)

/-- After the loop every saved key whose two neurons are live is stored. -/
theorem restoreSynapses_present (s : State) (saved : List SynapseId) :
    ∀ sid ∈ saved, sid.1 ∈ Dict.keys s.neurons → sid.2 ∈ Dict.keys s.neurons →
      sid ∈ (restoreSynapses s saved).synapses := by
  induction saved generalizing s with
  | nil => intro sid hs; cases hs
  | cons sid0 rest ih =>
    intro sid hs ha hb
    rw [restoreSynapses_cons]
    rcases List.mem_cons.1 hs with h | h
    · subst h
      apply restoreSynapses_keeps
      rw [createSynapse_synapses]
      split
      · exact List.mem_append_right _ (List.mem_singleton_self _)
      · rename_i hc
        by_contra hne
        exact hc ⟨hne, ha, hb⟩
    · apply ih _ sid h
      · rw [createSynapse_neurons]; exact ha
      · rw [createSynapse_neurons]; exact hb

/-- The loop changes nothing when every saved key is stored already or lacks a live neuron. -/
theorem restoreSynapses_eq_self {s : State} {saved : List SynapseId}
    (h : ∀ sid ∈ saved, sid ∈ s.synapses
      ∨ ¬ (sid.1 ∈ Dict.keys s.neurons ∧ sid.2 ∈ Dict.keys s.neurons)) :
    restoreSynapses s saved = s := by
  induction saved with
  | nil => rfl
  | cons sid rest ih =>
    rw [restoreSynapses_cons, createSynapse_eq_self (h sid (List.mem_cons_self _ _))]
    exact ih (fun sid' hs' => h sid' (List.mem_cons_of_mem _ hs'))

theorem loadFromLocalStorage_some (s : State) (data : SaveData) (rnd : Rnd) :
    loadFromLocalStorage s (some data) rnd
      = { restoreSynapses (restoreNeurons (withConfig s data.config) data.neurons rnd) data.synapses
          with
          lastNeuronId := max (restoreSynapses (restoreNeurons (withConfig s data.config)
              data.neurons rnd) data.synapses).lastNeuronId data.lastNeuronId,
          lastTabId := max (restoreSynapses (restoreNeurons (withConfig s data.config)
              data.neurons rnd) data.synapses).lastTabId data.lastTabId } := by
  obtain ⟨neurons, synapses, pageNeurons, lastNeuronId, lastTabId, config⟩ := data
  cases config <;> rfl

@[simp] theorem withConfig_pageNeurons (s : State) (config : Option (Dict String CfgVal)) :
    (withConfig s config).pageNeurons = s.pageNeurons := by
  cases config <;> rfl

@[simp] theorem withConfig_neurons (s : State) (config : Option (Dict String CfgVal)) :
    (withConfig s config).neurons = s.neurons := by
  cases config <;> rfl

@[simp] theorem withConfig_synapses (s : State) (config : Option (Dict String CfgVal)) :
    (withConfig s config).synapses = s.synapses := by
  cases config <;> rfl

@[simp] theorem withConfig_lastNeuronId (s : State) (config : Option (Dict String CfgVal)) :
    (withConfig s config).lastNeuronId = s.lastNeuronId := by
  cases config <;> rfl

@[simp] theorem withConfig_lastTabId (s : State) (config : Option (Dict String CfgVal)) :
    (withConfig s config).lastTabId = s.lastTabId := by
  cases config <;> rfl

/-- C7. For every state and every record, a second `loadFromLocalStorage` of
the same record, applied to the state the first one produced, leaves
`neurons`, `pageNeurons`, the synapse keys and `lastNeuronId` (and
`lastTabId`) as they are: no neuron and no synapse is added. -/
theorem load_twice (s : State) (data : SaveData) (rnd rnd' : Rnd) :
    (loadFromLocalStorage (loadFromLocalStorage s (some data) rnd) (some data) rnd').neurons
        = (loadFromLocalStorage s (some data) rnd).neurons
      ∧ (loadFromLocalStorage (loadFromLocalStorage s (some data) rnd) (some data) rnd').pageNeurons
        = (loadFromLocalStorage s (some data) rnd).pageNeurons
      ∧ (loadFromLocalStorage (loadFromLocalStorage s (some data) rnd) (some data) rnd').synapses
        = (loadFromLocalStorage s (some data) rnd).synapses
      ∧ (loadFromLocalStorage (loadFromLocalStorage s (some data) rnd) (some data) rnd').lastNeuronId
        = (loadFromLocalStorage s (some data) rnd).lastNeuronId
      ∧ (loadFromLocalStorage (loadFromLocalStorage s (some data) rnd) (some data) rnd').lastTabId
        = (loadFromLocalStorage s (some data) rnd).lastTabId := by
  generalize hs1 : loadFromLocalStorage s (some data) rnd = s1
  have hpn : s1.pageNeurons = (restoreNeurons (withConfig s data.config) data.neurons rnd).pageNeurons := by
    rw [← hs1, loadFromLocalStorage_some]
    simp
  have hne : s1.neurons = (restoreNeurons (withConfig s data.config) data.neurons rnd).neurons := by
    rw [← hs1, loadFromLocalStorage_some]
    simp
  have hsy : s1.synapses = (restoreSynapses (restoreNeurons (withConfig s data.config)
      data.neurons rnd) data.synapses).synapses := by
    rw [← hs1, loadFromLocalStorage_some]
  have hln : data.lastNeuronId ≤ s1.lastNeuronId := by
    rw [← hs1, loadFromLocalStorage_some]
    exact le_max_right _ _
  have hlt : data.lastTabId ≤ s1.lastTabId := by
    rw [← hs1, loadFromLocalStorage_some]
    exact le_max_right _ _
  have h1 : restoreNeurons (withConfig s1 data.config) data.neurons rnd'
      = withConfig s1 data.config := by
    apply restoreNeurons_eq_self
    intro e he
    rw [withConfig_pageNeurons, hpn]
    exact restoreNeurons_present _ _ _ e he
  have h2 : restoreSynapses (withConfig s1 data.config) data.synapses
      = withConfig s1 data.config := by
    apply restoreSynapses_eq_self
    intro sid hsid
    rw [withConfig_synapses, withConfig_neurons, hsy, hne]
    by_cases hlive : sid.1 ∈ Dict.keys (restoreNeurons (withConfig s data.config)
        data.neurons rnd).neurons ∧ sid.2 ∈ Dict.keys (restoreNeurons (withConfig s data.config)
        data.neurons rnd).neurons
    · exact Or.inl (restoreSynapses_present _ _ sid hsid hlive.1 hlive.2)
    · exact Or.inr hlive
  rw [loadFromLocalStorage_some s1, h1, h2]
  refine ⟨by simp, by simp, by simp, ?_, ?_⟩
  · simp only [withConfig_lastNeuronId]
    exact max_eq_left hln
  · simp only [withConfig_lastTabId]
    exact max_eq_left hlt

theorem createNeuron_rnd_of_position (s : State) (pageId : PageId) (title : String)
    (pos : Position) (rnd rnd' : Rnd) :
    createNeuron s pageId title (some pos) rnd = createNeuron s pageId title (some pos) rnd' := by
  unfold createNeuron
  rfl

theorem restoreNeurons_rnd (s : State) (saved : Dict NeuronId NeuronData) (rnd rnd' : Rnd) :
    restoreNeurons s saved rnd = restoreNeurons s saved rnd' := by
  induction saved generalizing s with
  | nil => rfl
  | cons e rest ih =>
    rw [restoreNeurons_cons, restoreNeurons_cons, ih]
    unfold restoreNeuron
    rw [createNeuron_rnd_of_position s _ _ _ rnd rnd']

/-- The draws of `Math.random()` play no part in `loadFromLocalStorage`:
every neuron is created at the position given. -/
theorem loadFromLocalStorage_rnd (s : State) (stored : Option SaveData) (rnd rnd' : Rnd) :
    loadFromLocalStorage s stored rnd = loadFromLocalStorage s stored rnd' := by
  cases stored with
  | none => rfl
  | some data =>
    rw [loadFromLocalStorage_some, loadFromLocalStorage_some, restoreNeurons_rnd _ _ rnd rnd']

theorem graph_data (s : State) :
    s.graph.map Prod.snd = s.neurons.map (fun e => e.2.data) := by
  unfold State.graph Dict.mapVals
  rw [List.map_map]
  rfl

/-- No two live neurons of a state that satisfies the invariant have the same page. -/
theorem Inv.pageIds_nodup {s : State} (h : Inv s) :
    (s.graph.map (fun e => e.2.pageId)).Nodup := by
  have hent : s.graph.Nodup := List.Nodup.of_map Prod.fst h.neurons_nodup
  refine List.Nodup.map_on ?_ hent
  intro x hx y hy hxy
  obtain ⟨n1, d1⟩ := x
  obtain ⟨n2, d2⟩ := y
  have g1 := Dict.get_of_mem h.neurons_nodup hx
  have g2 := Dict.get_of_mem h.neurons_nodup hy
  have p1 := h.neuron_page n1 d1 g1
  have p2 := h.neuron_page n2 d2 g2
  simp only at hxy
  rw [hxy, p2] at p1
  cases p1
  rw [g1] at g2
  cases g2
  rfl

theorem newNeuron_data_of_label_ok (s : State) (d : NeuronData) (rnd : Rnd)
    (hl : d.label ≠ "" ∨ d.label = s.neuronTemplateLabel) :
    (newNeuron s d.pageId d.label (some { x := d.left, y := d.top }) rnd).data = d := by
  obtain ⟨left, top, pageId, label⟩ := d
  simp only [newNeuron, Neuron.data, NeuronData.mk.injEq, true_and]
  rcases hl with hl | hl
  · simp only at hl
    simp [hl]
  · simp only at hl
    split
    · rename_i he
      rw [← hl, he]
    · rfl

/-- The loop over the saved neurons, run on pages that have no neuron yet and
are pairwise distinct, appends the saved data in their order. -/
theorem restoreNeurons_graph {s : State} (h : Inv s) (saved : Dict NeuronId NeuronData)
    (rnd : Rnd) (hnd : (saved.map (fun e => e.2.pageId)).Nodup)
    (habs : ∀ e ∈ saved, Dict.get s.pageNeurons e.2.pageId = none)
    (hlab : ∀ e ∈ saved, e.2.label ≠ "" ∨ e.2.label = s.neuronTemplateLabel) :
    (restoreNeurons s saved rnd).graph.map Prod.snd
      = s.graph.map Prod.snd ++ saved.map Prod.snd := by
  induction saved generalizing s with
  | nil => simp [restoreNeurons_nil]
  | cons e rest ih =>
    rw [restoreNeurons_cons]
    have habs0 := habs e (List.mem_cons_self _ _)
    have hstep : restoreNeuron s e rnd
        = (createNeuron s e.2.pageId e.2.label (some { x := e.2.left, y := e.2.top }) rnd).1 := by
      unfold restoreNeuron
      rw [habs0]
    have hfresh : s.lastNeuronId + 1 ∉ Dict.keys s.graph := by
      intro hmem
      exact Nat.not_succ_le_self _ (h.neuron_le _ hmem)
    have hgraph : (restoreNeuron s e rnd).graph = s.graph ++ [(s.lastNeuronId + 1, e.2)] := by
      rw [hstep, createNeuron_graph_of_none habs0, Dict.set_of_not_mem hfresh,
        newNeuron_data_of_label_ok s e.2 rnd (hlab e (List.mem_cons_self _ _))]
    simp only [List.map_cons, List.nodup_cons] at hnd
    rw [ih]
    · rw [hgraph]
      simp
    · rw [hstep]
      exact inv_createNeuron h _ _ _ _
    · exact hnd.2
    · intro e' he'
      rw [hstep, createNeuron_pageNeurons_of_none habs0, Dict.get_set]
      split
      · rename_i heq
        exfalso
        apply hnd.1
        rw [heq]
        exact List.mem_map.2 ⟨e', he', rfl⟩
      · exact habs e' (List.mem_cons_of_mem _ he')
    · intro e' he'
      rw [hstep, createNeuron_neuronTemplateLabel]
      exact hlab e' (List.mem_cons_of_mem _ he')

theorem restoreSynapses_graph (s : State) (saved : List SynapseId) :
    (restoreSynapses s saved).graph = s.graph := by
  unfold State.graph
  rw [restoreSynapses_neurons]

theorem inv_withConfig {s : State} (h : Inv s) (config : Option (Dict String CfgVal)) :
    Inv (withConfig s config) := by
  cases config with
  | none => exact h
  | some c => exact inv_setConfig h _

/-- C6. For every state `S` reached in a session, loading the record that
`saveToLocalStorage` writes for `S` into the empty state of the same
document yields neurons whose saved data (page id, label, left, top) are, in
order, exactly those of the neurons of `S`; no two of them have the same
page id; and the result is the same for every value of the draws of
`Math.random()`, the position of each neuron being the one saved. -/
theorem restore_neurons (templateLabel : String) (hasMinimap hasMinimap' : Bool)
    (ops : List Op) (rnd rnd' : Rnd) :
    (loadFromLocalStorage (State.empty templateLabel hasMinimap')
        (some (saveToLocalStorage (run (State.empty templateLabel hasMinimap) ops)))
        rnd).neurons.map (fun e => e.2.data)
        = (run (State.empty templateLabel hasMinimap) ops).neurons.map (fun e => e.2.data)
      ∧ ((loadFromLocalStorage (State.empty templateLabel hasMinimap')
          (some (saveToLocalStorage (run (State.empty templateLabel hasMinimap) ops)))
          rnd).neurons.map (fun e => e.2.pageId)).Nodup
      ∧ loadFromLocalStorage (State.empty templateLabel hasMinimap')
          (some (saveToLocalStorage (run (State.empty templateLabel hasMinimap) ops))) rnd'
        = loadFromLocalStorage (State.empty templateLabel hasMinimap')
          (some (saveToLocalStorage (run (State.empty templateLabel hasMinimap) ops))) rnd := by
  have hS := inv_run templateLabel hasMinimap ops
  have htpl : (run (State.empty templateLabel hasMinimap) ops).neuronTemplateLabel
      = templateLabel := (grows_run (State.empty templateLabel hasMinimap) ops).template
  generalize run (State.empty templateLabel hasMinimap) ops = S at hS htpl ⊢
  have hdata : (loadFromLocalStorage (State.empty templateLabel hasMinimap')
      (some (saveToLocalStorage S)) rnd).graph.map Prod.snd = S.graph.map Prod.snd := by
    rw [loadFromLocalStorage_some]
    show (State.graph (restoreSynapses _ _)).map Prod.snd = _
    rw [restoreSynapses_graph, restoreNeurons_graph]
    · show (State.graph (withConfig (State.empty templateLabel hasMinimap') _)).map Prod.snd
        ++ S.graph.map Prod.snd = _
      simp [State.graph, State.empty, Dict.mapVals]
    · exact inv_withConfig (inv_empty _ _) _
    · exact hS.pageIds_nodup
    · intro e _
      rw [withConfig_pageNeurons]
      rfl
    · intro e he
      have hlab := hS.label_ok e.1 e.2 (Dict.get_of_mem hS.neurons_nodup he)
      rw [htpl] at hlab
      cases hc : (saveToLocalStorage S).config <;> exact hlab
  refine ⟨?_, ?_, loadFromLocalStorage_rnd _ _ _ _⟩
  · rw [← graph_data, ← graph_data]
    exact hdata
  · have hmap : ∀ s : State, s.neurons.map (fun e => e.2.pageId)
        = (s.graph.map Prod.snd).map (fun d => d.pageId) := by
      intro s
      rw [graph_data, List.map_map]
      rfl
    rw [hmap, hdata, List.map_map]
    exact hS.pageIds_nodup

/-! ## The active tab -/

theorem mem_set_cases {κ ν : Type} [DecidableEq κ] {m : Dict κ ν} {k : κ} {v : ν} {e : κ × ν}
    (h : e ∈ Dict.set m k v) : e = (k, v) ∨ e ∈ m := by
  induction m with
  | nil =>
    simp only [Dict.set, List.mem_singleton] at h
    exact Or.inl h
  | cons x rest ih =>
    obtain ⟨a, b⟩ := x
    unfold Dict.set at h
    split at h
    · rcases List.mem_cons.1 h with h1 | h1
      · exact Or.inl h1
      · exact Or.inr (List.mem_cons_of_mem _ h1)
    · rcases List.mem_cons.1 h with h1 | h1
      · exact Or.inr (h1 ▸ List.mem_cons_self _ _)
      · rcases ih h1 with h2 | h2
        · exact Or.inl h2
        · exact Or.inr (List.mem_cons_of_mem _ h2)

theorem set_ne_nil {κ ν : Type} [DecidableEq κ] (m : Dict κ ν) (k : κ) (v : ν) :
    Dict.set m k v ≠ [] := by
  cases m with
  | nil => simp [Dict.set]
  | cons x rest =>
    obtain ⟨a, b⟩ := x
    unfold Dict.set
    split <;> simp

theorem tabInv_empty (templateLabel : String) (hasMinimap : Bool) :
    TabInv (State.empty templateLabel hasMinimap).tabs
      (State.empty templateLabel hasMinimap).activeTabId :=
  ⟨by simp [State.empty], by simp [State.empty]⟩

theorem tabInv_activateTab {s : State} (h : TabInv s.tabs s.activeTabId) (t : TabId) :
    TabInv (activateTab s t).tabs (activateTab s t).activeTabId := by
  rw [activateTab_tabs, activateTab_activeTabId]
  refine ⟨h.tab_page, ?_⟩
  intro hne
  split
  · simp
  · exact h.has_active hne

theorem tabInv_closeTab {s : State} (h : TabInv s.tabs s.activeTabId) (t : TabId) :
    TabInv (closeTab s t).tabs (closeTab s t).activeTabId := by
  rw [closeTab_tabs, closeTab_activeTabId]
  constructor
  · intro e he
    exact h.tab_page e ((Dict.mem_delete_iff _ _ _).1 he).1
  · intro hne
    split
    · cases hk : Dict.delete s.tabs t with
      | nil => exact absurd hk hne
      | cons x rest => simp [Dict.keys]
    · apply h.has_active
      intro hnil
      apply hne
      rw [hnil]
      rfl

theorem tabInv_foldl_closeTab {s : State} (h : TabInv s.tabs s.activeTabId) (ts : List TabId) :
    TabInv (ts.foldl closeTab s).tabs (ts.foldl closeTab s).activeTabId := by
  induction ts generalizing s with
  | nil => exact h
  | cons t rest ih => exact ih (tabInv_closeTab h t)

theorem tabInv_removeNeuron {s : State} (h : TabInv s.tabs s.activeTabId) (n : NeuronId) :
    TabInv (removeNeuron s n).tabs (removeNeuron s n).activeTabId := by
  cases hn : Dict.get s.neurons n with
  | none => rw [removeNeuron_of_none hn]; exact h
  | some nd =>
    rw [removeNeuron_tabs hn, removeNeuron_activeTabId hn, ← foldl_closeTab_tabs]
    exact tabInv_foldl_closeTab h _

theorem tabInv_createSynapse {s : State} (h : TabInv s.tabs s.activeTabId) (a b : NeuronId) :
    TabInv (createSynapse s a b).tabs (createSynapse s a b).activeTabId := by
  rw [createSynapse_tabs, createSynapse_activeTabId]
  exact h

theorem tabInv_createNeuron {s : State} (h : TabInv s.tabs s.activeTabId) (pageId : PageId)
    (title : String) (position : Option Position) (rnd : Rnd) :
    TabInv (createNeuron s pageId title position rnd).1.tabs
      (createNeuron s pageId title position rnd).1.activeTabId := by
  rw [createNeuron_tabs, createNeuron_activeTabId]
  exact h

@[simp] theorem navigateSynapse_tabs (s : State) (pageId oldPageId : PageId)
    (oldNeuronId : Option NeuronId) (neuronId : NeuronId) (sourceNeuronId : Option NeuronId)
    (withSynapse : Bool) :
    (navigateSynapse s pageId oldPageId oldNeuronId neuronId sourceNeuronId withSynapse).tabs
      = s.tabs := by
  unfold navigateSynapse
  (repeat' split) <;> simp

@[simp] theorem navigateSynapse_pageNeurons (s : State) (pageId oldPageId : PageId)
    (oldNeuronId : Option NeuronId) (neuronId : NeuronId) (sourceNeuronId : Option NeuronId)
    (withSynapse : Bool) :
    (navigateSynapse s pageId oldPageId oldNeuronId neuronId sourceNeuronId withSynapse).pageNeurons
      = s.pageNeurons := by
  unfold navigateSynapse
  (repeat' split) <;> simp

@[simp] theorem navigateSynapse_neurons (s : State) (pageId oldPageId : PageId)
    (oldNeuronId : Option NeuronId) (neuronId : NeuronId) (sourceNeuronId : Option NeuronId)
    (withSynapse : Bool) :
    (navigateSynapse s pageId oldPageId oldNeuronId neuronId sourceNeuronId withSynapse).neurons
      = s.neurons := by
  unfold navigateSynapse
  (repeat' split) <;> simp

/-- The empty string is no key of the catalog. -/
theorem mockPages_empty : Dict.get mockPages "" = none := by
  decide

theorem ne_empty_of_mockPages {pageId : PageId} {page : Page}
    (h : Dict.get mockPages pageId = some page) : pageId ≠ "" := by
  intro he
  rw [he, mockPages_empty] at h
  cases h

theorem web_ne_empty (domain : String) : "web:" ++ domain ≠ "" := by
  intro h
  have hlen := congrArg String.length h
  simp only [String.length_append] at hlen
  have h4 : "web:".length = 4 := by decide
  have h0 : "".length = 0 := by decide
  omega

/-- Writing to an open tab a binding with a neuron and a page keeps `TabInv`
and, followed by the activation of that tab, makes it the active tab. -/
theorem tabInv_bind {tabs : Dict TabId Tab} {active : Option TabId} (h : TabInv tabs active)
    (t : TabId) (tab : Tab) (hn : tab.neuronId ≠ none) (hp : tab.pageId ≠ "") :
    TabInv (Dict.set tabs t tab) (some t) := by
  constructor
  · intro e he
    rcases mem_set_cases he with h1 | h1
    · subst h1
      simp [hn, hp]
    · exact h.tab_page e h1
  · intro _
    simp

theorem activateTab_activeTabId_of_set (s : State) (t : TabId) (tab : Tab) :
    (activateTab { s with tabs := Dict.set s.tabs t tab } t).activeTabId = some t := by
  rw [activateTab_activeTabId]
  have : t ∈ Dict.keys (Dict.set s.tabs t tab) :=
    (Dict.mem_keys_iff _ _).2 ⟨tab, Dict.get_set_self _ _ _⟩
  exact if_pos this

theorem tabInv_navigateTo {s : State} (h : TabInv s.tabs s.activeTabId) (pageId : PageId)
    (tabId : Option TabId) (sourceNeuronId : Option NeuronId) (withSynapse : Bool) (rnd : Rnd) :
    TabInv (navigateTo s pageId tabId sourceNeuronId withSynapse rnd).state.tabs
      (navigateTo s pageId tabId sourceNeuronId withSynapse rnd).state.activeTabId := by
  cases ht : (tabId <|> s.activeTabId) with
  | none => rw [navigateTo_of_no_target ht]; exact h
  | some t =>
    cases hpage : Dict.get mockPages pageId with
    | none => rw [navigateTo_of_unknown_page hpage]; exact h
    | some page =>
      cases htab : Dict.get s.tabs t with
      | none => rw [navigateTo_of_closed_tab ht hpage htab]; exact h
      | some tab =>
        rw [navigateTo_eq ht hpage htab]
        simp only [Outcome.state]
        have hact : ∀ s' : State, s'.tabs = Dict.set s.tabs t
            (navigatedTab tab page pageId (createNeuron s pageId page.title none rnd).2) →
            TabInv (activateTab s' t).tabs (activateTab s' t).activeTabId := by
          intro s' hs'
          rw [activateTab_tabs, activateTab_activeTabId, hs']
          have hmem : t ∈ Dict.keys (Dict.set s.tabs t
              (navigatedTab tab page pageId (createNeuron s pageId page.title none rnd).2)) :=
            (Dict.mem_keys_iff _ _).2 ⟨_, Dict.get_set_self _ _ _⟩
          rw [if_pos hmem]
          exact tabInv_bind h t _ (by simp [navigatedTab])
            (by simpa [navigatedTab] using ne_empty_of_mockPages hpage)
        apply hact
        rw [navigateSynapse_tabs]
        show Dict.set (createNeuron s pageId page.title none rnd).1.tabs t _ = _
        rw [createNeuron_tabs]

theorem tabInv_createNewTab {s : State} (h : TabInv s.tabs s.activeTabId) (rnd : Rnd) :
    TabInv (createNewTab s rnd).1.tabs (createNewTab s rnd).1.activeTabId := by
  unfold createNewTab
  simp only
  apply tabInv_navigateTo
  rw [activateTab_tabs, activateTab_activeTabId]
  constructor
  · intro e he
    rcases mem_set_cases he with h1 | h1
    · subst h1
      simp
    · exact h.tab_page e h1
  · intro _
    have hmem : s.lastTabId + 1 ∈ Dict.keys (Dict.set s.tabs (s.lastTabId + 1)
        ({ id := s.lastTabId + 1, title := "New Tab", url := some "", pageId := "",
           neuronId := none, isWebUrl := none } : Tab)) :=
      (Dict.mem_keys_iff _ _).2 ⟨_, Dict.get_set_self _ _ _⟩
    rw [if_pos hmem]
    simp

theorem tabInv_navigateToRealUrl {s : State} (h : TabInv s.tabs s.activeTabId) (url : String)
    (hostname : Option String) (rndTab rnd : Rnd) :
    TabInv (navigateToRealUrl s url hostname rndTab rnd).state.tabs
      (navigateToRealUrl s url hostname rndTab rnd).state.activeTabId := by
  unfold navigateToRealUrl
  simp only [findOrCreateNeuronForDomain_eq]
  have h0 : TabInv (if s.activeTabId = none then (createNewTab s rndTab).1 else s).tabs
      (if s.activeTabId = none then (createNewTab s rndTab).1 else s).activeTabId := by
    split
    · exact tabInv_createNewTab h rndTab
    · exact h
  generalize (if s.activeTabId = none then (createNewTab s rndTab).1 else s) = s0 at h0 ⊢
  generalize hostname.getD (withProtocol url) = domain
  have h1 := tabInv_createNeuron h0 ("web:" ++ domain) domain none rnd
  split
  · exact h1
  · rename_i tabId hactive
    split
    · exact h1
    · rename_i tab htab
      simp only [Outcome.state]
      have hact : ∀ s' : State, s'.tabs = Dict.set s0.tabs tabId
          { tab with title := domain, url := some (withProtocol url),
                     pageId := "web:" ++ domain,
                     neuronId := some (createNeuron s0 ("web:" ++ domain) domain none rnd).2,
                     isWebUrl := some true } →
          TabInv (activateTab s' tabId).tabs (activateTab s' tabId).activeTabId := by
        intro s' hs'
        rw [activateTab_tabs, activateTab_activeTabId, hs']
        have hmem : tabId ∈ Dict.keys (Dict.set s0.tabs tabId
            ({ tab with title := domain, url := some (withProtocol url),
                        pageId := "web:" ++ domain,
                        neuronId := some (createNeuron s0 ("web:" ++ domain) domain none rnd).2,
                        isWebUrl := some true } : Tab)) :=
          (Dict.mem_keys_iff _ _).2 ⟨_, Dict.get_set_self _ _ _⟩
        rw [if_pos hmem]
        exact tabInv_bind h0 tabId _ (by simp) (web_ne_empty domain)
      apply hact
      split
      · rw [createSynapse_tabs]
        show Dict.set (createNeuron s0 ("web:" ++ domain) domain none rnd).1.tabs tabId _ = _
        rw [createNeuron_tabs]
      · show Dict.set (createNeuron s0 ("web:" ++ domain) domain none rnd).1.tabs tabId _ = _
        rw [createNeuron_tabs]

theorem tabInv_activatePageNeuron {s : State} (h : TabInv s.tabs s.activeTabId)
    (pageId : PageId) (rndTab rnd : Rnd) :
    TabInv (activatePageNeuron s pageId rndTab rnd).state.tabs
      (activatePageNeuron s pageId rndTab rnd).state.activeTabId := by
  unfold activatePageNeuron
  split
  · exact tabInv_activateTab h _
  · split
    · exact tabInv_navigateTo h _ _ _ _ _
    · exact tabInv_navigateTo (tabInv_createNewTab h rndTab) _ _ _ _ _

theorem tabInv_connectToCurrent {s : State} (h : TabInv s.tabs s.activeTabId)
    (neuronId : NeuronId) (pageId : PageId) :
    TabInv (connectToCurrent s neuronId pageId).state.tabs
      (connectToCurrent s neuronId pageId).state.activeTabId := by
  unfold connectToCurrent
  split
  · exact h
  · split
    · exact h
    · simp only
      split
      · split
        · exact tabInv_createSynapse h _ _
        · exact h
      · exact h

theorem tabInv_of_sameCore {s s' : State} (h : TabInv s.tabs s.activeTabId)
    (hc : SameCore s s') : TabInv s'.tabs s'.activeTabId := by
  rw [hc.tabs, hc.activeTabId]
  exact h

theorem tabInv_dragNeuron {s : State} (h : TabInv s.tabs s.activeTabId) (n : NeuronId)
    (deltaX deltaY offsetWidth offsetHeight : ℚ) :
    TabInv (dragNeuron s n deltaX deltaY offsetWidth offsetHeight).tabs
      (dragNeuron s n deltaX deltaY offsetWidth offsetHeight).activeTabId := by
  unfold dragNeuron
  split
  · exact h
  · rename_i nd hnd
    simp only
    have hc := sameCore_updateMinimapNeuron
      { s with neurons := Dict.set s.neurons n
                 { nd with left := nd.left + (deltaX / offsetWidth) * 100 / s.brainScale,
                           top := nd.top + (deltaY / offsetHeight) * 100 / s.brainScale } } n
    rw [hc.tabs, hc.activeTabId]
    exact h

theorem tabInv_restoreNeurons {s : State} (h : TabInv s.tabs s.activeTabId)
    (saved : Dict NeuronId NeuronData) (rnd : Rnd) :
    TabInv (restoreNeurons s saved rnd).tabs (restoreNeurons s saved rnd).activeTabId := by
  induction saved generalizing s with
  | nil => exact h
  | cons e rest ih =>
    rw [restoreNeurons_cons]
    apply ih
    unfold restoreNeuron
    split
    · exact h
    · exact tabInv_createNeuron h _ _ _ _

theorem tabInv_restoreSynapses {s : State} (h : TabInv s.tabs s.activeTabId)
    (saved : List SynapseId) :
    TabInv (restoreSynapses s saved).tabs (restoreSynapses s saved).activeTabId := by
  induction saved generalizing s with
  | nil => exact h
  | cons e rest ih =>
    rw [restoreSynapses_cons]
    exact ih (tabInv_createSynapse h _ _)

theorem tabInv_loadFromLocalStorage {s : State} (h : TabInv s.tabs s.activeTabId)
    (stored : Option SaveData) (rnd : Rnd) :
    TabInv (loadFromLocalStorage s stored rnd).tabs
      (loadFromLocalStorage s stored rnd).activeTabId := by
  cases stored with
  | none => exact h
  | some data =>
    rw [loadFromLocalStorage_some]
    show TabInv (restoreSynapses _ _).tabs (restoreSynapses _ _).activeTabId
    apply tabInv_restoreSynapses
    apply tabInv_restoreNeurons
    cases data.config <;> exact h

theorem tabInv_step {s : State} (h : TabInv s.tabs s.activeTabId) (op : Op) :
    TabInv (step s op).tabs (step s op).activeTabId := by
  cases op with
  | createNeuron pageId title position rnd => exact tabInv_createNeuron h _ _ _ _
  | createSynapse fromId toId => exact tabInv_createSynapse h _ _
  | removeNeuron neuronId => exact tabInv_removeNeuron h _
  | createNewTab rnd => exact tabInv_createNewTab h _
  | activateTab tabId => exact tabInv_activateTab h _
  | closeTab tabId => exact tabInv_closeTab h _
  | navigateTo pageId tabId sourceNeuronId withSynapse rnd => exact tabInv_navigateTo h _ _ _ _ _
  | navigateToRealUrl url hostname rndTab rnd => exact tabInv_navigateToRealUrl h _ _ _ _
  | activatePageNeuron pageId rndTab rnd => exact tabInv_activatePageNeuron h _ _ _
  | connectToCurrent neuronId =>
    show TabInv (match Dict.get s.neurons neuronId with
        | some neuron => (connectToCurrent s neuronId neuron.pageId).state
        | none => s).tabs
      (match Dict.get s.neurons neuronId with
        | some neuron => (connectToCurrent s neuronId neuron.pageId).state
        | none => s).activeTabId
    split
    · exact tabInv_connectToCurrent h _ _
    · exact h
  | dragNeuron neuronId deltaX deltaY offsetWidth offsetHeight => exact tabInv_dragNeuron h _ _ _ _ _
  | loadFromLocalStorage stored rnd => exact tabInv_loadFromLocalStorage h _ _

theorem tabInv_run_from {s : State} (h : TabInv s.tabs s.activeTabId) (ops : List Op) :
    TabInv (run s ops).tabs (run s ops).activeTabId := by
  unfold run
  induction ops generalizing s with
  | nil => exact h
  | cons op rest ih => exact ih (tabInv_step h op)

/-- `TabInv` holds in every state of every session. -/
theorem tabInv_run (templateLabel : String) (hasMinimap : Bool) (ops : List Op) :
    TabInv (run (State.empty templateLabel hasMinimap) ops).tabs
      (run (State.empty templateLabel hasMinimap) ops).activeTabId :=
  tabInv_run_from (tabInv_empty templateLabel hasMinimap) ops

/-! ## The classes `active` and `current` -/

theorem get_clearNeuronStates (neurons : Dict NeuronId Neuron) (n : NeuronId) :
    Dict.get (clearNeuronStates neurons) n
      = (Dict.get neurons n).map (fun nd => { nd with active := false, current := false }) := by
  unfold clearNeuronStates
  rw [Dict.get_mapVals]

/-- After the second loop of `activateTab` a neuron has `active` exactly when
it had it before or some tab is bound to it; `current` is untouched. -/
theorem get_markActive (tabs : Dict TabId Tab) (neurons : Dict NeuronId Neuron) (n : NeuronId) :
    ∀ nd', Dict.get (markActive tabs neurons) n = some nd' →
      ∃ nd, Dict.get neurons n = some nd ∧ nd'.current = nd.current
        ∧ (nd'.active = true ↔ (nd.active = true ∨ ∃ e ∈ tabs, e.2.neuronId = some n)) := by
  unfold markActive
  induction tabs generalizing neurons with
  | nil =>
    intro nd' h
    exact ⟨nd', h, rfl, by simp⟩
  | cons e rest ih =>
    intro nd' h
    rw [List.foldl_cons] at h
    obtain ⟨nd1, h1, hcur, hact⟩ := ih _ nd' h
    cases hn : e.2.neuronId with
    | none =>
      rw [hn] at h1
      refine ⟨nd1, h1, hcur, ?_⟩
      rw [hact]
      constructor
      · rintro (h2 | ⟨e', he', h3⟩)
        · exact Or.inl h2
        · exact Or.inr ⟨e', List.mem_cons_of_mem _ he', h3⟩
      · rintro (h2 | ⟨e', he', h3⟩)
        · exact Or.inl h2
        · rcases List.mem_cons.1 he' with h4 | h4
          · rw [h4, hn] at h3
            cases h3
          · exact Or.inr ⟨e', h4, h3⟩
    | some m =>
      rw [hn] at h1
      simp only at h1
      rw [Dict.get_modify] at h1
      by_cases hm : m = n
      · subst hm
        rw [if_pos rfl] at h1
        cases h0 : Dict.get neurons m with
        | none => rw [h0] at h1; cases h1
        | some nd0 =>
          rw [h0] at h1
          simp only [Option.map_some', Option.some.injEq] at h1
          subst h1
          refine ⟨nd0, rfl, hcur, ?_⟩
          rw [hact]
          constructor
          · intro _
            exact Or.inr ⟨e, List.mem_cons_self _ _, hn⟩
          · intro _
            exact Or.inl rfl
      · rw [if_neg hm] at h1
        refine ⟨nd1, h1, hcur, ?_⟩
        rw [hact]
        constructor
        · rintro (h2 | ⟨e', he', h3⟩)
          · exact Or.inl h2
          · exact Or.inr ⟨e', List.mem_cons_of_mem _ he', h3⟩
        · rintro (h2 | ⟨e', he', h3⟩)
          · exact Or.inl h2
          · rcases List.mem_cons.1 he' with h4 | h4
            · rw [h4, hn] at h3
              simp only [Option.some.injEq] at h3
              exact absurd h3 hm
            · exact Or.inr ⟨e', h4, h3⟩

/-- After the third step of `activateTab` a neuron has `current` exactly when
it had it before or it is the neuron of the page, the page being non-empty;
`active` is untouched. -/
theorem get_markCurrent (pageNeurons : Dict PageId NeuronId) (pageId : PageId)
    (neurons : Dict NeuronId Neuron) (n : NeuronId) :
    ∀ nd', Dict.get (markCurrent pageNeurons pageId neurons) n = some nd' →
      ∃ nd, Dict.get neurons n = some nd ∧ nd'.active = nd.active
        ∧ (nd'.current = true
            ↔ (nd.current = true ∨ (pageId ≠ "" ∧ Dict.get pageNeurons pageId = some n))) := by
  intro nd' h
  unfold markCurrent at h
  split at h
  · rename_i he
    exact ⟨nd', h, rfl, by simp [he]⟩
  · rename_i he
    split at h
    · rename_i m hm
      rw [Dict.get_modify] at h
      by_cases hmn : m = n
      · subst hmn
        rw [if_pos rfl] at h
        cases h0 : Dict.get neurons m with
        | none => rw [h0] at h; cases h
        | some nd0 =>
          rw [h0] at h
          simp only [Option.map_some', Option.some.injEq] at h
          subst h
          exact ⟨nd0, rfl, rfl, by simp [he, hm]⟩
      · rw [if_neg hmn] at h
        refine ⟨nd', h, rfl, ?_⟩
        rw [hm]
        simp [hmn]
    · rename_i hnone
      refine ⟨nd', h, rfl, ?_⟩
      rw [hnone]
      simp

/-- The classes of a live neuron right after `activateTab` on an open tab, in any state. -/
theorem activateTab_flags {s : State} {t : TabId} {tab : Tab} (ht : Dict.get s.tabs t = some tab)
    {n : NeuronId} {nd : Neuron} (h : Dict.get (activateTab s t).neurons n = some nd) :
    (nd.active = true ↔ ∃ e ∈ s.tabs, e.2.neuronId = some n)
      ∧ (nd.current = true ↔ (tab.pageId ≠ "" ∧ Dict.get s.pageNeurons tab.pageId = some n)) := by
  unfold activateTab at h
  rw [ht] at h
  simp only at h
  obtain ⟨nd2, h2, hact2, hcur2⟩ := get_markCurrent _ _ _ _ nd h
  obtain ⟨nd1, h1, hcur1, hact1⟩ := get_markActive _ _ _ nd2 h2
  rw [get_clearNeuronStates] at h1
  cases h0 : Dict.get s.neurons n with
  | none => rw [h0] at h1; cases h1
  | some nd0 =>
    rw [h0] at h1
    simp only [Option.map_some', Option.some.injEq] at h1
    subst h1
    simp only [Bool.false_eq_true, false_or] at hact1 hcur1
    constructor
    · rw [hact2, hact1]
    · rw [hcur2, hcur1]
      simp

theorem Inv.tab_pageNeurons {s : State} (h : Inv s) {t : TabId} {tab : Tab} {n : NeuronId}
    (ht : Dict.get s.tabs t = some tab) (hn : tab.neuronId = some n) :
    Dict.get s.pageNeurons tab.pageId = some n := by
  obtain ⟨d, hd, hdp⟩ := h.tab_neuron t tab n ht hn
  rw [← hdp]
  exact h.neuron_page n d hd

/-- In a state of a session the neuron `pageNeurons` gives for the page of a
tab is the neuron bound to the tab. -/
theorem current_iff_bound {s : State} (h : Inv s) (ht : TabInv s.tabs s.activeTabId)
    {t : TabId} {tab : Tab} (hget : Dict.get s.tabs t = some tab) (n : NeuronId) :
    (tab.pageId ≠ "" ∧ Dict.get s.pageNeurons tab.pageId = some n) ↔ tab.neuronId = some n := by
  have hpage := ht.tab_page (t, tab) (Dict.mem_of_get hget)
  constructor
  · rintro ⟨hp, hpn⟩
    cases hm : tab.neuronId with
    | none => exact absurd (hpage.1 hm) hp
    | some m =>
      have := h.tab_pageNeurons hget hm
      rw [hpn] at this
      exact this.symm
  · intro hn
    refine ⟨?_, h.tab_pageNeurons hget hn⟩
    intro hp
    rw [hpage.2 hp] at hn
    cases hn

/-- C11. Right after `activateTab(t)` on an open tab `t` of a state reached
in a session, `activeTabId` is `t`, and every live neuron `n` carries
`active` exactly when the `neuronId` of some open tab is `n`, and `current`
exactly when `n` is the `neuronId` of the tab `t`. -/
theorem activateTab_recomputes (templateLabel : String) (hasMinimap : Bool) (ops : List Op)
    (t : TabId) (ht : t ∈ Dict.keys (run (State.empty templateLabel hasMinimap) ops).tabs) :
    (activateTab (run (State.empty templateLabel hasMinimap) ops) t).activeTabId = some t
      ∧ ∀ n nd,
          Dict.get (activateTab (run (State.empty templateLabel hasMinimap) ops) t).neurons n
            = some nd →
          (nd.active = true ↔
              ∃ t' tab', Dict.get
                  (activateTab (run (State.empty templateLabel hasMinimap) ops) t).tabs t'
                  = some tab' ∧ tab'.neuronId = some n)
            ∧ (nd.current = true ↔
              ∃ tab, Dict.get
                  (activateTab (run (State.empty templateLabel hasMinimap) ops) t).tabs t
                  = some tab ∧ tab.neuronId = some n) := by
  have hinv := inv_run templateLabel hasMinimap ops
  have htab := tabInv_run templateLabel hasMinimap ops
  generalize run (State.empty templateLabel hasMinimap) ops = s at ht hinv htab ⊢
  obtain ⟨tab, hget⟩ := (Dict.mem_keys_iff _ _).1 ht
  refine ⟨by rw [activateTab_activeTabId, if_pos ht], ?_⟩
  intro n nd hnd
  obtain ⟨hact, hcur⟩ := activateTab_flags hget hnd
  rw [activateTab_tabs]
  constructor
  · rw [hact]
    constructor
    · rintro ⟨e, he, hen⟩
      exact ⟨e.1, e.2, Dict.get_of_mem hinv.tabs_nodup he, hen⟩
    · rintro ⟨t', tab', hg, hn⟩
      exact ⟨(t', tab'), Dict.mem_of_get hg, hn⟩
  · rw [hcur, current_iff_bound hinv htab hget n]
    constructor
    · intro hn
      exact ⟨tab, hget, hn⟩
    · rintro ⟨tab', hg, hn⟩
      rw [hget] at hg
      cases hg
      exact hn

theorem activateTab_recomputes_witness :
    2 ∈ Dict.keys (run (State.empty "" true)
        [.createNewTab rndHalf, .createNewTab rndHalf,
         .navigateTo "about" (some 1) none true rndHalf]).tabs
      ∧ ((activateTab (run (State.empty "" true)
            [.createNewTab rndHalf, .createNewTab rndHalf,
             .navigateTo "about" (some 1) none true rndHalf]) 2).activeTabId = some 2
        ∧ ∀ n nd,
            Dict.get (activateTab (run (State.empty "" true)
                [.createNewTab rndHalf, .createNewTab rndHalf,
                 .navigateTo "about" (some 1) none true rndHalf]) 2).neurons n = some nd →
            (nd.active = true ↔
                ∃ t' tab', Dict.get (activateTab (run (State.empty "" true)
                    [.createNewTab rndHalf, .createNewTab rndHalf,
                     .navigateTo "about" (some 1) none true rndHalf]) 2).tabs t'
                    = some tab' ∧ tab'.neuronId = some n)
              ∧ (nd.current = true ↔
                ∃ tab, Dict.get (activateTab (run (State.empty "" true)
                    [.createNewTab rndHalf, .createNewTab rndHalf,
                     .navigateTo "about" (some 1) none true rndHalf]) 2).tabs 2
                    = some tab ∧ tab.neuronId = some n)) :=
  ⟨by decide,
    activateTab_recomputes "" true
      [.createNewTab rndHalf, .createNewTab rndHalf,
       .navigateTo "about" (some 1) none true rndHalf] 2 (by decide)⟩

/-! ## The synapse policy of `navigateTo` -/

theorem createSynapse_synapses_of_live {s : State} {a b : NeuronId}
    (ha : a ∈ Dict.keys s.neurons) (hb : b ∈ Dict.keys s.neurons) :
    (createSynapse s a b).synapses = addKey s.synapses (a, b) := by
  rw [createSynapse_synapses]
  unfold addKey
  by_cases h : (a, b) ∈ s.synapses
  · simp [h]
  · simp [h, ha, hb]

theorem createSynapse_synapses_of_dead {s : State} {a b : NeuronId}
    (h : a ∉ Dict.keys s.neurons ∨ b ∉ Dict.keys s.neurons) :
    (createSynapse s a b).synapses = s.synapses := by
  rw [createSynapse_eq_self]
  right
  rintro ⟨ha, hb⟩
  rcases h with h | h
  · exact h ha
  · exact h hb

/-- The keys of `neurons` after `createNeuron`, in a state of a session: the
old keys and the id returned. -/
theorem mem_keys_createNeuron {s : State} (h : Inv s) (pageId : PageId) (title : String)
    (position : Option Position) (rnd : Rnd) (n : NeuronId) :
    n ∈ Dict.keys (createNeuron s pageId title position rnd).1.neurons
      ↔ (n ∈ Dict.keys s.neurons ∨ n = (createNeuron s pageId title position rnd).2) := by
  cases hp : Dict.get s.pageNeurons pageId with
  | some m =>
    rw [createNeuron_of_some hp]
    simp only
    constructor
    · exact Or.inl
    · rintro (h1 | h1)
      · exact h1
      · obtain ⟨d, hd, _⟩ := h.page_neuron pageId m hp
        rw [h1, ← keys_graph]
        exact (Dict.mem_keys_iff _ _).2 ⟨d, hd⟩
  | none =>
    rw [createNeuron_neurons_of_none hp, createNeuron_snd_of_none hp, Dict.keys_set]
    split
    · rename_i hmem
      constructor
      · exact Or.inl
      · rintro (h1 | h1)
        · exact h1
        · rw [h1]; exact hmem
    · simp

theorem navigateTo_synapses_eq {s : State} {pageId : PageId} {tabId : Option TabId} {t : TabId}
    {page : Page} {tab : Tab} (ht : (tabId <|> s.activeTabId) = some t)
    (hpage : Dict.get mockPages pageId = some page) (htab : Dict.get s.tabs t = some tab)
    (sourceNeuronId : Option NeuronId) (withSynapse : Bool) (rnd : Rnd) :
    (navigateTo s pageId tabId sourceNeuronId withSynapse rnd).state.synapses
      = (navigateSynapse
          { (createNeuron s pageId page.title none rnd).1 with
            tabs := Dict.set (createNeuron s pageId page.title none rnd).1.tabs t
              (navigatedTab tab page pageId (createNeuron s pageId page.title none rnd).2) }
          pageId tab.pageId tab.neuronId (createNeuron s pageId page.title none rnd).2
          sourceNeuronId withSynapse).synapses := by
  rw [navigateTo_eq ht hpage htab]
  simp only [Outcome.state, activateTab_synapses]

/-- The synapse keys after `navigateTo` on a catalog page and an open target
tab, in a state `s` of a session (`Inv`, `TabInv`); `d` is the destination
neuron. -/
theorem navigateTo_synapses_of_inv {s : State} (hinv : Inv s) (htabs : TabInv s.tabs s.activeTabId)
    {pageId : PageId} {tabId : Option TabId} {t : TabId} {page : Page} {tab : Tab}
    (ht : (tabId <|> s.activeTabId) = some t)
    (hpage : Dict.get mockPages pageId = some page) (htab : Dict.get s.tabs t = some tab)
    (sourceNeuronId : Option NeuronId) (withSynapse : Bool) (rnd : Rnd) :
    (∀ src, withSynapse = true → sourceNeuronId = some src →
        src ≠ (createNeuron s pageId page.title none rnd).2 → src ∈ Dict.keys s.neurons →
        (navigateTo s pageId tabId sourceNeuronId withSynapse rnd).state.synapses
          = addKey s.synapses (src, (createNeuron s pageId page.title none rnd).2))
      ∧ (∀ src, withSynapse = true → sourceNeuronId = some src →
        src ≠ (createNeuron s pageId page.title none rnd).2 → src ∉ Dict.keys s.neurons →
        (navigateTo s pageId tabId sourceNeuronId withSynapse rnd).state.synapses = s.synapses)
      ∧ (withSynapse = true →
        (sourceNeuronId = none
          ∨ sourceNeuronId = some (createNeuron s pageId page.title none rnd).2) →
        tab.pageId ≠ "" → tab.pageId ≠ pageId →
        ∃ old, tab.neuronId = some old
          ∧ (navigateTo s pageId tabId sourceNeuronId withSynapse rnd).state.synapses
            = addKey s.synapses (old, (createNeuron s pageId page.title none rnd).2))
      ∧ ((withSynapse = false
          ∨ ((sourceNeuronId = none
                ∨ sourceNeuronId = some (createNeuron s pageId page.title none rnd).2)
              ∧ (tab.pageId = "" ∨ tab.pageId = pageId))) →
        (navigateTo s pageId tabId sourceNeuronId withSynapse rnd).state.synapses
          = s.synapses) := by
  rw [navigateTo_synapses_eq ht hpage htab]
  generalize hd : (createNeuron s pageId page.title none rnd).2 = d
  have hdlive : d ∈ Dict.keys (createNeuron s pageId page.title none rnd).1.neurons := by
    rw [mem_keys_createNeuron hinv, hd]
    exact Or.inr rfl
  have hkeep : ∀ n, n ∈ Dict.keys s.neurons →
      n ∈ Dict.keys (createNeuron s pageId page.title none rnd).1.neurons := by
    intro n hn
    rw [mem_keys_createNeuron hinv]
    exact Or.inl hn
  generalize hs2 : ({ (createNeuron s pageId page.title none rnd).1 with
      tabs := Dict.set (createNeuron s pageId page.title none rnd).1.tabs t
        (navigatedTab tab page pageId d) } : State) = s2
  have hn2 : s2.neurons = (createNeuron s pageId page.title none rnd).1.neurons := by
    rw [← hs2]
  have hbase : s2.synapses = s.synapses := by
    rw [← hs2]
    exact createNeuron_synapses s pageId page.title none rnd
  have hsyn : ∀ a, a ∈ Dict.keys (createNeuron s pageId page.title none rnd).1.neurons →
      (createSynapse s2 a d).synapses = addKey s.synapses (a, d) := by
    intro a ha
    rw [← hn2] at ha hdlive
    rw [createSynapse_synapses_of_live ha hdlive, hbase]
  refine ⟨?_, ?_, ?_, ?_⟩
  · intro src hw hsrc hne hlive
    subst hsrc
    unfold navigateSynapse
    simp only [Option.filter, hw, hne, ne_eq, not_false_eq_true, decide_True, Bool.and_self,
      if_true]
    exact hsyn src (hkeep src hlive)
  · intro src hw hsrc hne hdead
    subst hsrc
    unfold navigateSynapse
    simp only [Option.filter, hw, hne, ne_eq, not_false_eq_true, decide_True, Bool.and_self,
      if_true]
    rw [createSynapse_synapses_of_dead, hbase]
    left
    rw [hn2, mem_keys_createNeuron hinv, hd]
    rintro (h1 | h1)
    · exact hdead h1
    · exact hne h1
  · intro hw hsrc hp1 hp2
    have hpage' := htabs.tab_page (t, tab) (Dict.mem_of_get htab)
    cases hold : tab.neuronId with
    | none => exact absurd (hpage'.1 hold) hp1
    | some old =>
      refine ⟨old, rfl, ?_⟩
      have holdlive : old ∈ Dict.keys s.neurons := by
        obtain ⟨dd, hdd, _⟩ := hinv.tab_neuron t tab old htab hold
        rw [← keys_graph]
        exact (Dict.mem_keys_iff _ _).2 ⟨dd, hdd⟩
      have hfirst : (sourceNeuronId.filter
          (fun source => decide (source ≠ d) && withSynapse)) = none := by
        rcases hsrc with h1 | h1
        · rw [h1]; rfl
        · rw [h1]; simp [Option.filter]
      unfold navigateSynapse
      rw [hfirst]
      simp only [Option.filter, hw, hp1, hp2, ne_eq, not_false_eq_true, decide_True,
        Bool.and_self, if_true]
      exact hsyn old (hkeep old holdlive)
  · intro hcases
    have hfirst : (sourceNeuronId.filter
        (fun source => decide (source ≠ d) && withSynapse)) = none := by
      rcases hcases with h1 | ⟨h1 | h1, _⟩
      · rw [h1]
        cases sourceNeuronId <;> simp [Option.filter]
      · rw [h1]; rfl
      · rw [h1]; simp [Option.filter]
    have hsecond : (tab.neuronId.filter
        (fun _ => decide (tab.pageId ≠ "") && decide (tab.pageId ≠ pageId) && withSynapse))
        = none := by
      rcases hcases with h1 | ⟨_, h1 | h1⟩
      · rw [h1]
        cases tab.neuronId <;> simp [Option.filter]
      · cases tab.neuronId <;> simp [Option.filter, h1]
      · cases tab.neuronId <;> simp [Option.filter, h1]
    unfold navigateSynapse
    rw [hfirst]
    simp only [hsecond]
    exact hbase

theorem navigateTo_pageNeurons_eq {s : State} {pageId : PageId} {tabId : Option TabId} {t : TabId}
    {page : Page} {tab : Tab} (ht : (tabId <|> s.activeTabId) = some t)
    (hpage : Dict.get mockPages pageId = some page) (htab : Dict.get s.tabs t = some tab)
    (sourceNeuronId : Option NeuronId) (withSynapse : Bool) (rnd : Rnd) :
    (navigateTo s pageId tabId sourceNeuronId withSynapse rnd).state.pageNeurons
      = (createNeuron s pageId page.title none rnd).1.pageNeurons := by
  rw [navigateTo_eq ht hpage htab]
  simp only [Outcome.state, activateTab_pageNeurons, navigateSynapse_pageNeurons]

/-- C12, as the code has it. For `navigateTo(pageId, tabId, sourceNeuronId,
createSynapse)` from a state reached in a session, with a catalog `pageId`
and a target tab that resolves to an open tab, the synapse keys after the
call are as `SynapsePolicy` says: a source that is given and differs from
the destination decides alone, also when it is no live neuron, in which case
nothing is added. -/
theorem navigateTo_synapse_policy (templateLabel : String) (hasMinimap : Bool) (ops : List Op)
    (s : State) (hs : s = run (State.empty templateLabel hasMinimap) ops)
    (pageId : PageId) (tabId : Option TabId) (t : TabId)
    (ht : (tabId <|> s.activeTabId) = some t)
    (hpage : Dict.get mockPages pageId ≠ none) (htab : Dict.get s.tabs t ≠ none)
    (sourceNeuronId : Option NeuronId) (withSynapse : Bool) (rnd : Rnd) :
    SynapsePolicy s pageId t sourceNeuronId withSynapse
      (navigateTo s pageId tabId sourceNeuronId withSynapse rnd).state := by
  subst hs
  have hinv := inv_run templateLabel hasMinimap ops
  have htabs := tabInv_run templateLabel hasMinimap ops
  generalize run (State.empty templateLabel hasMinimap) ops = s at ht htab hinv htabs ⊢
  cases hp : Dict.get mockPages pageId with
  | none => exact absurd hp hpage
  | some page =>
    intro d tab hd hget
    rw [navigateTo_pageNeurons_eq ht hp hget, createNeuron_pageNeurons_get] at hd
    simp only [Option.some.injEq] at hd
    subst hd
    exact navigateTo_synapses_of_inv hinv htabs ht hp hget sourceNeuronId withSynapse rnd

theorem navigateTo_synapse_policy_witness :
    ((none <|> (run (State.empty "" true) homeThenAbout).activeTabId) = some 1
      ∧ Dict.get mockPages "features" ≠ none
      ∧ Dict.get (run (State.empty "" true) homeThenAbout).tabs 1 ≠ none)
      ∧ SynapsePolicy (run (State.empty "" true) homeThenAbout) "features" 1 (some 1) true
          (navigateTo (run (State.empty "" true) homeThenAbout) "features" none (some 1) true
            rndHalf).state :=
  ⟨by decide,
    navigateTo_synapse_policy "" true homeThenAbout _ rfl "features" none 1 (by decide)
      (by decide) (by decide) (some 1) true rndHalf⟩

/-- C12 fails as stated. In the session `homeThenAbout` the tab shows `about`
(`neuron-2`); `navigateTo('features', null, 'neuron-99', true)` has a source
that is no live neuron: the first branch is taken, `createSynapse` finds no
`neuron-99`, and the synapse from the prior neuron to the destination
`neuron-3`, which the claim puts in this case, is not created. -/
theorem navigateTo_dead_source_adds_nothing :
    (99 : NeuronId) ∉ Dict.keys (run (State.empty "" true) homeThenAbout).neurons
      ∧ (Dict.get (run (State.empty "" true) homeThenAbout).tabs 1).map
          (fun tab => (tab.pageId, tab.neuronId)) = some ("about", some 2)
      ∧ (run (State.empty "" true) homeThenAbout).synapses = [(1, 2)]
      ∧ Dict.get (navigateTo (run (State.empty "" true) homeThenAbout) "features" none (some 99)
          true rndHalf).state.pageNeurons "features" = some 3
      ∧ (navigateTo (run (State.empty "" true) homeThenAbout) "features" none (some 99)
          true rndHalf).state.synapses = [(1, 2)]
      ∧ (navigateTo (run (State.empty "" true) homeThenAbout) "features" none (some 99)
          true rndHalf).state.synapses
          ≠ addKey (run (State.empty "" true) homeThenAbout).synapses (2, 3) := by
  decide

/-! ## Self-loops -/

theorem noLoop_of_synapses_eq {s s' : State} (h : NoLoop s) (he : s'.synapses = s.synapses) :
    NoLoop s' := by
  intro a
  rw [he]
  exact h a

theorem noLoop_of_addKey {s s' : State} (h : NoLoop s) {a b : NeuronId} (hab : a ≠ b)
    (he : s'.synapses = addKey s.synapses (a, b)) : NoLoop s' := by
  intro x hx
  rw [he] at hx
  unfold addKey at hx
  split at hx
  · exact h x hx
  · rcases List.mem_append.1 hx with h1 | h1
    · exact h x h1
    · simp only [List.mem_singleton, Prod.mk.injEq] at h1
      exact hab (h1.1.symm.trans h1.2)

theorem noLoop_createSynapse {s : State} (h : NoLoop s) {a b : NeuronId} (hab : a ≠ b) :
    NoLoop (createSynapse s a b) := by
  by_cases hlive : a ∈ Dict.keys s.neurons ∧ b ∈ Dict.keys s.neurons
  · exact noLoop_of_addKey h hab (createSynapse_synapses_of_live hlive.1 hlive.2)
  · refine noLoop_of_synapses_eq h (createSynapse_synapses_of_dead ?_)
    by_cases ha : a ∈ Dict.keys s.neurons
    · exact Or.inr (fun hb => hlive ⟨ha, hb⟩)
    · exact Or.inl ha

theorem noLoop_removeNeuron {s : State} (h : NoLoop s) (n : NeuronId) :
    NoLoop (removeNeuron s n) := by
  cases hn : Dict.get s.neurons n with
  | none => rw [removeNeuron_of_none hn]; exact h
  | some nd =>
    intro a ha
    rw [removeNeuron_synapses hn] at ha
    exact h a (List.mem_filter.1 ha).1

/-- Two live neurons of different pages are different neurons. -/
theorem Inv.ne_of_pageId_ne {s : State} (_h : Inv s) {a b : NeuronId} {da db : NeuronData}
    (ha : Dict.get s.graph a = some da) (hb : Dict.get s.graph b = some db)
    (hne : da.pageId ≠ db.pageId) : a ≠ b := by
  intro hab
  subst hab
  rw [ha] at hb
  cases hb
  exact hne rfl

theorem createNeuron_graph_keeps {s : State} (h : Inv s) {n : NeuronId} {d : NeuronData}
    (hn : Dict.get s.graph n = some d) (pageId : PageId) (title : String)
    (position : Option Position) (rnd : Rnd) :
    Dict.get (createNeuron s pageId title position rnd).1.graph n = some d := by
  cases hp : Dict.get s.pageNeurons pageId with
  | some m => rw [createNeuron_of_some hp]; exact hn
  | none =>
    rw [createNeuron_graph_of_none hp, Dict.get_set]
    split
    · rename_i heq
      exfalso
      have hmem : n ∈ Dict.keys s.graph := (Dict.mem_keys_iff _ _).2 ⟨d, hn⟩
      rw [← heq] at hmem
      exact Nat.not_succ_le_self _ (h.neuron_le _ hmem)
    · exact hn

/-- The neuron a tab is bound to differs from the neuron `createNeuron`
returns for another page. -/
theorem prior_ne_destination {s : State} (h : Inv s) {t : TabId} {tab : Tab} {old : NeuronId}
    (htab : Dict.get s.tabs t = some tab) (hold : tab.neuronId = some old) {pageId : PageId}
    (hne : tab.pageId ≠ pageId) (title : String) (position : Option Position) (rnd : Rnd) :
    old ≠ (createNeuron s pageId title position rnd).2 := by
  obtain ⟨dold, hdold, hpold⟩ := h.tab_neuron t tab old htab hold
  obtain ⟨dd, hdd, hpd⟩ := createNeuron_live h pageId title position rnd
  refine (inv_createNeuron h pageId title position rnd).ne_of_pageId_ne
    (createNeuron_graph_keeps h hdold pageId title position rnd) hdd ?_
  rw [hpold, hpd]
  exact hne

theorem noLoop_navigateTo {s : State} (hinv : Inv s) (htabs : TabInv s.tabs s.activeTabId)
    (h : NoLoop s) (pageId : PageId) (tabId : Option TabId) (sourceNeuronId : Option NeuronId)
    (withSynapse : Bool) (rnd : Rnd) :
    NoLoop (navigateTo s pageId tabId sourceNeuronId withSynapse rnd).state := by
  cases ht : (tabId <|> s.activeTabId) with
  | none => rw [navigateTo_of_no_target ht]; exact h
  | some t =>
    cases hpage : Dict.get mockPages pageId with
    | none => rw [navigateTo_of_unknown_page hpage]; exact h
    | some page =>
      cases htab : Dict.get s.tabs t with
      | none => rw [navigateTo_of_closed_tab ht hpage htab]; exact h
      | some tab =>
        obtain ⟨h1, h2, h3, h4⟩ :=
          navigateTo_synapses_of_inv hinv htabs ht hpage htab sourceNeuronId withSynapse rnd
        by_cases hw : withSynapse = true
        · by_cases hsrc : sourceNeuronId = none
              ∨ sourceNeuronId = some (createNeuron s pageId page.title none rnd).2
          · by_cases hp : tab.pageId ≠ "" ∧ tab.pageId ≠ pageId
            · obtain ⟨old, hold, hsyn⟩ := h3 hw hsrc hp.1 hp.2
              exact noLoop_of_addKey h
                (prior_ne_destination hinv htab hold hp.2 page.title none rnd) hsyn
            · refine noLoop_of_synapses_eq h (h4 (Or.inr ⟨hsrc, ?_⟩))
              by_cases he : tab.pageId = ""
              · exact Or.inl he
              · right
                by_contra hne
                exact hp ⟨he, hne⟩
          · cases hs : sourceNeuronId with
            | none => exact absurd (Or.inl hs) hsrc
            | some src =>
              have hne : src ≠ (createNeuron s pageId page.title none rnd).2 := by
                intro he
                exact hsrc (Or.inr (by rw [hs, he]))
              rw [hs] at h1 h2
              by_cases hlive : src ∈ Dict.keys s.neurons
              · exact noLoop_of_addKey h hne (h1 src hw rfl hne hlive)
              · exact noLoop_of_synapses_eq h (h2 src hw rfl hne hlive)
        · have hw' : withSynapse = false := by simpa using hw
          exact noLoop_of_synapses_eq h (h4 (Or.inl hw'))

theorem createNewTab_eq (s : State) (rnd : Rnd) :
    createNewTab s rnd
      = ((navigateTo (openedTab s) "home" (some (s.lastTabId + 1)) none true rnd).state,
          s.lastTabId + 1) := rfl

theorem inv_openedTab {s : State} (h : Inv s) : Inv (openedTab s) :=
  inv_activateTab (inv_newTab h _ rfl) _

theorem openedTab_tabs (s : State) :
    (openedTab s).tabs = Dict.set s.tabs (s.lastTabId + 1)
      { id := s.lastTabId + 1, title := "New Tab", url := some "", pageId := "",
        neuronId := none, isWebUrl := none } := by
  unfold openedTab
  rw [activateTab_tabs]

theorem openedTab_activeTabId (s : State) : (openedTab s).activeTabId = some (s.lastTabId + 1) := by
  unfold openedTab
  rw [activateTab_activeTabId]
  have hmem : s.lastTabId + 1 ∈ Dict.keys (Dict.set s.tabs (s.lastTabId + 1)
      ({ id := s.lastTabId + 1, title := "New Tab", url := some "", pageId := "",
         neuronId := none, isWebUrl := none } : Tab)) :=
    (Dict.mem_keys_iff _ _).2 ⟨_, Dict.get_set_self _ _ _⟩
  exact if_pos hmem

theorem openedTab_synapses (s : State) : (openedTab s).synapses = s.synapses := by
  unfold openedTab
  rw [activateTab_synapses]

theorem openedTab_pageNeurons (s : State) : (openedTab s).pageNeurons = s.pageNeurons := by
  unfold openedTab
  rw [activateTab_pageNeurons]

theorem openedTab_graph (s : State) : (openedTab s).graph = s.graph := by
  unfold openedTab
  rw [activateTab_graph]
  rfl

theorem tabInv_openedTab {s : State} (h : TabInv s.tabs s.activeTabId) :
    TabInv (openedTab s).tabs (openedTab s).activeTabId := by
  rw [openedTab_tabs, openedTab_activeTabId]
  constructor
  · intro e he
    rcases mem_set_cases he with h1 | h1
    · subst h1
      simp
    · exact h.tab_page e h1
  · intro _
    simp

theorem noLoop_createNewTab {s : State} (hinv : Inv s) (htabs : TabInv s.tabs s.activeTabId)
    (h : NoLoop s) (rnd : Rnd) : NoLoop (createNewTab s rnd).1 := by
  rw [createNewTab_eq]
  exact noLoop_navigateTo (inv_openedTab hinv) (tabInv_openedTab htabs)
    (noLoop_of_synapses_eq h (openedTab_synapses s)) _ _ _ _ _

theorem noLoop_activateTab {s : State} (h : NoLoop s) (t : TabId) : NoLoop (activateTab s t) :=
  noLoop_of_synapses_eq h (activateTab_synapses s t)

theorem noLoop_closeTab {s : State} (h : NoLoop s) (t : TabId) : NoLoop (closeTab s t) :=
  noLoop_of_synapses_eq h (closeTab_synapses s t)

theorem filter_eq_some {α : Type} {p : α → Bool} {o : Option α} {a : α}
    (h : o.filter p = some a) : o = some a ∧ p a = true := by
  cases o with
  | none => simp [Option.filter] at h
  | some b =>
    simp only [Option.filter] at h
    split at h
    · rename_i hp
      cases h
      exact ⟨rfl, hp⟩
    · cases h

theorem noLoop_navigateToRealUrl {s : State} (hinv : Inv s)
    (htabs : TabInv s.tabs s.activeTabId) (h : NoLoop s) (url : String)
    (hostname : Option String) (rndTab rnd : Rnd) :
    NoLoop (navigateToRealUrl s url hostname rndTab rnd).state := by
  unfold navigateToRealUrl
  simp only [findOrCreateNeuronForDomain_eq]
  have h0 : Inv (if s.activeTabId = none then (createNewTab s rndTab).1 else s)
      ∧ NoLoop (if s.activeTabId = none then (createNewTab s rndTab).1 else s) := by
    split
    · exact ⟨inv_createNewTab hinv rndTab, noLoop_createNewTab hinv htabs h rndTab⟩
    · exact ⟨hinv, h⟩
  generalize (if s.activeTabId = none then (createNewTab s rndTab).1 else s) = s0 at h0 ⊢
  obtain ⟨hinv0, hloop0⟩ := h0
  generalize hostname.getD (withProtocol url) = domain
  have h1 : NoLoop (createNeuron s0 ("web:" ++ domain) domain none rnd).1 :=
    noLoop_of_synapses_eq hloop0 (createNeuron_synapses _ _ _ _ _)
  split
  · exact h1
  · rename_i tabId hactive
    split
    · exact h1
    · rename_i tab htab
      rw [createNeuron_tabs] at htab
      simp only [Outcome.state]
      apply noLoop_activateTab
      split
      · rename_i old hold
        obtain ⟨hn, hpred⟩ := filter_eq_some hold
        simp only [Bool.and_eq_true, decide_eq_true_eq] at hpred
        apply noLoop_createSynapse
        · exact noLoop_of_synapses_eq h1 rfl
        · exact prior_ne_destination hinv0 htab hn hpred.2 domain none rnd
      · exact noLoop_of_synapses_eq h1 rfl

theorem noLoop_activatePageNeuron {s : State} (hinv : Inv s)
    (htabs : TabInv s.tabs s.activeTabId) (h : NoLoop s) (pageId : PageId) (rndTab rnd : Rnd) :
    NoLoop (activatePageNeuron s pageId rndTab rnd).state := by
  unfold activatePageNeuron
  split
  · exact noLoop_activateTab h _
  · split
    · exact noLoop_navigateTo hinv htabs h _ _ _ _ _
    · exact noLoop_navigateTo (inv_createNewTab hinv rndTab) (tabInv_createNewTab htabs rndTab)
        (noLoop_createNewTab hinv htabs h rndTab) _ _ _ _ _

/-- The action `connect` on a displayed neuron, whose page the menu holds, adds no self-loop. -/
theorem noLoop_connectToCurrent {s : State} (hinv : Inv s) (h : NoLoop s) {neuronId : NeuronId}
    {neuron : Neuron} (hn : Dict.get s.neurons neuronId = some neuron) :
    NoLoop (connectToCurrent s neuronId neuron.pageId).state := by
  unfold connectToCurrent
  split
  · exact h
  · split
    · exact h
    · rename_i tab htab
      simp only
      split
      · rename_i hcond
        split
        · rename_i currentNeuronId hcur
          simp only [Outcome.state]
          apply noLoop_createSynapse h
          obtain ⟨d, hd, hdp⟩ := hinv.page_neuron _ _ hcur
          refine hinv.ne_of_pageId_ne hd (get_graph_of_neuron hn) ?_
          rw [hdp]
          exact hcond.2
        · exact h
      · exact h

theorem noLoop_step {s : State} (hinv : Inv s) (htabs : TabInv s.tabs s.activeTabId)
    (h : NoLoop s) (op : Op) (hop : op.isUserEntry = true) : NoLoop (step s op) := by
  cases op with
  | createNeuron pageId title position rnd => cases hop
  | createSynapse fromId toId => cases hop
  | removeNeuron neuronId => exact noLoop_removeNeuron h _
  | createNewTab rnd => exact noLoop_createNewTab hinv htabs h _
  | activateTab tabId => cases hop
  | closeTab tabId => exact noLoop_closeTab h _
  | navigateTo pageId tabId sourceNeuronId withSynapse rnd =>
    exact noLoop_navigateTo hinv htabs h _ _ _ _ _
  | navigateToRealUrl url hostname rndTab rnd => exact noLoop_navigateToRealUrl hinv htabs h _ _ _ _
  | activatePageNeuron pageId rndTab rnd => exact noLoop_activatePageNeuron hinv htabs h _ _ _
  | connectToCurrent neuronId =>
    show NoLoop (match Dict.get s.neurons neuronId with
      | some neuron => (connectToCurrent s neuronId neuron.pageId).state
      | none => s)
    split
    · rename_i neuron hn
      exact noLoop_connectToCurrent hinv h hn
    · exact h
  | dragNeuron neuronId deltaX deltaY offsetWidth offsetHeight => cases hop
  | loadFromLocalStorage stored rnd => cases hop

theorem noLoop_run_from {s : State} (hinv : Inv s) (htabs : TabInv s.tabs s.activeTabId)
    (h : NoLoop s) (ops : List Op) (hops : ∀ op ∈ ops, op.isUserEntry = true) :
    NoLoop (run s ops) := by
  unfold run
  induction ops generalizing s with
  | nil => exact h
  | cons op rest ih =>
    rw [List.foldl_cons]
    exact ih (inv_step hinv op) (tabInv_step htabs op)
      (noLoop_step hinv htabs h op (hops op (List.mem_cons_self _ _)))
      (fun o ho => hops o (List.mem_cons_of_mem _ ho))

/-- C13. No state reached from the empty state through `createNewTab`,
`navigateTo` (with any source neuron, live or not, or none),
`navigateToRealUrl`, `activatePageNeuron`, the action `connect` of the
context menu, `closeTab` and `removeNeuron` holds a synapse whose from-end
is its to-end. -/
theorem no_self_loop (templateLabel : String) (hasMinimap : Bool) (ops : List Op)
    (hops : ∀ op ∈ ops, op.isUserEntry = true) :
    ∀ a, (a, a) ∉ (run (State.empty templateLabel hasMinimap) ops).synapses :=
  noLoop_run_from (inv_empty _ _) (tabInv_empty _ _) (by intro a; simp [State.empty]) ops hops

theorem no_self_loop_witness :
    (∀ op ∈ userSession, op.isUserEntry = true)
      ∧ ∀ a, (a, a) ∉ (run (State.empty "" true) userSession).synapses :=
  ⟨by decide, no_self_loop "" true userSession (by decide)⟩

/-! ## Unknown references -/

/-- C15 on the code. For a catalog `pageId`: with no tab id given and no
active tab, `navigateTo` returns without raising and leaves the state as it
is; with a tab id that names no open tab, reading
`this.tabs[targetTabId].pageId` raises a `TypeError`, the state being as it
was. -/
theorem navigateTo_unresolved_tab (s : State) (pageId : PageId) (t : TabId)
    (sourceNeuronId : Option NeuronId) (withSynapse : Bool) (rnd : Rnd)
    (hpage : Dict.get mockPages pageId ≠ none) :
    (s.activeTabId = none →
        navigateTo s pageId none sourceNeuronId withSynapse rnd = .returned s)
      ∧ (Dict.get s.tabs t = none →
        navigateTo s pageId (some t) sourceNeuronId withSynapse rnd = .threw s) := by
  constructor
  · intro hact
    exact navigateTo_of_no_target (by rw [hact]; rfl) pageId sourceNeuronId withSynapse rnd
  · intro htab
    cases hp : Dict.get mockPages pageId with
    | none => exact absurd hp hpage
    | some page =>
      exact navigateTo_of_closed_tab (show (some t <|> s.activeTabId) = some t from rfl) hp htab
        sourceNeuronId withSynapse rnd

/-- The failing input of C15: the first tab is open and `navigateTo('about',
'tab-7')` is called; the call raises. -/
theorem navigateTo_unresolved_tab_witness :
    Dict.get mockPages "about" ≠ none
      ∧ Dict.get (run (State.empty "" true) [.createNewTab rndHalf]).tabs 7 = none
      ∧ (navigateTo (run (State.empty "" true) [.createNewTab rndHalf]) "about" (some 7) none
          true rndHalf).raised = true
      ∧ (navigateTo (run (State.empty "" true) [.createNewTab rndHalf]) "about" (some 7) none
          true rndHalf).state = run (State.empty "" true) [.createNewTab rndHalf] := by
  have hpage : Dict.get mockPages "about" ≠ none := by decide
  have htab : Dict.get (run (State.empty "" true) [.createNewTab rndHalf]).tabs 7 = none := by
    decide
  have h := (navigateTo_unresolved_tab (run (State.empty "" true) [.createNewTab rndHalf])
    "about" 7 none true rndHalf hpage).2 htab
  refine ⟨hpage, htab, ?_, ?_⟩
  · rw [h]; rfl
  · rw [h]; rfl

/-- C19. In every state in which `pageNeurons` has a neuron for `pageId`,
`createNeuron(pageId, title, position)` returns the id of that neuron, for
every title and position, and leaves the whole state as it is: label,
position, `neurons`, `pageNeurons` and `lastNeuronId` included. -/
theorem createNeuron_existing (s : State) (pageId : PageId) (n : NeuronId) (title : String)
    (position : Option Position) (rnd : Rnd) (h : Dict.get s.pageNeurons pageId = some n) :
    createNeuron s pageId title position rnd = (s, n) :=
  createNeuron_of_some h title position rnd

theorem createNeuron_existing_witness :
    Dict.get (run (State.empty "" true) homeThenAbout).pageNeurons "about" = some 2
      ∧ createNeuron (run (State.empty "" true) homeThenAbout) "about" "Another title"
          (some { x := 5, y := 5 }) rndHalf = (run (State.empty "" true) homeThenAbout, 2) :=
  ⟨by decide, createNeuron_existing _ "about" 2 "Another title" (some { x := 5, y := 5 }) rndHalf
    (by decide)⟩

/-- C20. In every state reached in a session, `createSynapse(fromId, toId)`
with an end that is no live neuron finds no stored key `fromId_toId`, takes
the branch that logs and returns, and leaves the whole state, the synapse
keys included, as it is; the model of `createSynapse` has no raising path. -/
theorem createSynapse_dead_end (templateLabel : String) (hasMinimap : Bool) (ops : List Op)
    (a b : NeuronId)
    (h : a ∉ Dict.keys (run (State.empty templateLabel hasMinimap) ops).neurons
      ∨ b ∉ Dict.keys (run (State.empty templateLabel hasMinimap) ops).neurons) :
    (a, b) ∉ (run (State.empty templateLabel hasMinimap) ops).synapses
      ∧ createSynapse (run (State.empty templateLabel hasMinimap) ops) a b
          = run (State.empty templateLabel hasMinimap) ops := by
  have hinv := inv_run templateLabel hasMinimap ops
  constructor
  · intro hmem
    obtain ⟨ha, hb⟩ := hinv.synapse_live a b hmem
    rw [keys_graph] at ha hb
    rcases h with h | h
    · exact h ha
    · exact h hb
  · apply createSynapse_eq_self
    right
    rintro ⟨ha, hb⟩
    rcases h with h | h
    · exact h ha
    · exact h hb

theorem createSynapse_dead_end_witness :
    ((1 : NeuronId) ∉ Dict.keys (run (State.empty "" true) homeThenAbout).neurons
        ∨ (9 : NeuronId) ∉ Dict.keys (run (State.empty "" true) homeThenAbout).neurons)
      ∧ ((1, 9) ∉ (run (State.empty "" true) homeThenAbout).synapses
        ∧ createSynapse (run (State.empty "" true) homeThenAbout) 1 9
            = run (State.empty "" true) homeThenAbout) :=
  ⟨by decide, createSynapse_dead_end "" true homeThenAbout 1 9 (by decide)⟩

/-! ## Closing tabs -/

/-- C17. For every state and every tab id, `closeTab(id)` leaves the graph as
it is: the neurons with their ids, page ids, labels and positions, the index
`pageNeurons` and the synapse keys. -/
theorem closeTab_keeps_graph (s : State) (id : TabId) :
    Dict.mapVals Neuron.data (closeTab s id).neurons = Dict.mapVals Neuron.data s.neurons
      ∧ (closeTab s id).pageNeurons = s.pageNeurons
      ∧ (closeTab s id).synapses = s.synapses :=
  ⟨closeTab_graph s id, closeTab_pageNeurons s id, closeTab_synapses s id⟩

/-- C18. In every state reached in a session (by `createNewTab`, `navigateTo`,
`activateTab`, `closeTab`, `removeNeuron`, and the other constructors of
`Op` as well), `activeTabId` is null exactly when no tab is open and names
an open tab otherwise; and closing the active tab leaves `activeTabId` null
when no tab remains and on a remaining tab when one does. -/
theorem active_tab_pointer (templateLabel : String) (hasMinimap : Bool) (ops : List Op) :
    ((run (State.empty templateLabel hasMinimap) ops).activeTabId = none
        ↔ (run (State.empty templateLabel hasMinimap) ops).tabs = [])
      ∧ (∀ t, (run (State.empty templateLabel hasMinimap) ops).activeTabId = some t →
          t ∈ Dict.keys (run (State.empty templateLabel hasMinimap) ops).tabs)
      ∧ (∀ t, (run (State.empty templateLabel hasMinimap) ops).activeTabId = some t →
          ((closeTab (run (State.empty templateLabel hasMinimap) ops) t).tabs = [] →
            (closeTab (run (State.empty templateLabel hasMinimap) ops) t).activeTabId = none)
          ∧ ((closeTab (run (State.empty templateLabel hasMinimap) ops) t).tabs ≠ [] →
            ∃ t', (closeTab (run (State.empty templateLabel hasMinimap) ops) t).activeTabId
                = some t'
              ∧ t' ∈ Dict.keys
                  (closeTab (run (State.empty templateLabel hasMinimap) ops) t).tabs)) := by
  have hinv := inv_run templateLabel hasMinimap ops
  have htabs := tabInv_run templateLabel hasMinimap ops
  generalize run (State.empty templateLabel hasMinimap) ops = s at hinv htabs ⊢
  have key : ∀ s' : State, Inv s' → TabInv s'.tabs s'.activeTabId →
      (s'.activeTabId = none ↔ s'.tabs = []) := by
    intro s' hi ht
    constructor
    · intro hnone
      by_contra hne
      exact ht.has_active hne hnone
    · intro hnil
      cases hact : s'.activeTabId with
      | none => rfl
      | some t =>
        have := hi.active_open t hact
        rw [hnil] at this
        cases this
  refine ⟨key s hinv htabs, hinv.active_open, ?_⟩
  intro t _
  have hi' := inv_closeTab hinv t
  have ht' := tabInv_closeTab htabs t
  constructor
  · exact (key _ hi' ht').2
  · intro hne
    cases hact : (closeTab s t).activeTabId with
    | none => exact absurd hact (ht'.has_active hne)
    | some t' => exact ⟨t', rfl, hi'.active_open t' hact⟩

/-! ## New tabs -/

theorem openedTab_lastNeuronId (s : State) : (openedTab s).lastNeuronId = s.lastNeuronId := by
  unfold openedTab
  rw [activateTab_lastNeuronId]

/-- What `createNewTab` leaves behind: the tab it returns is active, shows
`home` and is bound to the neuron `createNeuron` gives for `home`. -/
theorem createNewTab_spec (s : State) (rnd : Rnd) :
    ∃ (page : Page) (tab : Tab),
      (createNewTab s rnd).2 = s.lastTabId + 1
      ∧ (createNewTab s rnd).1.activeTabId = some (s.lastTabId + 1)
      ∧ Dict.get (createNewTab s rnd).1.tabs (s.lastTabId + 1)
          = some (navigatedTab tab page "home"
              (createNeuron (openedTab s) "home" page.title none rnd).2)
      ∧ (createNewTab s rnd).1.pageNeurons
          = (createNeuron (openedTab s) "home" page.title none rnd).1.pageNeurons := by
  have hpage : ∃ page, Dict.get mockPages "home" = some page := by
    cases h : Dict.get mockPages "home" with
    | none => exact absurd h (by decide)
    | some page => exact ⟨page, rfl⟩
  obtain ⟨page, hpage⟩ := hpage
  have htab := Dict.get_set_self s.tabs (s.lastTabId + 1)
    ({ id := s.lastTabId + 1, title := "New Tab", url := some "", pageId := "",
       neuronId := none, isWebUrl := none } : Tab)
  rw [← openedTab_tabs] at htab
  refine ⟨page,
    { id := s.lastTabId + 1, title := "New Tab", url := some "", pageId := "",
      neuronId := none, isWebUrl := none }, rfl, ?_, ?_, ?_⟩
  · rw [createNewTab_eq,
      navigateTo_eq (show (some (s.lastTabId + 1) <|> (openedTab s).activeTabId)
        = some (s.lastTabId + 1) from rfl) hpage htab none true rnd]
    show (activateTab _ _).activeTabId = _
    rw [activateTab_activeTabId, navigateSynapse_tabs]
    exact if_pos ((Dict.mem_keys_iff _ _).2 ⟨_, Dict.get_set_self _ _ _⟩)
  · rw [createNewTab_eq,
      navigateTo_eq (show (some (s.lastTabId + 1) <|> (openedTab s).activeTabId)
        = some (s.lastTabId + 1) from rfl) hpage htab none true rnd]
    show Dict.get (activateTab _ _).tabs _ = _
    rw [activateTab_tabs, navigateSynapse_tabs]
    exact Dict.get_set_self _ _ _
  · rw [createNewTab_eq,
      navigateTo_eq (show (some (s.lastTabId + 1) <|> (openedTab s).activeTabId)
        = some (s.lastTabId + 1) from rfl) hpage htab none true rnd]
    show (activateTab _ _).pageNeurons = _
    rw [activateTab_pageNeurons, navigateSynapse_pageNeurons]

/-- With counters that are natural numbers, to which `++` adds one: in every
state reached in a session, `createNewTab()` returns a tab id that was not
open; afterwards that tab is the active tab, its `pageId` is
`home` and its `neuronId` is the live neuron that `pageNeurons` gives for
`home`: the neuron `home` had before the call when it had one, a neuron that
did not exist before otherwise. -/
theorem createNewTab_binds_home (templateLabel : String) (hasMinimap : Bool) (ops : List Op)
    (rnd : Rnd) :
    (createNewTab (run (State.empty templateLabel hasMinimap) ops) rnd).2
        ∉ Dict.keys (run (State.empty templateLabel hasMinimap) ops).tabs
      ∧ (createNewTab (run (State.empty templateLabel hasMinimap) ops) rnd).1.activeTabId
          = some (createNewTab (run (State.empty templateLabel hasMinimap) ops) rnd).2
      ∧ ∃ (tab : Tab) (d : NeuronId),
          Dict.get (createNewTab (run (State.empty templateLabel hasMinimap) ops) rnd).1.tabs
              (createNewTab (run (State.empty templateLabel hasMinimap) ops) rnd).2 = some tab
          ∧ tab.pageId = "home"
          ∧ tab.neuronId = some d
          ∧ Dict.get
              (createNewTab (run (State.empty templateLabel hasMinimap) ops) rnd).1.pageNeurons
              "home" = some d
          ∧ d ∈ Dict.keys
              (createNewTab (run (State.empty templateLabel hasMinimap) ops) rnd).1.neurons
          ∧ (∀ n, Dict.get (run (State.empty templateLabel hasMinimap) ops).pageNeurons "home"
                = some n → d = n)
          ∧ (Dict.get (run (State.empty templateLabel hasMinimap) ops).pageNeurons "home" = none
              → d ∉ Dict.keys (run (State.empty templateLabel hasMinimap) ops).neurons) := by
  have hinv := inv_run templateLabel hasMinimap ops
  generalize run (State.empty templateLabel hasMinimap) ops = s at hinv ⊢
  have hinv' := inv_createNewTab hinv rnd
  obtain ⟨page, tab, hid, hact, htab, hpn⟩ := createNewTab_spec s rnd
  have hget : Dict.get (createNewTab s rnd).1.pageNeurons "home"
      = some (createNeuron (openedTab s) "home" page.title none rnd).2 := by
    rw [hpn]
    exact createNeuron_pageNeurons_get _ _ _ _ _
  refine ⟨?_, ?_, navigatedTab tab page "home" _, _, ?_, rfl, rfl, hget, ?_, ?_, ?_⟩
  · rw [hid]
    intro hmem
    exact Nat.not_succ_le_self _ (hinv.tab_le _ hmem)
  · rw [hid]
    exact hact
  · rw [hid]
    exact htab
  · obtain ⟨d, hd, _⟩ := hinv'.page_neuron _ _ hget
    rw [← keys_graph]
    exact (Dict.mem_keys_iff _ _).2 ⟨d, hd⟩
  · intro n hn
    rw [← openedTab_pageNeurons] at hn
    rw [createNeuron_of_some hn]
  · intro hnone hmem
    rw [← openedTab_pageNeurons] at hnone
    rw [createNeuron_snd_of_none hnone, openedTab_lastNeuronId] at hmem
    rw [← keys_graph] at hmem
    exact Nat.not_succ_le_self _ (hinv.neuron_le _ hmem)

/-! ## A tab and its neuron, on a session -/

/-- The tab `tab-1` after the session `homeThenAbout` and its neuron. -/
theorem tab_binding_witness :
    (Dict.get (run (State.empty "" true) homeThenAbout).tabs 1 = some aboutTab
        ∧ aboutTab.neuronId = some 2)
      ∧ ∃ nd, Dict.get (run (State.empty "" true) homeThenAbout).neurons 2 = some nd
          ∧ nd.pageId = aboutTab.pageId
          ∧ Dict.get (run (State.empty "" true) homeThenAbout).pageNeurons aboutTab.pageId
              = some 2 :=
  ⟨by decide, tab_binding "" true homeThenAbout 1 aboutTab 2 (by decide) (by decide)⟩

/-! ## Removing a neuron: idempotence and the tabs it closes -/

theorem removeNeuron_neurons_get_self (s : State) (n : NeuronId) :
    Dict.get (removeNeuron s n).neurons n = none := by
  cases hn : Dict.get s.neurons n with
  | none => rw [removeNeuron_of_none hn]; exact hn
  | some nd =>
    have hg : Dict.get (removeNeuron s n).graph n = none := by
      rw [removeNeuron_graph hn]
      exact Dict.get_delete_self _ _
    rw [get_graph] at hg
    cases h : Dict.get (removeNeuron s n).neurons n with
    | none => rfl
    | some x => rw [h] at hg; cases hg

/-- C21. For every state, `removeNeuron` on an id that is no live neuron
returns at once and leaves the whole state as it is; and for every state and
id `n`, `removeNeuron(n)` followed by `removeNeuron(n)` gives the state a
single `removeNeuron(n)` gives. -/
theorem removeNeuron_idempotent (s : State) (n : NeuronId) :
    (Dict.get s.neurons n = none → removeNeuron s n = s)
      ∧ removeNeuron (removeNeuron s n) n = removeNeuron s n :=
  ⟨fun h => removeNeuron_of_none h, removeNeuron_of_none (removeNeuron_neurons_get_self s n)⟩

theorem get_filter_eq {κ ν : Type} [DecidableEq κ] {m : Dict κ ν}
    (hm : (Dict.keys m).Nodup) (p : κ × ν → Bool) (k : κ) :
    Dict.get (m.filter p) k = (Dict.get m k).filter (fun v => p (k, v)) := by
  cases hfk : Dict.get (m.filter p) k with
  | some v =>
    obtain ⟨hg, hp⟩ := get_filter_of_nodup hm p hfk
    rw [hg]
    simp [Option.filter, hp]
  | none =>
    cases hg : Dict.get m k with
    | none => rfl
    | some v =>
      by_cases hp : p (k, v) = true
      · have hmem : (k, v) ∈ m.filter p := List.mem_filter.2 ⟨Dict.mem_of_get hg, hp⟩
        have := Dict.get_of_mem (nodup_keys_filter hm p) hmem
        rw [hfk] at this
        cases this
      · simp [Option.filter, hp]

theorem mem_tabsToClose_iff {s : State} (hm : (Dict.keys s.tabs).Nodup) {n : NeuronId}
    {t : TabId} {tab : Tab} (ht : Dict.get s.tabs t = some tab) :
    t ∈ tabsToClose s n ↔ tab.neuronId = some n := by
  unfold tabsToClose
  constructor
  · intro hmem
    obtain ⟨tab', hget⟩ := (Dict.mem_keys_iff _ _).1 hmem
    obtain ⟨hg, hp⟩ := get_filter_of_nodup hm _ hget
    rw [ht] at hg
    cases hg
    simpa using hp
  · intro hn
    have hmem : (t, tab) ∈ s.tabs.filter (fun e => decide (e.2.neuronId = some n)) :=
      List.mem_filter.2 ⟨Dict.mem_of_get ht, by simpa using hn⟩
    exact Dict.mem_keys_of_mem hmem

/-- C22. In every state reached in a session and for every live neuron `n`,
after `removeNeuron(n)` a tab whose `neuronId` was `n` is no longer open,
every other open tab is open with the same tab data (`pageId` and `neuronId`
included), no tab is opened, and every synapse between two neurons other
than `n` is still stored. -/
theorem removeNeuron_closes_bound_tabs (templateLabel : String) (hasMinimap : Bool)
    (ops : List Op) (n : NeuronId)
    (hn : n ∈ Dict.keys (run (State.empty templateLabel hasMinimap) ops).neurons) :
    (∀ t tab, Dict.get (run (State.empty templateLabel hasMinimap) ops).tabs t = some tab →
        tab.neuronId = some n →
        Dict.get (removeNeuron (run (State.empty templateLabel hasMinimap) ops) n).tabs t = none)
      ∧ (∀ t tab, Dict.get (run (State.empty templateLabel hasMinimap) ops).tabs t = some tab →
        tab.neuronId ≠ some n →
        Dict.get (removeNeuron (run (State.empty templateLabel hasMinimap) ops) n).tabs t
          = some tab)
      ∧ (∀ t, Dict.get (run (State.empty templateLabel hasMinimap) ops).tabs t = none →
        Dict.get (removeNeuron (run (State.empty templateLabel hasMinimap) ops) n).tabs t = none)
      ∧ (∀ a b, (a, b) ∈ (run (State.empty templateLabel hasMinimap) ops).synapses →
        a ≠ n → b ≠ n →
        (a, b) ∈ (removeNeuron (run (State.empty templateLabel hasMinimap) ops) n).synapses) := by
  have hinv := inv_run templateLabel hasMinimap ops
  generalize run (State.empty templateLabel hasMinimap) ops = s at hn hinv ⊢
  obtain ⟨nd, hnd⟩ := (Dict.mem_keys_iff _ _).1 hn
  rw [removeNeuron_tabs hnd, removeNeuron_synapses hnd]
  refine ⟨?_, ?_, ?_, ?_⟩
  · intro t tab ht htn
    rw [get_filter_eq hinv.tabs_nodup, ht]
    have := (mem_tabsToClose_iff hinv.tabs_nodup ht).2 htn
    simp [Option.filter, this]
  · intro t tab ht htn
    rw [get_filter_eq hinv.tabs_nodup, ht]
    have : t ∉ tabsToClose s n := fun h => htn ((mem_tabsToClose_iff hinv.tabs_nodup ht).1 h)
    simp [Option.filter, this]
  · intro t ht
    rw [get_filter_eq hinv.tabs_nodup, ht]
    rfl
  · intro a b hab ha hb
    refine List.mem_filter.2 ⟨hab, ?_⟩
    simp [touches, ha, hb]

theorem removeNeuron_closes_bound_tabs_witness :
    (2 : NeuronId) ∈ Dict.keys (run (State.empty "" true) threePages).neurons
      ∧ ((∀ t tab, Dict.get (run (State.empty "" true) threePages).tabs t = some tab →
          tab.neuronId = some 2 →
          Dict.get (removeNeuron (run (State.empty "" true) threePages) 2).tabs t = none)
        ∧ (∀ t tab, Dict.get (run (State.empty "" true) threePages).tabs t = some tab →
          tab.neuronId ≠ some 2 →
          Dict.get (removeNeuron (run (State.empty "" true) threePages) 2).tabs t = some tab)
        ∧ (∀ t, Dict.get (run (State.empty "" true) threePages).tabs t = none →
          Dict.get (removeNeuron (run (State.empty "" true) threePages) 2).tabs t = none)
        ∧ (∀ a b, (a, b) ∈ (run (State.empty "" true) threePages).synapses →
          a ≠ 2 → b ≠ 2 →
          (a, b) ∈ (removeNeuron (run (State.empty "" true) threePages) 2).synapses)) :=
  ⟨by decide, removeNeuron_closes_bound_tabs "" true threePages 2 (by decide)⟩

/-! ## The configuration after a load -/

theorem get_mergeConfig (current persisted : Dict String CfgVal)
    (hkeys : (Dict.keys persisted).Nodup) (k : String) :
    Dict.get (mergeConfig current persisted) k
      = match Dict.get persisted k with
        | some v => some v
        | none => Dict.get current k := by
  unfold mergeConfig
  induction persisted generalizing current with
  | nil => rfl
  | cons e rest ih =>
    have hnd : (Dict.keys rest).Nodup := (List.nodup_cons.1 hkeys).2
    have hfresh : e.1 ∉ Dict.keys rest := (List.nodup_cons.1 hkeys).1
    rw [List.foldl_cons, ih _ hnd, Dict.get_cons]
    by_cases hk : e.1 = k
    · subst hk
      rw [if_pos rfl, (Dict.get_eq_none_iff _ _).2 hfresh]
      exact Dict.get_set_self _ _ _
    · rw [if_neg hk]
      cases Dict.get rest k with
      | some v => rfl
      | none => exact Dict.get_set_ne _ _ hk

@[simp] theorem addNeuronToMinimap_config (s : State) (n : NeuronId) :
    (addNeuronToMinimap s n).config = s.config := by
  unfold addNeuronToMinimap; (repeat' split) <;> rfl

@[simp] theorem addSynapseToMinimap_config (s : State) (a b : NeuronId) :
    (addSynapseToMinimap s a b).config = s.config := by
  unfold addSynapseToMinimap; (repeat' split) <;> rfl

@[simp] theorem createNeuron_config (s : State) (pageId : PageId) (title : String)
    (position : Option Position) (rnd : Rnd) :
    (createNeuron s pageId title position rnd).1.config = s.config := by
  unfold createNeuron; split <;> simp

@[simp] theorem createSynapse_config (s : State) (a b : NeuronId) :
    (createSynapse s a b).config = s.config := by
  unfold createSynapse; (repeat' split) <;> simp

@[simp] theorem restoreNeurons_config (s : State) (saved : Dict NeuronId NeuronData) (rnd : Rnd) :
    (restoreNeurons s saved rnd).config = s.config := by
  induction saved generalizing s with
  | nil => rfl
  | cons e rest ih =>
    rw [restoreNeurons_cons, ih]
    unfold restoreNeuron
    split
    · rfl
    · exact createNeuron_config _ _ _ _ _

@[simp] theorem restoreSynapses_config (s : State) (saved : List SynapseId) :
    (restoreSynapses s saved).config = s.config := by
  induction saved generalizing s with
  | nil => rfl
  | cons sid rest ih => rw [restoreSynapses_cons, ih, createSynapse_config]

theorem loadFromLocalStorage_config (s : State) (data : SaveData) (rnd : Rnd) :
    (loadFromLocalStorage s (some data) rnd).config = (withConfig s data.config).config := by
  rw [loadFromLocalStorage_some]
  show (restoreSynapses _ _).config = _
  rw [restoreSynapses_config, restoreNeurons_config]

/-- C29. After `loadFromLocalStorage` with a record that carries a `config`
object, whatever the configuration `current` before the load (the defaults,
`defaultConfig`, in the state the constructor builds), every key of the
persisted object has the persisted value and every other key has the value
it had in `current`.  The keys of the persisted object are distinct, as the
keys of an object are. -/
theorem load_merges_config (s : State) (data : SaveData) (persisted : Dict String CfgVal)
    (rnd : Rnd) (hconfig : data.config = some persisted)
    (hkeys : (Dict.keys persisted).Nodup) :
    (∀ k v, Dict.get persisted k = some v →
        Dict.get (loadFromLocalStorage s (some data) rnd).config k = some v)
      ∧ (∀ k, Dict.get persisted k = none →
        Dict.get (loadFromLocalStorage s (some data) rnd).config k = Dict.get s.config k)
      ∧ (∀ templateLabel hasMinimap, (State.empty templateLabel hasMinimap).config
          = defaultConfig) := by
  have hcfg : (loadFromLocalStorage s (some data) rnd).config = mergeConfig s.config persisted := by
    rw [loadFromLocalStorage_config, hconfig]
    rfl
  refine ⟨?_, ?_, fun _ _ => rfl⟩
  · intro k v hk
    rw [hcfg, get_mergeConfig _ _ hkeys, hk]
  · intro k hk
    rw [hcfg, get_mergeConfig _ _ hkeys, hk]

theorem load_merges_config_witness :
    (recordWithConfig.config = some [("logLevel", .str "none"), ("theme", .str "dark")]
        ∧ (Dict.keys [("logLevel", CfgVal.str "none"), ("theme", CfgVal.str "dark")]).Nodup)
      ∧ ((∀ k v, Dict.get [("logLevel", CfgVal.str "none"), ("theme", CfgVal.str "dark")] k
            = some v →
          Dict.get (loadFromLocalStorage (State.empty "" true) (some recordWithConfig)
            rndHalf).config k = some v)
        ∧ (∀ k, Dict.get [("logLevel", CfgVal.str "none"), ("theme", CfgVal.str "dark")] k
            = none →
          Dict.get (loadFromLocalStorage (State.empty "" true) (some recordWithConfig)
            rndHalf).config k = Dict.get (State.empty "" true).config k)
        ∧ (∀ templateLabel hasMinimap, (State.empty templateLabel hasMinimap).config
            = defaultConfig)) :=
  ⟨⟨rfl, by decide⟩,
    load_merges_config (State.empty "" true) recordWithConfig _ rndHalf rfl (by decide)⟩

/-! ## The view scale and the minimap viewport -/

theorem zoomBrain_brainScale_bounds (s : State) (delta : ℚ) :
    1 / 2 ≤ (zoomBrain s delta).brainScale ∧ (zoomBrain s delta).brainScale ≤ 3 := by
  show 1 / 2 ≤ max (1 / 2 : ℚ) (min 3 (s.brainScale + delta))
    ∧ max (1 / 2 : ℚ) (min 3 (s.brainScale + delta)) ≤ 3
  constructor
  · exact le_max_left _ _
  · exact max_le (by norm_num) (min_le_left _ _)

theorem viewStep_brainScale_bounds (s : State) (op : ViewOp) :
    1 / 2 ≤ (viewStep s op).brainScale ∧ (viewStep s op).brainScale ≤ 3 := by
  cases op with
  | zoomBrain delta => exact zoomBrain_brainScale_bounds s delta
  | resetBrainView =>
    show (1 / 2 : ℚ) ≤ 1 ∧ (1 : ℚ) ≤ 3
    constructor <;> norm_num

theorem runView_brainScale_bounds (s : State) (ops : List ViewOp)
    (h : 1 / 2 ≤ s.brainScale ∧ s.brainScale ≤ 3) :
    1 / 2 ≤ (runView s ops).brainScale ∧ (runView s ops).brainScale ≤ 3 := by
  unfold runView
  induction ops generalizing s with
  | nil => exact h
  | cons op rest ih => exact ih _ (viewStep_brainScale_bounds s op)

theorem updateMinimapViewport_eq {s : State} (hminimap : s.minimap = true)
    (container minimapRect : Rect) (offsetWidth offsetHeight : ℚ) :
    updateMinimapViewport s true container minimapRect offsetWidth offsetHeight
      = some
        { width := min ((container.width / s.brainScale)
              * (minimapRect.width / (offsetWidth * s.brainScale))) minimapRect.width,
          height := min ((container.height / s.brainScale)
              * (minimapRect.height / (offsetHeight * s.brainScale))) minimapRect.height,
          left := max 0 (min
            ((-s.brainPosition.x / s.brainScale)
              * (minimapRect.width / (offsetWidth * s.brainScale)))
            (minimapRect.width
              - (container.width / s.brainScale)
                * (minimapRect.width / (offsetWidth * s.brainScale)))),
          top := max 0 (min
            ((-s.brainPosition.y / s.brainScale)
              * (minimapRect.height / (offsetHeight * s.brainScale)))
            (minimapRect.height
              - (container.height / s.brainScale)
                * (minimapRect.height / (offsetHeight * s.brainScale)))) } := by
  unfold updateMinimapViewport
  rw [hminimap]
  rfl

/-- C27. With the minimap and its viewport element present, for every pan
offset, every scale in `[0.5, 3]` and positive sizes of the minimap, the
neural network and its container, `updateMinimapViewport` writes a rectangle
that stays inside the minimap: `0 <= left`, `0 <= top`,
`left + width <= minimapWidth`, `top + height <= minimapHeight`, its width
and height being positive; `left` is the clamped value of
`(-panX / scale) * (minimapWidth / (offsetWidth * scale))`, `offsetWidth *
scale` being the width of the brain at the scale. -/
theorem viewport_within_minimap (s : State) (container minimapRect : Rect)
    (offsetWidth offsetHeight : ℚ) (hminimap : s.minimap = true)
    (hscale : 1 / 2 ≤ s.brainScale ∧ s.brainScale ≤ 3)
    (hcontainer : 0 < container.width ∧ 0 < container.height)
    (hrect : 0 < minimapRect.width ∧ 0 < minimapRect.height)
    (hoffset : 0 < offsetWidth ∧ 0 < offsetHeight) :
    ∃ v, updateMinimapViewport s true container minimapRect offsetWidth offsetHeight = some v
      ∧ 0 ≤ v.left ∧ 0 ≤ v.top
      ∧ v.left + v.width ≤ minimapRect.width
      ∧ v.top + v.height ≤ minimapRect.height
      ∧ 0 < v.width ∧ 0 < v.height
      ∧ v.left = max 0 (min
          ((-s.brainPosition.x / s.brainScale)
            * (minimapRect.width / (offsetWidth * s.brainScale)))
          (minimapRect.width
            - (container.width / s.brainScale)
              * (minimapRect.width / (offsetWidth * s.brainScale)))) := by
  have hs : (0 : ℚ) < s.brainScale := lt_of_lt_of_le (by norm_num) hscale.1
  have hvw : 0 < (container.width / s.brainScale)
      * (minimapRect.width / (offsetWidth * s.brainScale)) :=
    mul_pos (div_pos hcontainer.1 hs) (div_pos hrect.1 (mul_pos hoffset.1 hs))
  have hvh : 0 < (container.height / s.brainScale)
      * (minimapRect.height / (offsetHeight * s.brainScale)) :=
    mul_pos (div_pos hcontainer.2 hs) (div_pos hrect.2 (mul_pos hoffset.2 hs))
  have key : ∀ vl vw mm : ℚ, max 0 (min vl (mm - vw)) + min vw mm ≤ mm := by
    intro vl vw mm
    rcases le_total vw mm with h | h
    · rw [min_eq_left h]
      have : max 0 (min vl (mm - vw)) ≤ mm - vw :=
        max_le (by linarith) (min_le_right _ _)
      linarith
    · rw [min_eq_right h]
      have : max 0 (min vl (mm - vw)) ≤ 0 :=
        max_le (le_refl _) (le_trans (min_le_right _ _) (by linarith))
      linarith
  refine ⟨_, updateMinimapViewport_eq hminimap _ _ _ _, ?_, ?_, ?_, ?_, ?_, ?_, ?_⟩
  · exact le_max_left _ _
  · exact le_max_left _ _
  · exact key _ _ _
  · exact key _ _ _
  · exact lt_min hvw hrect.1
  · exact lt_min hvh hrect.2
  · rfl

theorem viewport_within_minimap_witness :
    (pannedView.minimap = true
        ∧ (1 / 2 ≤ pannedView.brainScale ∧ pannedView.brainScale ≤ 3)
        ∧ ((0 : ℚ) < 800 ∧ (0 : ℚ) < 600)
        ∧ ((0 : ℚ) < 200 ∧ (0 : ℚ) < 150)
        ∧ ((0 : ℚ) < 1000 ∧ (0 : ℚ) < 750))
      ∧ ∃ v, updateMinimapViewport pannedView true { width := 800, height := 600 }
            { width := 200, height := 150 } 1000 750 = some v
          ∧ 0 ≤ v.left ∧ 0 ≤ v.top
          ∧ v.left + v.width ≤ 200
          ∧ v.top + v.height ≤ 150
          ∧ 0 < v.width ∧ 0 < v.height
          ∧ v.left = max 0 (min
              ((-pannedView.brainPosition.x / pannedView.brainScale)
                * (200 / (1000 * pannedView.brainScale)))
              (200 - (800 / pannedView.brainScale) * (200 / (1000 * pannedView.brainScale)))) :=
  ⟨⟨rfl, by norm_num [pannedView, State.empty], by norm_num, by norm_num, by norm_num⟩,
    viewport_within_minimap pannedView { width := 800, height := 600 }
      { width := 200, height := 150 } 1000 750 rfl (by norm_num [pannedView, State.empty])
      ⟨by norm_num, by norm_num⟩ ⟨by norm_num, by norm_num⟩ ⟨by norm_num, by norm_num⟩⟩

/-! ## The URL bar -/

/-- C30 fails on the code. The canonical URL of the catalog page
`neuroscience` is `https://brainbrowser.example/neuroscience`; the loop of
`navigateToUrl` stops at the first entry of `mockPageUrls` whose URL is the
text or whose id the text contains, and the entry `science` comes before the
entry `neuroscience`: the text contains `science`, so the URL is classified
as the page `science`, and with one tab open the tab ends on `science`.
The canonical URL of every other catalog page is classified as that page. -/
theorem neuroscience_url_opens_science :
    Dict.get mockPages "neuroscience" ≠ none
      ∧ Dict.get mockPageUrls "neuroscience" = some "https://brainbrowser.example/neuroscience"
      ∧ findMockPage (trim "https://brainbrowser.example/neuroscience") = some "science"
      ∧ (Dict.get (navigateToUrl (run (State.empty "" true) [.createNewTab rndHalf])
            "https://brainbrowser.example/neuroscience" true (some "brainbrowser.example")
            rndHalf rndHalf).state.tabs 1).map (fun tab => tab.pageId) = some "science"
      ∧ ∀ id ∈ Dict.keys mockPages, id ≠ "neuroscience" →
          (Dict.get mockPageUrls id).map (fun url => findMockPage (trim url)) = some (some id) := by
  decide

/-! ## Positions of new neurons -/

theorem getRandomPosition_bounds (lo hi r : ℚ) (hle : lo ≤ hi) (hr : 0 ≤ r ∧ r < 1) :
    lo ≤ getRandomPosition lo hi r ∧ getRandomPosition lo hi r ≤ hi := by
  unfold getRandomPosition
  have h0 : 0 ≤ hi - lo := by linarith
  have h1 : r * (hi - lo) ≤ 1 * (hi - lo) := mul_le_mul_of_nonneg_right (le_of_lt hr.2) h0
  have h2 : 0 ≤ r * (hi - lo) := mul_nonneg hr.1 h0
  constructor <;> linarith

theorem getClusteredPosition_of_no_related {s : State} {pageId : PageId}
    (h : findRelatedPages s pageId = []) (rnd : Rnd) :
    getClusteredPosition s pageId rnd
      = { x := getRandomPosition 30 70 rnd.r1, y := getRandomPosition 30 70 rnd.r2 } := by
  unfold getClusteredPosition
  simp [h]

theorem mockPages_web (hostname : String) : Dict.get mockPages ("web:" ++ hostname) = none := by
  apply (Dict.get_eq_none_iff _ _).2
  intro hmem
  have hall : ∀ k ∈ Dict.keys mockPages, k.toList.head? ≠ some 'w' := by decide
  apply hall _ hmem
  show (("web:" ++ hostname).data).head? = some 'w'
  rw [String.data_append]
  rfl

theorem findRelatedPages_web (s : State) (hostname : String) :
    findRelatedPages s ("web:" ++ hostname) = [] := by
  unfold findRelatedPages
  apply List.filter_eq_nil_iff.2
  intro p _
  have : pagesAreRelated ("web:" ++ hostname) p = false := by
    unfold pagesAreRelated
    rw [mockPages_web]
  simp [this]

/-- C24. When `findRelatedPages(pageId)` finds no page (no page with a neuron,
other than `pageId`, is related to it), `getClusteredPosition(pageId)` returns,
for all draws in `[0, 1)`, a position with both coordinates in `[30, 70]`;
and that is so for every synthetic id `web:<hostname>`, which no catalog
entry carries. -/
theorem default_position_in_box (s : State) (pageId : PageId) (rnd : Rnd)
    (hr1 : 0 ≤ rnd.r1 ∧ rnd.r1 < 1) (hr2 : 0 ≤ rnd.r2 ∧ rnd.r2 < 1) :
    (findRelatedPages s pageId = [] →
        (30 ≤ (getClusteredPosition s pageId rnd).x ∧ (getClusteredPosition s pageId rnd).x ≤ 70)
          ∧ (30 ≤ (getClusteredPosition s pageId rnd).y
            ∧ (getClusteredPosition s pageId rnd).y ≤ 70))
      ∧ ∀ hostname : String,
          Dict.get mockPages ("web:" ++ hostname) = none
            ∧ (30 ≤ (getClusteredPosition s ("web:" ++ hostname) rnd).x
              ∧ (getClusteredPosition s ("web:" ++ hostname) rnd).x ≤ 70)
            ∧ (30 ≤ (getClusteredPosition s ("web:" ++ hostname) rnd).y
              ∧ (getClusteredPosition s ("web:" ++ hostname) rnd).y ≤ 70) := by
  have key : ∀ p, findRelatedPages s p = [] →
      (30 ≤ (getClusteredPosition s p rnd).x ∧ (getClusteredPosition s p rnd).x ≤ 70)
        ∧ (30 ≤ (getClusteredPosition s p rnd).y ∧ (getClusteredPosition s p rnd).y ≤ 70) := by
    intro p hp
    rw [getClusteredPosition_of_no_related hp]
    exact ⟨getRandomPosition_bounds 30 70 _ (by norm_num) hr1,
      getRandomPosition_bounds 30 70 _ (by norm_num) hr2⟩
  refine ⟨key pageId, fun hostname => ?_⟩
  have := key _ (findRelatedPages_web s hostname)
  exact ⟨mockPages_web hostname, this.1, this.2⟩

theorem default_position_in_box_witness :
    ((0 ≤ rndHalf.r1 ∧ rndHalf.r1 < 1) ∧ (0 ≤ rndHalf.r2 ∧ rndHalf.r2 < 1))
      ∧ ((findRelatedPages (State.empty "" true) "home" = [] →
          (30 ≤ (getClusteredPosition (State.empty "" true) "home" rndHalf).x
              ∧ (getClusteredPosition (State.empty "" true) "home" rndHalf).x ≤ 70)
            ∧ (30 ≤ (getClusteredPosition (State.empty "" true) "home" rndHalf).y
              ∧ (getClusteredPosition (State.empty "" true) "home" rndHalf).y ≤ 70))
        ∧ ∀ hostname : String,
            Dict.get mockPages ("web:" ++ hostname) = none
              ∧ (30 ≤ (getClusteredPosition (State.empty "" true) ("web:" ++ hostname) rndHalf).x
                ∧ (getClusteredPosition (State.empty "" true) ("web:" ++ hostname) rndHalf).x
                  ≤ 70)
              ∧ (30 ≤ (getClusteredPosition (State.empty "" true) ("web:" ++ hostname) rndHalf).y
                ∧ (getClusteredPosition (State.empty "" true) ("web:" ++ hostname) rndHalf).y
                  ≤ 70)) :=
  ⟨⟨by norm_num [rndHalf], by norm_num [rndHalf]⟩,
    default_position_in_box (State.empty "" true) "home" rndHalf (by norm_num [rndHalf])
      (by norm_num [rndHalf])⟩

/-! ## Clustered positions -/

theorem sumRelated_foldl (s : State) (ps : List PageId) (acc : ℚ × ℚ × Nat) :
    ps.foldl
        (fun acc relatedPageId =>
          match Dict.get s.pageNeurons relatedPageId with
          | some relatedNeuronId =>
            match Dict.get s.neurons relatedNeuronId with
            | some neuron => (acc.1 + neuron.left, acc.2.1 + neuron.top, acc.2.2 + 1)
            | none => acc
          | none => acc)
        acc
      = (acc.1 + ((ps.filterMap
            (fun p => (Dict.get s.pageNeurons p).bind (fun n => Dict.get s.neurons n))).map
              (fun n => n.left)).sum,
          acc.2.1 + ((ps.filterMap
            (fun p => (Dict.get s.pageNeurons p).bind (fun n => Dict.get s.neurons n))).map
              (fun n => n.top)).sum,
          acc.2.2 + (ps.filterMap
            (fun p => (Dict.get s.pageNeurons p).bind (fun n => Dict.get s.neurons n))).length) := by
  induction ps generalizing acc with
  | nil => simp
  | cons p rest ih =>
    rw [List.foldl_cons, ih]
    cases hf : (Dict.get s.pageNeurons p).bind (fun n => Dict.get s.neurons n) with
    | none =>
      simp only [List.filterMap_cons, hf]
      cases hp : Dict.get s.pageNeurons p with
      | none => rfl
      | some n =>
        rw [hp] at hf
        have hn : Dict.get s.neurons n = none := hf
        simp only [hn]
    | some neuron =>
      simp only [List.filterMap_cons, hf]
      cases hp : Dict.get s.pageNeurons p with
      | none => rw [hp] at hf; cases hf
      | some n =>
        rw [hp] at hf
        have hn : Dict.get s.neurons n = some neuron := hf
        simp only [hn, List.map_cons, List.sum_cons, List.length_cons]
        refine Prod.ext ?_ (Prod.ext ?_ ?_)
        · simp only [add_assoc]
        · simp only [add_assoc]
        · simp only []
          omega

theorem sumRelated_eq (s : State) (pageId : PageId) :
    sumRelated s (findRelatedPages s pageId)
      = (((relatedNeurons s pageId).map (fun n => n.left)).sum,
          ((relatedNeurons s pageId).map (fun n => n.top)).sum,
          (relatedNeurons s pageId).length) := by
  unfold sumRelated relatedNeurons
  refine (sumRelated_foldl s _ (0, 0, 0)).trans ?_
  simp

theorem getClusteredPosition_of_related {s : State} {pageId : PageId}
    (h : relatedNeurons s pageId ≠ []) (rnd : Rnd) :
    getClusteredPosition s pageId rnd
      = { x := max 10 (min 90 (relatedMeanX s pageId + getRandomPosition (-10) 10 rnd.r3)),
          y := max 10 (min 90 (relatedMeanY s pageId + getRandomPosition (-10) 10 rnd.r4)) } := by
  have hlen : 0 < (relatedNeurons s pageId).length := List.length_pos.2 h
  have hpages : (findRelatedPages s pageId).length > 0 := by
    apply List.length_pos.2
    intro hnil
    apply h
    unfold relatedNeurons
    rw [hnil]
    rfl
  unfold getClusteredPosition
  simp only [hpages, if_true, sumRelated_eq, hlen, gt_iff_lt]
  simp [relatedMeanX, relatedMeanY, mean]

theorem clamp_bounds (v : ℚ) : 10 ≤ max 10 (min 90 v) ∧ max 10 (min 90 v) ≤ 90 :=
  ⟨le_max_left _ _, max_le (by norm_num) (min_le_left _ _)⟩

theorem clamp_near (m j : ℚ) (hj : -10 ≤ j ∧ j ≤ 10) (hlo : 20 ≤ m) (hhi : m ≤ 80) :
    |max 10 (min 90 (m + j)) - m| ≤ 10 := by
  have h1 : min 90 (m + j) = m + j := min_eq_right (by linarith [hj.2])
  have h2 : max 10 (m + j) = m + j := max_eq_right (by linarith [hj.1])
  rw [h1, h2, abs_le]
  constructor <;> linarith [hj.1, hj.2]

/-- C23. When `getClusteredPosition(pageId)` finds a related page with a live
neuron, then for all draws in `[0, 1)` each coordinate of the position it
returns is `max(10, min(90, m + j))`, `m` being the arithmetic mean of the
coordinates of the related neurons on that axis and `j`, the value of
`getRandomPosition(-10, 10)`, lying in `[-10, 10]`; so each coordinate lies in
`[10, 90]`, and within 10 of `m` when `m` is in `[20, 80]`. -/
theorem clustered_position (s : State) (pageId : PageId) (rnd : Rnd)
    (hrelated : relatedNeurons s pageId ≠ [])
    (hr3 : 0 ≤ rnd.r3 ∧ rnd.r3 < 1) (hr4 : 0 ≤ rnd.r4 ∧ rnd.r4 < 1) :
    ((getClusteredPosition s pageId rnd).x
          = max 10 (min 90 (relatedMeanX s pageId + getRandomPosition (-10) 10 rnd.r3))
        ∧ (getClusteredPosition s pageId rnd).y
          = max 10 (min 90 (relatedMeanY s pageId + getRandomPosition (-10) 10 rnd.r4)))
      ∧ ((-10 ≤ getRandomPosition (-10) 10 rnd.r3 ∧ getRandomPosition (-10) 10 rnd.r3 ≤ 10)
        ∧ (-10 ≤ getRandomPosition (-10) 10 rnd.r4 ∧ getRandomPosition (-10) 10 rnd.r4 ≤ 10))
      ∧ ((10 ≤ (getClusteredPosition s pageId rnd).x ∧ (getClusteredPosition s pageId rnd).x ≤ 90)
        ∧ (10 ≤ (getClusteredPosition s pageId rnd).y
          ∧ (getClusteredPosition s pageId rnd).y ≤ 90))
      ∧ (20 ≤ relatedMeanX s pageId → relatedMeanX s pageId ≤ 80 →
          |(getClusteredPosition s pageId rnd).x - relatedMeanX s pageId| ≤ 10)
      ∧ (20 ≤ relatedMeanY s pageId → relatedMeanY s pageId ≤ 80 →
          |(getClusteredPosition s pageId rnd).y - relatedMeanY s pageId| ≤ 10) := by
  have hj3 := getRandomPosition_bounds (-10) 10 rnd.r3 (by norm_num) hr3
  have hj4 := getRandomPosition_bounds (-10) 10 rnd.r4 (by norm_num) hr4
  rw [getClusteredPosition_of_related hrelated]
  exact ⟨⟨rfl, rfl⟩, ⟨hj3, hj4⟩, ⟨clamp_bounds _, clamp_bounds _⟩,
    fun hlo hhi => clamp_near _ _ hj3 hlo hhi, fun hlo hhi => clamp_near _ _ hj4 hlo hhi⟩

set_option maxRecDepth 100000 in
theorem clusterState_related :
    findRelatedPages clusterState "navigation" = ["search", "features"] := by
  decide

theorem clusterState_means :
    relatedMeanX clusterState "navigation" = 50 ∧ relatedMeanY clusterState "navigation" = 50 := by
  unfold relatedMeanX relatedMeanY relatedNeurons
  rw [clusterState_related]
  simp [clusterState, State.empty, Dict.get, mean]
  norm_num

theorem clusterState_relatedNeurons : relatedNeurons clusterState "navigation" ≠ [] := by
  unfold relatedNeurons
  rw [clusterState_related]
  simp [clusterState, State.empty, Dict.get]

theorem clustered_position_witness :
    (relatedNeurons clusterState "navigation" ≠ []
        ∧ (0 ≤ rndHalf.r3 ∧ rndHalf.r3 < 1) ∧ (0 ≤ rndHalf.r4 ∧ rndHalf.r4 < 1)
        ∧ relatedMeanX clusterState "navigation" = 50
        ∧ relatedMeanY clusterState "navigation" = 50)
      ∧ (((getClusteredPosition clusterState "navigation" rndHalf).x
            = max 10 (min 90 (relatedMeanX clusterState "navigation"
                + getRandomPosition (-10) 10 rndHalf.r3))
          ∧ (getClusteredPosition clusterState "navigation" rndHalf).y
            = max 10 (min 90 (relatedMeanY clusterState "navigation"
                + getRandomPosition (-10) 10 rndHalf.r4)))
        ∧ ((-10 ≤ getRandomPosition (-10) 10 rndHalf.r3
            ∧ getRandomPosition (-10) 10 rndHalf.r3 ≤ 10)
          ∧ (-10 ≤ getRandomPosition (-10) 10 rndHalf.r4
            ∧ getRandomPosition (-10) 10 rndHalf.r4 ≤ 10))
        ∧ ((10 ≤ (getClusteredPosition clusterState "navigation" rndHalf).x
            ∧ (getClusteredPosition clusterState "navigation" rndHalf).x ≤ 90)
          ∧ (10 ≤ (getClusteredPosition clusterState "navigation" rndHalf).y
            ∧ (getClusteredPosition clusterState "navigation" rndHalf).y ≤ 90))
        ∧ (20 ≤ relatedMeanX clusterState "navigation" →
            relatedMeanX clusterState "navigation" ≤ 80 →
            |(getClusteredPosition clusterState "navigation" rndHalf).x
              - relatedMeanX clusterState "navigation"| ≤ 10)
        ∧ (20 ≤ relatedMeanY clusterState "navigation" →
            relatedMeanY clusterState "navigation" ≤ 80 →
            |(getClusteredPosition clusterState "navigation" rndHalf).y
              - relatedMeanY clusterState "navigation"| ≤ 10)) :=
  ⟨⟨clusterState_relatedNeurons, by norm_num [rndHalf], by norm_num [rndHalf],
      clusterState_means.1, clusterState_means.2⟩,
    clustered_position clusterState "navigation" rndHalf clusterState_relatedNeurons
      (by norm_num [rndHalf]) (by norm_num [rndHalf])⟩

/-! ## Properties kept by every entry point -/

theorem kept_navigateSynapse {P : State → Prop} (k : Kept P) {s : State} (h : P s)
    (pageId oldPageId : PageId) (oldNeuronId : Option NeuronId) (neuronId : NeuronId)
    (sourceNeuronId : Option NeuronId) (withSynapse : Bool) :
    P (navigateSynapse s pageId oldPageId oldNeuronId neuronId sourceNeuronId withSynapse) := by
  unfold navigateSynapse
  split
  · exact k.createSynapse s _ _ h
  · split
    · exact k.createSynapse s _ _ h
    · exact h

theorem kept_navigateTo {P : State → Prop} (k : Kept P) {s : State} (h : P s)
    (pageId : PageId) (tabId : Option TabId) (sourceNeuronId : Option NeuronId)
    (withSynapse : Bool) (rnd : Rnd) :
    P (navigateTo s pageId tabId sourceNeuronId withSynapse rnd).state := by
  cases ht : (tabId <|> s.activeTabId) with
  | none => rw [navigateTo_of_no_target ht]; exact h
  | some t =>
    cases hpage : Dict.get mockPages pageId with
    | none => rw [navigateTo_of_unknown_page hpage]; exact h
    | some page =>
      cases htab : Dict.get s.tabs t with
      | none => rw [navigateTo_of_closed_tab ht hpage htab]; exact h
      | some tab =>
        rw [navigateTo_eq ht hpage htab]
        simp only [Outcome.state]
        apply k.activateTab
        apply kept_navigateSynapse k
        apply k.setTabs
        exact k.createNeuron s _ _ _ _ h

theorem kept_createNewTab {P : State → Prop} (k : Kept P) {s : State} (h : P s) (rnd : Rnd) :
    P (createNewTab s rnd).1 := by
  rw [createNewTab_eq]
  apply kept_navigateTo k
  unfold openedTab
  apply k.activateTab
  exact k.setTabs { s with lastTabId := s.lastTabId + 1 } _ (k.setLastTabId s _ h)

theorem kept_navigateToRealUrl {P : State → Prop} (k : Kept P) {s : State} (h : P s)
    (url : String) (hostname : Option String) (rndTab rnd : Rnd) :
    P (navigateToRealUrl s url hostname rndTab rnd).state := by
  unfold navigateToRealUrl
  simp only [findOrCreateNeuronForDomain_eq]
  have h0 : P (if s.activeTabId = none then (createNewTab s rndTab).1 else s) := by
    split
    · exact kept_createNewTab k h rndTab
    · exact h
  generalize (if s.activeTabId = none then (createNewTab s rndTab).1 else s) = s0 at h0 ⊢
  generalize hostname.getD (withProtocol url) = domain
  have h1 := k.createNeuron s0 ("web:" ++ domain) domain none rnd h0
  split
  · exact h1
  · split
    · exact h1
    · simp only [Outcome.state]
      apply k.activateTab
      split
      · exact k.createSynapse _ _ _ (k.setTabs _ _ h1)
      · exact k.setTabs _ _ h1

theorem kept_activatePageNeuron {P : State → Prop} (k : Kept P) {s : State} (h : P s)
    (pageId : PageId) (rndTab rnd : Rnd) :
    P (activatePageNeuron s pageId rndTab rnd).state := by
  unfold activatePageNeuron
  split
  · exact k.activateTab s _ h
  · split
    · exact kept_navigateTo k h _ _ _ _ _
    · exact kept_navigateTo k (kept_createNewTab k h rndTab) _ _ _ _ _

theorem kept_connectToCurrent {P : State → Prop} (k : Kept P) {s : State} (h : P s)
    (neuronId : NeuronId) (pageId : PageId) :
    P (connectToCurrent s neuronId pageId).state := by
  unfold connectToCurrent
  split
  · exact h
  · split
    · exact h
    · simp only
      split
      · split
        · exact k.createSynapse s _ _ h
        · exact h
      · exact h

theorem kept_restoreNeurons {P : State → Prop} (k : Kept P) {s : State} (h : P s)
    (saved : Dict NeuronId NeuronData) (rnd : Rnd) : P (restoreNeurons s saved rnd) := by
  unfold restoreNeurons
  induction saved generalizing s with
  | nil => exact h
  | cons e rest ih =>
    rw [List.foldl_cons]
    apply ih
    split
    · exact h
    · exact k.createNeuron s _ _ _ _ h

theorem kept_restoreSynapses {P : State → Prop} (k : Kept P) {s : State} (h : P s)
    (saved : List SynapseId) : P (restoreSynapses s saved) := by
  unfold restoreSynapses
  induction saved generalizing s with
  | nil => exact h
  | cons e rest ih =>
    rw [List.foldl_cons]
    exact ih (k.createSynapse s _ _ h)

theorem kept_loadFromLocalStorage {P : State → Prop} (k : Kept P) {s : State} (h : P s)
    (stored : Option SaveData) (rnd : Rnd) : P (loadFromLocalStorage s stored rnd) := by
  cases stored with
  | none => exact h
  | some data =>
    rw [loadFromLocalStorage_some]
    have h1 : P (withConfig s data.config) := by
      unfold withConfig
      split
      · exact k.setConfig s _ h
      · exact h
    have h3 := kept_restoreSynapses k (kept_restoreNeurons k h1 data.neurons rnd) data.synapses
    generalize restoreSynapses (restoreNeurons (withConfig s data.config) data.neurons rnd)
      data.synapses = final at h3 ⊢
    exact k.setLastTabId { final with lastNeuronId := max final.lastNeuronId data.lastNeuronId }
      (max final.lastTabId data.lastTabId) (k.setLastNeuronId final _ h3)

theorem kept_step {P : State → Prop} (k : Kept P) {s : State} (h : P s) (op : Op) :
    P (step s op) := by
  cases op with
  | createNeuron pageId title position rnd => exact k.createNeuron s _ _ _ _ h
  | createSynapse fromId toId => exact k.createSynapse s _ _ h
  | removeNeuron neuronId => exact k.removeNeuron s _ h
  | createNewTab rnd => exact kept_createNewTab k h _
  | activateTab tabId => exact k.activateTab s _ h
  | closeTab tabId => exact k.closeTab s _ h
  | navigateTo pageId tabId sourceNeuronId withSynapse rnd => exact kept_navigateTo k h _ _ _ _ _
  | navigateToRealUrl url hostname rndTab rnd => exact kept_navigateToRealUrl k h _ _ _ _
  | activatePageNeuron pageId rndTab rnd => exact kept_activatePageNeuron k h _ _ _
  | connectToCurrent neuronId =>
    show P (match Dict.get s.neurons neuronId with
      | some neuron => (connectToCurrent s neuronId neuron.pageId).state
      | none => s)
    split
    · exact kept_connectToCurrent k h _ _
    · exact h
  | dragNeuron neuronId deltaX deltaY offsetWidth offsetHeight =>
    exact k.dragNeuron s _ _ _ _ _ h
  | loadFromLocalStorage stored rnd => exact kept_loadFromLocalStorage k h _ _

theorem kept_run {P : State → Prop} (k : Kept P) {s : State} (h : P s) (ops : List Op) :
    P (run s ops) := by
  unfold run
  induction ops generalizing s with
  | nil => exact h
  | cons op rest ih => exact ih (kept_step k h op)

/-! ## The minimap as a projection of the graph -/

theorem layout_eq_graph (s : State) :
    s.layout = Dict.mapVals (fun d : NeuronData => (d.left, d.top)) s.graph := by
  unfold State.layout State.graph
  rw [Dict.mapVals_mapVals]
  rfl

theorem layout_of_graph {s s' : State} (h : s'.graph = s.graph) : s'.layout = s.layout := by
  rw [layout_eq_graph, layout_eq_graph, h]

theorem activateTab_miniLayout (s : State) (t : TabId) :
    (activateTab s t).miniLayout = s.miniLayout := by
  unfold activateTab State.miniLayout
  split
  · rfl
  · simp [Dict.mapVals, syncMinimapStates, List.map_map, Function.comp_def]

theorem activateTab_minimapSynapses (s : State) (t : TabId) :
    (activateTab s t).minimapSynapses = s.minimapSynapses := by
  unfold activateTab; split <;> rfl

theorem clearTabNeuron_miniLayout (s : State) (t : TabId) :
    (clearTabNeuron s t).miniLayout = s.miniLayout := by
  unfold clearTabNeuron State.miniLayout
  split
  · rfl
  · split
    · rfl
    · split
      · rfl
      · apply Dict.mapVals_modify_same
        intro v
        rfl

theorem clearTabNeuron_minimapSynapses (s : State) (t : TabId) :
    (clearTabNeuron s t).minimapSynapses = s.minimapSynapses := by
  unfold clearTabNeuron; (repeat' split) <;> rfl

theorem closeTab_miniLayout (s : State) (t : TabId) :
    (closeTab s t).miniLayout = s.miniLayout := by
  unfold closeTab
  simp only
  split
  · split
    · rw [activateTab_miniLayout]
      exact clearTabNeuron_miniLayout s t
    · exact clearTabNeuron_miniLayout s t
  · exact clearTabNeuron_miniLayout s t

theorem closeTab_minimapSynapses (s : State) (t : TabId) :
    (closeTab s t).minimapSynapses = s.minimapSynapses := by
  unfold closeTab
  simp only
  split
  · split
    · rw [activateTab_minimapSynapses]
      exact clearTabNeuron_minimapSynapses s t
    · exact clearTabNeuron_minimapSynapses s t
  · exact clearTabNeuron_minimapSynapses s t

theorem mini_activateTab {s : State} (h : Mini s) (t : TabId) : Mini (activateTab s t) :=
  ⟨by rw [activateTab_minimap]; exact h.flag,
    by rw [activateTab_miniLayout, layout_of_graph (activateTab_graph s t)]; exact h.layout,
    by rw [activateTab_minimapSynapses, activateTab_synapses]; exact h.synapses⟩

theorem mini_closeTab {s : State} (h : Mini s) (t : TabId) : Mini (closeTab s t) :=
  ⟨by rw [closeTab_minimap]; exact h.flag,
    by rw [closeTab_miniLayout, layout_of_graph (closeTab_graph s t)]; exact h.layout,
    by rw [closeTab_minimapSynapses, closeTab_synapses]; exact h.synapses⟩

theorem mini_foldl_closeTab {s : State} (h : Mini s) (ts : List TabId) :
    Mini (ts.foldl closeTab s) := by
  induction ts generalizing s with
  | nil => exact h
  | cons t rest ih => exact ih (mini_closeTab h t)

theorem mini_createSynapse {s : State} (h : Mini s) (a b : NeuronId) :
    Mini (createSynapse s a b) := by
  unfold createSynapse
  split
  · exact h
  · rename_i hmem
    split
    · rename_i na nb ha hb
      have hmini : (a, b) ∉ s.minimapSynapses := by rw [h.synapses]; exact hmem
      unfold addSynapseToMinimap
      simp only [h.flag, if_true, ha, hb, hmini, if_false]
      exact ⟨rfl, h.layout, by show _ ++ _ = _ ++ _; rw [h.synapses]⟩
    · exact h

theorem mini_createNeuron {s : State} (h : Mini s) (pageId : PageId) (title : String)
    (position : Option Position) (rnd : Rnd) :
    Mini (createNeuron s pageId title position rnd).1 := by
  unfold createNeuron
  split
  · exact h
  · simp only
    unfold addNeuronToMinimap
    simp only [h.flag, if_true, Dict.get_set_self]
    refine ⟨rfl, ?_, h.synapses⟩
    show Dict.mapVals _ (Dict.set s.minimapNeurons _ _) = Dict.mapVals _ (Dict.set s.neurons _ _)
    rw [Dict.mapVals_set, Dict.mapVals_set]
    show Dict.set s.miniLayout _ _ = Dict.set s.layout _ _
    rw [h.layout]

theorem removeSynapses_minimapSynapses {s : State} (h : s.minimapSynapses = s.synapses)
    (l : List SynapseId) : (removeSynapses s l).minimapSynapses = (removeSynapses s l).synapses := by
  unfold removeSynapses
  induction l generalizing s with
  | nil => exact h
  | cons sid rest ih =>
    rw [List.foldl_cons]
    apply ih
    split
    · show s.minimapSynapses.erase sid = s.synapses.erase sid
      rw [h]
    · exact h

theorem removeSynapses_minimapNeurons (s : State) (l : List SynapseId) :
    (removeSynapses s l).minimapNeurons = s.minimapNeurons := by
  unfold removeSynapses
  induction l generalizing s with
  | nil => rfl
  | cons sid rest ih =>
    rw [List.foldl_cons, ih]
    split <;> rfl

theorem mini_removeNeuron {s : State} (h : Mini s) (n : NeuronId) : Mini (removeNeuron s n) := by
  unfold removeNeuron
  split
  · exact h
  · simp only
    have h1 := mini_foldl_closeTab h
      (Dict.keys (s.tabs.filter (fun e => decide (e.2.neuronId = some n))))
    generalize (Dict.keys (s.tabs.filter (fun e => decide (e.2.neuronId = some n)))).foldl
      closeTab s = s1 at h1 ⊢
    generalize hl : s1.synapses.filter
      (fun sid => decide (sid.1 = n) || decide (sid.2 = n)) = l
    have hsyn := removeSynapses_minimapSynapses h1.synapses l
    have hmm := removeSynapses_minimapNeurons s1 l
    have hnn := removeSynapses_neurons s1 l
    have hflag := removeSynapses_minimap s1 l
    generalize removeSynapses s1 l = s2 at hsyn hmm hnn hflag ⊢
    have hlay : Dict.mapVals (fun m : MinimapNeuron => (m.left, m.top))
          (Dict.delete s2.minimapNeurons n)
        = Dict.mapVals (fun x : Neuron => (x.left, x.top)) (Dict.delete s2.neurons n) := by
      rw [Dict.mapVals_delete, Dict.mapVals_delete, hmm, hnn]
      show Dict.delete s1.miniLayout n = Dict.delete s1.layout n
      rw [h1.layout]
    split
    · exact ⟨hflag.trans h1.flag, hlay, hsyn⟩
    · exact ⟨hflag.trans h1.flag, hlay, hsyn⟩

theorem updateMinimapConnectedSynapses_eq_self {s : State}
    (h : s.minimapSynapses = s.synapses) (n : NeuronId) :
    updateMinimapConnectedSynapses s n = s := by
  unfold updateMinimapConnectedSynapses
  split
  · have key : ∀ l : List SynapseId, (∀ sid ∈ l, sid ∈ s.minimapSynapses) →
        l.foldl
          (fun st sid =>
            if sid.1 = n ∨ sid.2 = n then
              if sid ∈ st.minimapSynapses then st else addSynapseToMinimap st sid.1 sid.2
            else st)
          s = s := by
      intro l
      induction l with
      | nil => intro _; rfl
      | cons sid rest ih =>
        intro hall
        rw [List.foldl_cons]
        have hsid : sid ∈ s.minimapSynapses := hall sid (List.mem_cons_self _ _)
        simp only [hsid, if_true, ite_self]
        exact ih (fun x hx => hall x (List.mem_cons_of_mem _ hx))
    exact key s.synapses (fun sid hsid => by rw [h]; exact hsid)
  · rfl

theorem mini_updateMinimapConnectedSynapses {s : State} (h : Mini s) (n : NeuronId) :
    Mini (updateMinimapConnectedSynapses s n) := by
  rw [updateMinimapConnectedSynapses_eq_self h.synapses]
  exact h

theorem mini_dragNeuron {s : State} (h : Mini s) (n : NeuronId)
    (deltaX deltaY offsetWidth offsetHeight : ℚ) :
    Mini (dragNeuron s n deltaX deltaY offsetWidth offsetHeight) := by
  unfold dragNeuron
  split
  · exact h
  · rename_i neuron hn
    simp only
    have hkeys : Dict.keys s.minimapNeurons = Dict.keys s.neurons := by
      have := congrArg Dict.keys h.layout
      simpa [State.miniLayout, State.layout] using this
    have hmem : n ∈ Dict.keys s.minimapNeurons := by
      rw [hkeys]
      exact (Dict.mem_keys_iff _ _).2 ⟨neuron, hn⟩
    obtain ⟨m, hm⟩ := (Dict.mem_keys_iff _ _).1 hmem
    unfold updateMinimapNeuron
    simp only [h.flag, if_true, Dict.get_set_self, hm]
    apply mini_updateMinimapConnectedSynapses
    refine ⟨rfl, ?_, h.synapses⟩
    show Dict.mapVals _ (Dict.set s.minimapNeurons _ _) = Dict.mapVals _ (Dict.set s.neurons _ _)
    rw [Dict.mapVals_set, Dict.mapVals_set]
    show Dict.set s.miniLayout _ _ = Dict.set s.layout _ _
    rw [h.layout]

theorem kept_mini : Kept Mini where
  activateTab := fun _ t h => mini_activateTab h t
  closeTab := fun _ t h => mini_closeTab h t
  createSynapse := fun _ a b h => mini_createSynapse h a b
  createNeuron := fun _ pageId title position rnd h => mini_createNeuron h pageId title position rnd
  removeNeuron := fun _ n h => mini_removeNeuron h n
  dragNeuron := fun _ n dx dy w hh h => mini_dragNeuron h n dx dy w hh
  setTabs := fun _ _ h => ⟨h.flag, h.layout, h.synapses⟩
  setLastTabId := fun _ _ h => ⟨h.flag, h.layout, h.synapses⟩
  setLastNeuronId := fun _ _ h => ⟨h.flag, h.layout, h.synapses⟩
  setConfig := fun _ _ h => ⟨h.flag, h.layout, h.synapses⟩

/-- C28. With a minimap element in the document, in every state reached in a
session (neuron creation, dragging, removal, synapse creation, navigation,
restore and the other constructors of `Op`) the keys of `minimapNeurons` are
the keys of `neurons`, in the same order, every minimap neuron has the
position of its neuron, and the keys of `minimapSynapses` are the keys of
`synapses`. -/
theorem minimap_mirrors_graph (templateLabel : String) (ops : List Op) :
    Dict.keys (run (State.empty templateLabel true) ops).minimapNeurons
        = Dict.keys (run (State.empty templateLabel true) ops).neurons
      ∧ (∀ n neuron,
          Dict.get (run (State.empty templateLabel true) ops).neurons n = some neuron →
          ∃ m, Dict.get (run (State.empty templateLabel true) ops).minimapNeurons n = some m
            ∧ m.left = neuron.left ∧ m.top = neuron.top)
      ∧ (run (State.empty templateLabel true) ops).minimapSynapses
          = (run (State.empty templateLabel true) ops).synapses := by
  have h : Mini (run (State.empty templateLabel true) ops) :=
    kept_run kept_mini (show Mini (State.empty templateLabel true) from ⟨rfl, rfl, rfl⟩) ops
  generalize run (State.empty templateLabel true) ops = s at h ⊢
  have hkeys : Dict.keys s.minimapNeurons = Dict.keys s.neurons := by
    have := congrArg Dict.keys h.layout
    simpa [State.miniLayout, State.layout] using this
  refine ⟨hkeys, ?_, h.synapses⟩
  intro n neuron hn
  have hget := congrArg (fun d => Dict.get d n) h.layout
  simp only [State.miniLayout, State.layout, Dict.get_mapVals, hn, Option.map_some'] at hget
  cases hm : Dict.get s.minimapNeurons n with
  | none => rw [hm] at hget; cases hget
  | some m =>
    rw [hm] at hget
    simp only [Option.map_some', Option.some.injEq, Prod.mk.injEq] at hget
    exact ⟨m, rfl, hget.1, hget.2⟩

/-! ## The view scale through a session -/

theorem activateTab_brainScale (s : State) (t : TabId) :
    (activateTab s t).brainScale = s.brainScale := by
  unfold activateTab; split <;> rfl

theorem clearTabNeuron_brainScale (s : State) (t : TabId) :
    (clearTabNeuron s t).brainScale = s.brainScale := by
  unfold clearTabNeuron; (repeat' split) <;> rfl

theorem closeTab_brainScale (s : State) (t : TabId) :
    (closeTab s t).brainScale = s.brainScale := by
  unfold closeTab
  simp only
  split
  · split
    · rw [activateTab_brainScale]
      exact clearTabNeuron_brainScale s t
    · exact clearTabNeuron_brainScale s t
  · exact clearTabNeuron_brainScale s t

theorem addSynapseToMinimap_brainScale (s : State) (a b : NeuronId) :
    (addSynapseToMinimap s a b).brainScale = s.brainScale := by
  unfold addSynapseToMinimap; (repeat' split) <;> rfl

theorem createSynapse_brainScale (s : State) (a b : NeuronId) :
    (createSynapse s a b).brainScale = s.brainScale := by
  unfold createSynapse
  split
  · rfl
  · split
    · rw [addSynapseToMinimap_brainScale]
    · rfl

theorem addNeuronToMinimap_brainScale (s : State) (n : NeuronId) :
    (addNeuronToMinimap s n).brainScale = s.brainScale := by
  unfold addNeuronToMinimap; (repeat' split) <;> rfl

theorem createNeuron_brainScale (s : State) (pageId : PageId) (title : String)
    (position : Option Position) (rnd : Rnd) :
    (createNeuron s pageId title position rnd).1.brainScale = s.brainScale := by
  unfold createNeuron
  split
  · rfl
  · simp only
    rw [addNeuronToMinimap_brainScale]

theorem removeSynapses_brainScale (s : State) (l : List SynapseId) :
    (removeSynapses s l).brainScale = s.brainScale := by
  unfold removeSynapses
  induction l generalizing s with
  | nil => rfl
  | cons sid rest ih =>
    rw [List.foldl_cons, ih]
    split <;> rfl

theorem foldl_closeTab_brainScale (ts : List TabId) (s : State) :
    (ts.foldl closeTab s).brainScale = s.brainScale := by
  induction ts generalizing s with
  | nil => rfl
  | cons t rest ih => rw [List.foldl_cons, ih, closeTab_brainScale]

theorem removeNeuron_brainScale (s : State) (n : NeuronId) :
    (removeNeuron s n).brainScale = s.brainScale := by
  unfold removeNeuron
  split
  · rfl
  · simp only
    split
    all_goals
      show (removeSynapses _ _).brainScale = _
      rw [removeSynapses_brainScale, foldl_closeTab_brainScale]

theorem foldl_addSynapseToMinimap_brainScale (n : NeuronId) (l : List SynapseId) (s : State) :
    (l.foldl
        (fun st sid =>
          if sid.1 = n ∨ sid.2 = n then
            if sid ∈ st.minimapSynapses then st else addSynapseToMinimap st sid.1 sid.2
          else st)
        s).brainScale = s.brainScale := by
  induction l generalizing s with
  | nil => rfl
  | cons sid rest ih =>
    rw [List.foldl_cons, ih]
    (repeat' split) <;> first | rfl | exact addSynapseToMinimap_brainScale _ _ _

theorem updateMinimapConnectedSynapses_brainScale (s : State) (n : NeuronId) :
    (updateMinimapConnectedSynapses s n).brainScale = s.brainScale := by
  unfold updateMinimapConnectedSynapses
  split
  · exact foldl_addSynapseToMinimap_brainScale n s.synapses s
  · rfl

theorem updateMinimapNeuron_brainScale (s : State) (n : NeuronId) :
    (updateMinimapNeuron s n).brainScale = s.brainScale := by
  unfold updateMinimapNeuron
  split
  · split
    · rw [updateMinimapConnectedSynapses_brainScale]
    · rfl
  · rfl

theorem dragNeuron_brainScale (s : State) (n : NeuronId)
    (deltaX deltaY offsetWidth offsetHeight : ℚ) :
    (dragNeuron s n deltaX deltaY offsetWidth offsetHeight).brainScale = s.brainScale := by
  unfold dragNeuron
  split
  · rfl
  · simp only
    rw [updateMinimapNeuron_brainScale]

theorem kept_brainScale (q : ℚ) : Kept (fun s => s.brainScale = q) where
  activateTab := fun s t h => (activateTab_brainScale s t).trans h
  closeTab := fun s t h => (closeTab_brainScale s t).trans h
  createSynapse := fun s a b h => (createSynapse_brainScale s a b).trans h
  createNeuron := fun s pageId title position rnd h =>
    (createNeuron_brainScale s pageId title position rnd).trans h
  removeNeuron := fun s n h => (removeNeuron_brainScale s n).trans h
  dragNeuron := fun s n dx dy w hh h => (dragNeuron_brainScale s n dx dy w hh).trans h
  setTabs := fun _ _ h => h
  setLastTabId := fun _ _ h => h
  setLastNeuronId := fun _ _ h => h
  setConfig := fun _ _ h => h

theorem step_brainScale (s : State) (op : Op) : (step s op).brainScale = s.brainScale :=
  kept_step (kept_brainScale s.brainScale) rfl op

/-- C26. From the state the constructor builds, where the scale is 1, after
any sequence of `zoomBrain(delta)` calls, with any rational `delta`, and
`resetBrainView()` calls, `0.5 <= brainScale <= 3`; a single `zoomBrain`
puts the scale in that range from any scale, and no entry point of `Op`
writes the scale. -/
theorem brainScale_within_bounds (templateLabel : String) (hasMinimap : Bool)
    (ops : List ViewOp) :
    (1 / 2 ≤ (runView (State.empty templateLabel hasMinimap) ops).brainScale
        ∧ (runView (State.empty templateLabel hasMinimap) ops).brainScale ≤ 3)
      ∧ (∀ (s : State) (delta : ℚ),
          1 / 2 ≤ (zoomBrain s delta).brainScale ∧ (zoomBrain s delta).brainScale ≤ 3)
      ∧ ∀ (s : State) (op : Op), (step s op).brainScale = s.brainScale := by
  refine ⟨runView_brainScale_bounds _ ops ?_, zoomBrain_brainScale_bounds, step_brainScale⟩
  show (1 / 2 : ℚ) ≤ 1 ∧ (1 : ℚ) ≤ 3
  constructor <;> norm_num

/-! ## Ids at the end of the exact range of a double -/

theorem increment_of_lt {n : Nat} (h : n < 9007199254740992) : Exact.increment n = n + 1 := by
  unfold Exact.increment
  rw [if_pos h]

/-- C8 fails on the code. Below `2^53` the expression `++counter` adds one, so
that a counter that bounds the live ids gives a fresh id.  With a stored
record whose `lastNeuronId` is `2^53`, `++this.lastNeuronId` leaves the
counter at `2^53`: `createNeuron('home', 'Home Page', {x: 1, y: 1})` returns
`neuron-9007199254740992`, and then `createNeuron('about', 'About', {x: 2,
y: 2})` returns that id again, the id of a live neuron, and stores the new
neuron in place of the first.  The counter has not decreased and bounds the
live ids. -/
theorem minted_id_is_live :
    (∀ n, n < 9007199254740992 → Exact.increment n = n + 1)
      ∧ Exact.increment 9007199254740992 = 9007199254740992
      ∧ afterNeuronCounter.lastNeuronId = 9007199254740992
      ∧ (Exact.createNeuron afterNeuronCounter "home" "Home Page" (some { x := 1, y := 1 })
          rndHalf).neuronId = some (.neuron 9007199254740992)
      ∧ Dict.keys (Exact.createNeuron afterNeuronCounter "home" "Home Page"
          (some { x := 1, y := 1 }) rndHalf).state.neurons = [9007199254740992]
      ∧ (Exact.createNeuron
          (Exact.createNeuron afterNeuronCounter "home" "Home Page" (some { x := 1, y := 1 })
            rndHalf).state
          "about" "About" (some { x := 2, y := 2 }) rndHalf).neuronId
          = some (.neuron 9007199254740992)
      ∧ (Exact.createNeuron
          (Exact.createNeuron afterNeuronCounter "home" "Home Page" (some { x := 1, y := 1 })
            rndHalf).state
          "about" "About" (some { x := 2, y := 2 }) rndHalf).state.neurons.map
          (fun e => (e.1, e.2.pageId)) = [(9007199254740992, "about")]
      ∧ (Exact.createNeuron
          (Exact.createNeuron afterNeuronCounter "home" "Home Page" (some { x := 1, y := 1 })
            rndHalf).state
          "about" "About" (some { x := 2, y := 2 }) rndHalf).state.lastNeuronId
          = 9007199254740992 :=
  ⟨fun _ h => increment_of_lt h, by decide, by decide, by decide, by decide, by decide,
    by decide, by decide⟩

set_option maxRecDepth 100000 in
/-- C1 fails on the code. With a stored record whose `lastNeuronId` is `2^53`,
`createNewTab()` gives `home` the neuron `neuron-9007199254740992` and
`navigateTo('about')` mints that id again: `pageNeurons` maps `home` and
`about` to the same neuron, the only live neuron, whose page is `about`, so
that `home` maps to a neuron of another page. -/
theorem pageNeurons_shares_neuron :
    sharedNeuronState.pageNeurons
        = [("home", 9007199254740992), ("about", 9007199254740992)]
      ∧ sharedNeuronState.neurons.map (fun e => (e.1, e.2.pageId))
        = [(9007199254740992, "about")]
      ∧ sharedNeuronState.tabs.map (fun e => (e.1, e.2.pageId, e.2.neuronId))
        = [(1, "about", some (.neuron 9007199254740992))] := by
  decide

/-- C16 fails on the code. With a stored record whose `lastTabId` is `2^53`,
`++this.lastTabId` leaves the counter at `2^53`: `createNewTab()` returns
`tab-9007199254740992`, and a second `createNewTab()` returns that id again,
the id of an open tab, whose data it overwrites; one tab is open, not two.
The tab returned is the active tab, on `home` and bound to the neuron of
`home`, as the claim says. -/
theorem createNewTab_returns_open_id :
    (Exact.createNewTab afterTabCounter rndHalf).2 = 9007199254740992
      ∧ Dict.keys (Exact.createNewTab afterTabCounter rndHalf).1.state.tabs
        = [9007199254740992]
      ∧ (Exact.createNewTab (Exact.createNewTab afterTabCounter rndHalf).1.state rndHalf).2
        = 9007199254740992
      ∧ (Exact.createNewTab (Exact.createNewTab afterTabCounter rndHalf).1.state rndHalf).1.raised
        = false
      ∧ (Exact.createNewTab (Exact.createNewTab afterTabCounter rndHalf).1.state
          rndHalf).1.state.tabs.map (fun e => (e.1, e.2.pageId, e.2.neuronId))
        = [(9007199254740992, "home", some (.neuron 1))]
      ∧ (Exact.createNewTab (Exact.createNewTab afterTabCounter rndHalf).1.state
          rndHalf).1.state.activeTabId = some 9007199254740992 := by
  decide

/-! ## Page ids inherited from `Object.prototype` -/

theorem navigateTo_of_undefined {s : Exact.State} {pageId : PageId}
    (h : Exact.lookup mockPages pageId = .undefined) (tabId : Option TabId)
    (sourceNeuronId : Option NeuronId) (withSynapse : Bool) (rnd : Rnd) :
    Exact.navigateTo s pageId tabId sourceNeuronId withSynapse rnd = .returned s := by
  unfold Exact.navigateTo
  cases tabId <|> s.activeTabId with
  | none => rfl
  | some t => simp only [h]

/-- C14 fails on the code. When the read `mockPages[pageId]` is `undefined`
(the id is no catalog key and no name inherited from `Object.prototype`),
`navigateTo` returns and leaves the whole state as it is.  The name
`constructor` is no catalog key, but the read is the inherited function and
the guard lets it pass: after `createNewTab()`, `navigateTo('constructor',
'tab-1')` returns without raising, binds `tab-1` to the page id `constructor`
with the inherited function as `neuronId` and an `undefined` title, and
`neuron-1` loses `active` and `current`. -/
theorem navigateTo_inherited_name_rebinds :
    (∀ (s : Exact.State) (pageId : PageId) (tabId : Option TabId)
        (sourceNeuronId : Option NeuronId) (withSynapse : Bool) (rnd : Rnd),
        Exact.lookup mockPages pageId = .undefined →
        Exact.navigateTo s pageId tabId sourceNeuronId withSynapse rnd = .returned s)
      ∧ Dict.get mockPages "constructor" = none
      ∧ oneTab.tabs.map (fun e => (e.1, e.2.pageId, e.2.neuronId))
        = [(1, "home", some (.neuron 1))]
      ∧ oneTab.neurons.map (fun e => (e.1, e.2.active, e.2.current)) = [(1, true, true)]
      ∧ (Exact.navigateTo oneTab "constructor" (some 1) none true rndHalf).raised = false
      ∧ (Exact.navigateTo oneTab "constructor" (some 1) none true rndHalf).state.tabs.map
          (fun e => (e.1, e.2.title, e.2.pageId, e.2.neuronId))
        = [(1, none, "constructor", some (.inherited "constructor"))]
      ∧ (Exact.navigateTo oneTab "constructor" (some 1) none true rndHalf).state.neurons.map
          (fun e => (e.1, e.2.active, e.2.current)) = [(1, false, false)] :=
  ⟨fun _ _ _ _ _ _ h => navigateTo_of_undefined h _ _ _ _, by decide, by decide, by decide,
    by decide, by decide, by decide⟩

/-- C9 fails on the code. After `createNewTab()` and `navigateTo('toString',
'tab-1')`, the open tab `tab-1` has the page id `toString` and a `neuronId`
that is not null, the function inherited under that name: it is the id of no
live neuron, no live neuron has the page `toString`, and `pageNeurons` has no
entry for it. -/
theorem tab_bound_to_inherited_value :
    (Exact.navigateTo oneTab "toString" (some 1) none true rndHalf).state.tabs.map
        (fun e => (e.1, e.2.pageId, e.2.neuronId))
        = [(1, "toString", some (.inherited "toString"))]
      ∧ (Exact.navigateTo oneTab "toString" (some 1) none true rndHalf).state.neurons.map
          (fun e => (e.1, e.2.pageId)) = [(1, "home")]
      ∧ (Exact.navigateTo oneTab "toString" (some 1) none true rndHalf).state.pageNeurons
        = [("home", 1)]
      ∧ (Exact.navigateTo oneTab "toString" (some 1) none true rndHalf).state.activeTabId
        = some 1 := by
  decide

/-! ## Relatedness of pages against the words of the specification -/

theorem beginsWith_iff (needle hay : List Char) : beginsWith needle hay = true ↔ needle <+: hay := by
  induction needle generalizing hay with
  | nil => simp [beginsWith]
  | cons a as ih =>
    cases hay with
    | nil => simp [beginsWith]
    | cons b bs =>
      rw [beginsWith, Bool.and_eq_true, ih, List.cons_prefix_cons]
      simp

theorem includesChars_iff (hay needle : List Char) :
    includesChars hay needle = true ↔ needle <:+: hay := by
  induction hay with
  | nil =>
    rw [includesChars, List.infix_nil]
    cases needle <;> simp
  | cons c cs ih =>
    rw [includesChars, Bool.or_eq_true, ih, beginsWith_iff, List.infix_cons_iff]

theorem linkReference_eq (pageId : PageId) :
    linkReference pageId = ("data-page-id=\"" ++ pageId ++ "\"").toList := by
  unfold linkReference
  simp [String.toList, String.data_append]

theorem splitWhitespaceGo_ne_nil (prevWs : Bool) (l : List Char) :
    Exact.splitWhitespaceGo prevWs l ≠ [] := by
  induction l generalizing prevWs with
  | nil => simp [Exact.splitWhitespaceGo]
  | cons c cs ih =>
    rw [Exact.splitWhitespaceGo]
    split
    · split
      · exact ih true
      · simp
    · split <;> simp

/-- The words `split(/\s+/)` gives and the pieces `List.splitOnP` gives differ
by empty words only: after white space the non-empty words are the same, and
otherwise the first word is the same as well. -/
theorem splitWhitespaceGo_splitOnP (l : List Char) :
    ((Exact.splitWhitespaceGo true l).filter (fun w => decide (w ≠ []))
        = (List.splitOnP isTrimmed l).filter (fun w => decide (w ≠ [])))
      ∧ ∃ w rest rest', Exact.splitWhitespaceGo false l = w :: rest
          ∧ List.splitOnP isTrimmed l = w :: rest'
          ∧ rest.filter (fun w => decide (w ≠ [])) = rest'.filter (fun w => decide (w ≠ [])) := by
  induction l with
  | nil =>
    exact ⟨by simp [Exact.splitWhitespaceGo], [], [], [], by simp [Exact.splitWhitespaceGo],
      by simp, rfl⟩
  | cons c cs ih =>
    obtain ⟨htrue, w, rest, rest', hfalse, hsplit, hrest⟩ := ih
    by_cases hc : isTrimmed c = true
    · have h1 : Exact.splitWhitespaceGo true (c :: cs) = Exact.splitWhitespaceGo true cs := by
        rw [Exact.splitWhitespaceGo]; simp [hc]
      have h2 : Exact.splitWhitespaceGo false (c :: cs)
          = [] :: Exact.splitWhitespaceGo true cs := by
        rw [Exact.splitWhitespaceGo]; simp [hc]
      have h3 : List.splitOnP isTrimmed (c :: cs) = [] :: List.splitOnP isTrimmed cs := by
        rw [List.splitOnP_cons]; simp [hc]
      refine ⟨?_, [], _, _, h2, h3, htrue⟩
      rw [h1, h3]
      simpa using htrue
    · have h1 : ∀ b, Exact.splitWhitespaceGo b (c :: cs) = (c :: w) :: rest := by
        intro b
        rw [Exact.splitWhitespaceGo]
        simp [hc, hfalse]
      have h3 : List.splitOnP isTrimmed (c :: cs) = (c :: w) :: rest' := by
        rw [List.splitOnP_cons, hsplit]; simp [hc]
      refine ⟨?_, c :: w, rest, rest', h1 false, h3, hrest⟩
      rw [h1 true, h3]
      simpa using hrest

theorem mem_splitWhitespace_iff (l : List Char) (w : List Char) (hw : w.length > 3) :
    w ∈ Exact.splitWhitespace l ↔ w ∈ List.splitOnP isTrimmed l := by
  obtain ⟨_, w0, rest, rest', hfalse, hsplit, hrest⟩ := splitWhitespaceGo_splitOnP l
  have hne : w ≠ [] := by
    intro h
    rw [h] at hw
    simp at hw
  have hmem : w ∈ rest ↔ w ∈ rest' := by
    have h1 : w ∈ rest.filter (fun w => decide (w ≠ [])) ↔ w ∈ rest := by simp [hne]
    have h2 : w ∈ rest'.filter (fun w => decide (w ≠ [])) ↔ w ∈ rest' := by simp [hne]
    rw [← h1, ← h2, hrest]
  unfold Exact.splitWhitespace
  rw [hfalse, hsplit, List.mem_cons, List.mem_cons, hmem]

theorem splitOnP_congr {p q : Char → Bool} (l : List Char) (h : ∀ c ∈ l, p c = q c) :
    List.splitOnP p l = List.splitOnP q l := by
  induction l with
  | nil => simp
  | cons c cs ih =>
    rw [List.splitOnP_cons, List.splitOnP_cons, ih (fun x hx => h x (List.mem_cons_of_mem _ hx)),
      h c (List.mem_cons_self _ _)]

/-- In the titles of the catalog the white space of `\s` is the white space of
`Char.isWhitespace`. -/
theorem catalog_title_whitespace :
    ∀ e ∈ mockPages, ∀ c ∈ e.2.title.toList.map Char.toLower, isTrimmed c = c.isWhitespace := by
  decide

theorem mockPages_nodup : (Dict.keys mockPages).Nodup := by
  decide

theorem mem_titleWords_iff {pageId : PageId} {page : Page} (hpage : (pageId, page) ∈ mockPages)
    (w : List Char) :
    w ∈ Exact.titleWords page.title
      ↔ w ∈ List.splitOnP Char.isWhitespace page.title.toLower.toList ∧ w.length > 3 := by
  have hlower : page.title.toLower.toList = page.title.toList.map Char.toLower := by
    simp [String.toLower, String.map_eq, String.toList]
  unfold Exact.titleWords
  rw [List.mem_filter, hlower, ← splitOnP_congr _ (catalog_title_whitespace _ hpage)]
  constructor
  · rintro ⟨hmem, hlen⟩
    have hlen := of_decide_eq_true hlen
    exact ⟨(mem_splitWhitespace_iff _ w hlen).1 hmem, hlen⟩
  · rintro ⟨hmem, hlen⟩
    exact ⟨(mem_splitWhitespace_iff _ w hlen).2 hmem, decide_eq_true hlen⟩

theorem lookup_eq_own_iff {α : Type} (m : Dict String α) (key : String) (value : α) :
    Exact.lookup m key = .own value ↔ Dict.get m key = some value := by
  unfold Exact.lookup
  cases Dict.get m key with
  | none =>
    dsimp only
    split <;> simp
  | some v => simp

theorem RelatedBySpec.spec_symm {a b : PageId} (h : RelatedBySpec a b) : RelatedBySpec b a := by
  obtain ⟨pa, pb, ha, hb, h⟩ := h
  refine ⟨pb, pa, hb, ha, ?_⟩
  rcases h with ⟨w, h1, h2, hlen⟩ | h | h
  · exact Or.inl ⟨w, h2, h1, hlen⟩
  · exact Or.inr (Or.inr h)
  · exact Or.inr (Or.inl h)

theorem pagesAreRelated_true_iff (a b : PageId) :
    Exact.pagesAreRelated a b = some true ↔ RelatedBySpec a b := by
  have own_of_mem : ∀ {k : PageId} {p : Page}, (k, p) ∈ mockPages →
      Exact.lookup mockPages k = .own p := fun h =>
    (lookup_eq_own_iff _ _ _).2 ((Dict.get_iff_mem mockPages_nodup _ _).2 h)
  unfold Exact.pagesAreRelated
  cases ha : Exact.lookup mockPages a with
  | undefined =>
    simp only
    constructor
    · intro h; cases h
    · rintro ⟨pa, pb, hma, _, _⟩
      rw [own_of_mem hma] at ha
      cases ha
  | inherited name =>
    cases hb : Exact.lookup mockPages b with
    | undefined =>
      simp only
      constructor
      · intro h; cases h
      · rintro ⟨pa, pb, hma, _, _⟩
        rw [own_of_mem hma] at ha
        cases ha
    | inherited name' =>
      simp only
      constructor
      · intro h; cases h
      · rintro ⟨pa, pb, hma, _, _⟩
        rw [own_of_mem hma] at ha
        cases ha
    | own pb =>
      simp only
      constructor
      · intro h; cases h
      · rintro ⟨pa, pb, hma, _, _⟩
        rw [own_of_mem hma] at ha
        cases ha
  | own pa =>
    have hma : (a, pa) ∈ mockPages :=
      (Dict.get_iff_mem mockPages_nodup _ _).1 ((lookup_eq_own_iff _ _ _).1 ha)
    cases hb : Exact.lookup mockPages b with
    | undefined =>
      simp only
      constructor
      · intro h; cases h
      · rintro ⟨pa', pb', _, hmb, _⟩
        rw [own_of_mem hmb] at hb
        cases hb
    | inherited name' =>
      simp only
      constructor
      · intro h; cases h
      · rintro ⟨pa', pb', _, hmb, _⟩
        rw [own_of_mem hmb] at hb
        cases hb
    | own pb =>
      have hmb : (b, pb) ∈ mockPages :=
        (Dict.get_iff_mem mockPages_nodup _ _).1 ((lookup_eq_own_iff _ _ _).1 hb)
      simp only
      have hwords : (Exact.titleWords pa.title).any
            (fun word => decide (word ∈ Exact.titleWords pb.title)) = true
          ↔ ∃ w, w ∈ List.splitOnP Char.isWhitespace pa.title.toLower.toList
              ∧ w ∈ List.splitOnP Char.isWhitespace pb.title.toLower.toList ∧ w.length > 3 := by
        rw [List.any_eq_true]
        constructor
        · rintro ⟨w, h1, h2⟩
          have h2 := of_decide_eq_true h2
          exact ⟨w, ((mem_titleWords_iff hma w).1 h1).1, ((mem_titleWords_iff hmb w).1 h2).1,
            ((mem_titleWords_iff hma w).1 h1).2⟩
        · rintro ⟨w, h1, h2, hlen⟩
          exact ⟨w, (mem_titleWords_iff hma w).2 ⟨h1, hlen⟩,
            decide_eq_true ((mem_titleWords_iff hmb w).2 ⟨h2, hlen⟩)⟩
      have hspec : RelatedBySpec a b
          ↔ ((∃ w, w ∈ List.splitOnP Char.isWhitespace pa.title.toLower.toList
                ∧ w ∈ List.splitOnP Char.isWhitespace pb.title.toLower.toList ∧ w.length > 3)
              ∨ ("data-page-id=\"" ++ b ++ "\"").toList <:+: pa.content.toList
              ∨ ("data-page-id=\"" ++ a ++ "\"").toList <:+: pb.content.toList) := by
        constructor
        · rintro ⟨pa', pb', hma', hmb', h⟩
          have e1 := own_of_mem hma'
          have e2 := own_of_mem hmb'
          rw [ha] at e1
          rw [hb] at e2
          cases e1
          cases e2
          exact h
        · intro h
          exact ⟨pa, pb, hma, hmb, h⟩
      rw [hspec, ← hwords, ← linkReference_eq, ← linkReference_eq, ← includesChars_iff,
        ← includesChars_iff]
      split
      · rename_i hany
        simp [hany]
      · rename_i hany
        simp [hany]

theorem lookup_undefined_iff {α : Type} (m : Dict String α) (key : String) :
    Exact.lookup m key = .undefined ↔ key ∉ Dict.keys m ∧ key ∉ Exact.inheritedNames := by
  unfold Exact.lookup
  cases h : Dict.get m key with
  | none =>
    have hk : key ∉ Dict.keys m := (Dict.get_eq_none_iff _ _).1 h
    dsimp only
    split <;> simp [*]
  | some v =>
    have hk : key ∈ Dict.keys m := (Dict.mem_keys_iff _ _).2 ⟨v, h⟩
    simp [hk]

theorem lookup_own_of_mem_keys {α : Type} {m : Dict String α} {key : String}
    (h : key ∈ Dict.keys m) : ∃ value, Exact.lookup m key = .own value := by
  obtain ⟨v, hv⟩ := (Dict.mem_keys_iff _ _).1 h
  exact ⟨v, (lookup_eq_own_iff _ _ _).2 hv⟩

theorem lookup_inherited_of_not_mem_keys {α : Type} {m : Dict String α} {key : String}
    (h : key ∉ Dict.keys m) (hi : key ∈ Exact.inheritedNames) :
    Exact.lookup m key = .inherited key := by
  unfold Exact.lookup
  rw [(Dict.get_eq_none_iff _ _).2 h]
  exact if_pos hi

/-- When `pagesAreRelated` raises: both reads of `mockPages` give a value, and
one of them is not a catalog page but a value inherited from `Object.prototype`. -/
theorem pagesAreRelated_raises_iff (a b : PageId) :
    Exact.pagesAreRelated a b = none
      ↔ (a ∈ Dict.keys mockPages ∨ a ∈ Exact.inheritedNames)
        ∧ (b ∈ Dict.keys mockPages ∨ b ∈ Exact.inheritedNames)
        ∧ (a ∉ Dict.keys mockPages ∨ b ∉ Dict.keys mockPages) := by
  by_cases ha : a ∈ Dict.keys mockPages
  · obtain ⟨pa, hpa⟩ := lookup_own_of_mem_keys ha
    by_cases hb : b ∈ Dict.keys mockPages
    · obtain ⟨pb, hpb⟩ := lookup_own_of_mem_keys hb
      unfold Exact.pagesAreRelated
      rw [hpa, hpb]
      simp only [ha, hb, not_true_eq_false, or_self, and_false, iff_false]
      split <;> simp
    · by_cases hbi : b ∈ Exact.inheritedNames
      · unfold Exact.pagesAreRelated
        rw [hpa, lookup_inherited_of_not_mem_keys hb hbi]
        simp [ha, hb, hbi]
      · unfold Exact.pagesAreRelated
        rw [hpa, (lookup_undefined_iff _ _).2 ⟨hb, hbi⟩]
        simp [hb, hbi]
  · by_cases hai : a ∈ Exact.inheritedNames
    · by_cases hb : b ∈ Dict.keys mockPages
      · obtain ⟨pb, hpb⟩ := lookup_own_of_mem_keys hb
        unfold Exact.pagesAreRelated
        rw [lookup_inherited_of_not_mem_keys ha hai, hpb]
        simp [ha, hai, hb]
      · by_cases hbi : b ∈ Exact.inheritedNames
        · unfold Exact.pagesAreRelated
          rw [lookup_inherited_of_not_mem_keys ha hai, lookup_inherited_of_not_mem_keys hb hbi]
          simp [ha, hai, hbi]
        · unfold Exact.pagesAreRelated
          rw [lookup_inherited_of_not_mem_keys ha hai, (lookup_undefined_iff _ _).2 ⟨hb, hbi⟩]
          simp [hb, hbi]
    · unfold Exact.pagesAreRelated
      rw [(lookup_undefined_iff _ _).2 ⟨ha, hai⟩]
      simp [ha, hai]

/-- C25. For every pair of page ids, `pagesAreRelated(a, b)` returns `true`
exactly when the relation of the specification holds (`RelatedBySpec`: both
ids in the catalog, and a shared word of more than three characters in the
lower-cased titles split at white space, or the text `data-page-id="<id>"`
of one in the content of the other); it gives the same outcome for `(b, a)`;
and it raises, in place of returning `false`, exactly when both reads of
`mockPages` give a value and one of them is inherited from
`Object.prototype`.  The method takes the two ids only and reads only the
catalog. -/
theorem pagesAreRelated_spec (a b : PageId) :
    (Exact.pagesAreRelated a b = some true ↔ RelatedBySpec a b)
      ∧ Exact.pagesAreRelated a b = Exact.pagesAreRelated b a
      ∧ (Exact.pagesAreRelated a b = none
        ↔ (a ∈ Dict.keys mockPages ∨ a ∈ Exact.inheritedNames)
          ∧ (b ∈ Dict.keys mockPages ∨ b ∈ Exact.inheritedNames)
          ∧ (a ∉ Dict.keys mockPages ∨ b ∉ Dict.keys mockPages)) := by
  refine ⟨pagesAreRelated_true_iff a b, ?_, pagesAreRelated_raises_iff a b⟩
  have htrue : Exact.pagesAreRelated a b = some true ↔ Exact.pagesAreRelated b a = some true := by
    rw [pagesAreRelated_true_iff, pagesAreRelated_true_iff]
    exact ⟨RelatedBySpec.spec_symm, RelatedBySpec.spec_symm⟩
  have hnone : Exact.pagesAreRelated a b = none ↔ Exact.pagesAreRelated b a = none := by
    rw [pagesAreRelated_raises_iff, pagesAreRelated_raises_iff]
    constructor
    · rintro ⟨h1, h2, h3⟩
      exact ⟨h2, h1, h3.symm⟩
    · rintro ⟨h1, h2, h3⟩
      exact ⟨h2, h1, h3.symm⟩
  cases hab : Exact.pagesAreRelated a b with
  | none => exact (hnone.1 hab).symm
  | some x =>
    cases hba : Exact.pagesAreRelated b a with
    | none => rw [hnone.2 hba] at hab; cases hab
    | some y =>
      cases x with
      | true => rw [htrue.1 hab] at hba; exact hba
      | false =>
        cases y with
        | true => rw [htrue.2 hba] at hab; cases hab
        | false => rfl

/-- On the titles of the catalog the two tokenizers give the same words. -/
theorem titleWords_exact : ∀ e ∈ mockPages, titleWords e.2.title = Exact.titleWords e.2.title := by
  decide

/-- Off the names inherited from `Object.prototype`, `pagesAreRelated` of the
model on regular inputs is the method. -/
theorem pagesAreRelated_exact {a b : PageId} (ha : a ∉ Exact.inheritedNames)
    (hb : b ∉ Exact.inheritedNames) :
    Exact.pagesAreRelated a b = some (pagesAreRelated a b) := by
  unfold Exact.pagesAreRelated pagesAreRelated Exact.lookup
  cases hga : Dict.get mockPages a with
  | none =>
    simp only [if_neg ha]
  | some pa =>
    cases hgb : Dict.get mockPages b with
    | none =>
      simp only [if_neg hb]
    | some pb =>
      simp only
      rw [titleWords_exact _ (Dict.mem_of_get hga), titleWords_exact _ (Dict.mem_of_get hgb)]
      split <;> rfl

/-! ## The model on regular inputs inside the exact one -/

theorem lookup_of_regular {α : Type} (m : Dict String α) {key : String}
    (h : key ∉ Exact.inheritedNames) :
    Exact.lookup m key
      = match Dict.get m key with
        | some value => .own value
        | none => .undefined := by
  unfold Exact.lookup
  cases Dict.get m key with
  | none => exact if_neg h
  | some v => rfl

theorem findRelatedPagesGo_exact {pageId : PageId} (hp : pageId ∉ Exact.inheritedNames)
    (keys : List PageId) (hk : ∀ p ∈ keys, p ∉ Exact.inheritedNames) :
    Exact.findRelatedPagesGo pageId keys
      = some (keys.filter (fun existingPageId =>
          decide (existingPageId ≠ pageId) && pagesAreRelated pageId existingPageId)) := by
  induction keys with
  | nil => rfl
  | cons k rest ih =>
    have ih := ih (fun p hp' => hk p (List.mem_cons_of_mem _ hp'))
    rw [Exact.findRelatedPagesGo]
    by_cases hkp : k = pageId
    · rw [if_pos hkp, ih]
      simp [hkp]
    · rw [if_neg hkp, pagesAreRelated_exact hp (hk k (List.mem_cons_self _ _)), ih]
      cases hrel : pagesAreRelated pageId k <;> simp [hkp, hrel]

theorem findRelatedPages_exact {s : State} {pageId : PageId} (hs : RegularPages s)
    (hp : pageId ∉ Exact.inheritedNames) :
    Exact.findRelatedPages (embed s) pageId = some (findRelatedPages s pageId) :=
  findRelatedPagesGo_exact hp _ hs

theorem sumRelated_exact (s : State) (l : List PageId) :
    Exact.sumRelated (embed s) l = sumRelated s l := rfl

theorem getClusteredPosition_exact {s : State} {pageId : PageId} (hs : RegularPages s)
    (hp : pageId ∉ Exact.inheritedNames) (rnd : Rnd) :
    Exact.getClusteredPosition (embed s) pageId rnd = some (getClusteredPosition s pageId rnd) := by
  unfold Exact.getClusteredPosition getClusteredPosition
  rw [findRelatedPages_exact hs hp]
  simp only [sumRelated_exact]
  split
  · split <;> rfl
  · rfl

theorem addNeuronToMinimap_exact (s : State) (n : NeuronId) :
    Exact.addNeuronToMinimap (embed s) n = embed (addNeuronToMinimap s n) := by
  unfold Exact.addNeuronToMinimap addNeuronToMinimap
  show (if s.minimap = true then _ else _) = _
  split
  · show (match Dict.get s.neurons n with | none => _ | some neuron => _) = _
    cases Dict.get s.neurons n <;> rfl
  · rfl

/-- From a state whose pages are regular and whose counter is below `2^53`,
and for a page id that is no inherited name, the exact `createNeuron` returns
and does what `createNeuron` of the model on regular inputs does. -/
theorem createNeuron_exact {s : State} {pageId : PageId} (hs : RegularPages s)
    (hp : pageId ∉ Exact.inheritedNames) (hn : s.lastNeuronId < 9007199254740992)
    (title : String) (position : Option Position) (rnd : Rnd) :
    Exact.createNeuron (embed s) pageId title position rnd
      = .returned (embed (createNeuron s pageId title position rnd).1)
          (.neuron (createNeuron s pageId title position rnd).2) := by
  have hget : Dict.get (embed s).pageNeurons pageId = Dict.get s.pageNeurons pageId := rfl
  unfold Exact.createNeuron createNeuron
  rw [lookup_of_regular _ hp, hget]
  cases Dict.get s.pageNeurons pageId with
  | some existing => rfl
  | none =>
    dsimp only
    have hinc : Exact.increment (embed s).lastNeuronId = s.lastNeuronId + 1 := increment_of_lt hn
    rw [hinc]
    cases position with
    | some p =>
      dsimp only
      exact congrArg (fun st => Exact.Created.returned st _)
        (addNeuronToMinimap_exact
          { s with
            lastNeuronId := s.lastNeuronId + 1,
            neurons := Dict.set s.neurons (s.lastNeuronId + 1)
              { pageId := pageId, label := if title = "" then s.neuronTemplateLabel else title,
                left := p.x, top := p.y, active := false, current := false },
            pageNeurons := Dict.set s.pageNeurons pageId (s.lastNeuronId + 1) }
          (s.lastNeuronId + 1))
    | none =>
      dsimp only
      have hregular : RegularPages { s with lastNeuronId := s.lastNeuronId + 1 } := hs
      have hpos := getClusteredPosition_exact hregular hp rnd
      rw [show ({ embed s with lastNeuronId := s.lastNeuronId + 1 } : Exact.State)
        = embed { s with lastNeuronId := s.lastNeuronId + 1 } from rfl, hpos]
      dsimp only
      exact congrArg (fun st => Exact.Created.returned st _)
        (addNeuronToMinimap_exact
          { s with
            lastNeuronId := s.lastNeuronId + 1,
            neurons := Dict.set s.neurons (s.lastNeuronId + 1)
              { pageId := pageId, label := if title = "" then s.neuronTemplateLabel else title,
                left := (getClusteredPosition { s with lastNeuronId := s.lastNeuronId + 1 }
                  pageId rnd).x,
                top := (getClusteredPosition { s with lastNeuronId := s.lastNeuronId + 1 }
                  pageId rnd).y,
                active := false, current := false },
            pageNeurons := Dict.set s.pageNeurons pageId (s.lastNeuronId + 1) }
          (s.lastNeuronId + 1))

theorem addSynapseToMinimap_exact (s : State) (a b : NeuronId) :
    Exact.addSynapseToMinimap (embed s) a b = embed (addSynapseToMinimap s a b) := by
  unfold Exact.addSynapseToMinimap addSynapseToMinimap
  show (if s.minimap = true then
      (match Dict.get s.neurons a, Dict.get s.neurons b with
        | some _, some _ =>
          if (a, b) ∈ s.minimapSynapses then embed s
          else { embed s with minimapSynapses := s.minimapSynapses ++ [(a, b)] }
        | _, _ => embed s)
    else embed s) = _
  split
  · cases Dict.get s.neurons a <;> cases Dict.get s.neurons b <;> try rfl
    dsimp only
    split <;> rfl
  · rfl

/-- On neuron ids the exact `createSynapse` does what `createSynapse` of the
model on regular inputs does. -/
theorem createSynapse_exact (s : State) (a b : NeuronId) :
    Exact.createSynapse (embed s) (.neuron a) (.neuron b) = embed (createSynapse s a b) := by
  unfold Exact.createSynapse createSynapse
  show (if (a, b) ∈ s.synapses then embed s
    else
      (match Dict.get s.neurons a, Dict.get s.neurons b with
        | some _, some _ =>
          Exact.addSynapseToMinimap { embed s with synapses := s.synapses ++ [(a, b)] } a b
        | _, _ => embed s)) = _
  split
  · rfl
  · cases Dict.get s.neurons a <;> cases Dict.get s.neurons b <;> try rfl
    exact addSynapseToMinimap_exact { s with synapses := s.synapses ++ [(a, b)] } a b

theorem markActive_exact (tabs : Dict TabId Tab) (neurons : Dict NeuronId Neuron) :
    Exact.markActive (Dict.mapVals embedTab tabs) neurons = markActive tabs neurons := by
  unfold Exact.markActive markActive
  induction tabs generalizing neurons with
  | nil => rfl
  | cons e rest ih =>
    obtain ⟨t, tab⟩ := e
    show List.foldl _ _ (Dict.mapVals embedTab rest) = List.foldl _ _ rest
    rw [ih]
    congr 1
    show (match (embedTab tab).neuronId with
      | some (.neuron neuronId) => _
      | _ => _) = _
    cases h : tab.neuronId <;> simp [embedTab, h]

/-- The exact `activateTab` does what `activateTab` of the model on regular
inputs does. -/
theorem activateTab_exact (s : State) (tabId : TabId) :
    Exact.activateTab (embed s) tabId = embed (activateTab s tabId) := by
  unfold Exact.activateTab activateTab
  have hget : Dict.get (embed s).tabs tabId = (Dict.get s.tabs tabId).map embedTab :=
    Dict.get_mapVals embedTab s.tabs tabId
  rw [hget]
  cases Dict.get s.tabs tabId with
  | none => rfl
  | some tab =>
    dsimp only [Option.map]
    have hmark : Exact.markActive (embed s).tabs (clearNeuronStates (embed s).neurons)
        = markActive s.tabs (clearNeuronStates s.neurons) := markActive_exact _ _
    rw [hmark]
    rfl

theorem navigateSynapse_exact (s : State) (pageId oldPageId : PageId)
    (oldNeuronId : Option NeuronId) (neuronId : NeuronId) (sourceNeuronId : Option NeuronId)
    (withSynapse : Bool) :
    Exact.navigateSynapse (embed s) pageId oldPageId (oldNeuronId.map Exact.Ref.neuron)
        (.neuron neuronId) sourceNeuronId withSynapse
      = embed (navigateSynapse s pageId oldPageId oldNeuronId neuronId sourceNeuronId
          withSynapse) := by
  unfold Exact.navigateSynapse navigateSynapse
  have hsource : sourceNeuronId.filter
        (fun source => decide (Exact.Ref.neuron source ≠ Exact.Ref.neuron neuronId) && withSynapse)
      = sourceNeuronId.filter (fun source => decide (source ≠ neuronId) && withSynapse) := by
    congr 1
    funext source
    simp
  rw [hsource]
  cases sourceNeuronId.filter (fun source => decide (source ≠ neuronId) && withSynapse) with
  | some source => exact createSynapse_exact s source neuronId
  | none =>
    dsimp only
    cases oldNeuronId with
    | none => rfl
    | some old =>
      by_cases hc : (decide (oldPageId ≠ "") && decide (oldPageId ≠ pageId) && withSynapse) = true
      · simp only [Option.map, Option.filter, hc, if_true]
        exact createSynapse_exact s old neuronId
      · simp only [Option.map, Option.filter, hc]
        rfl

theorem embedTab_navigatedTab (tab : Tab) (page : Page) {pageId : PageId}
    (hp : pageId ∉ Exact.inheritedNames) (neuronId : NeuronId) :
    ({ embedTab tab with
        title := some page.title,
        url := Exact.lookup mockPageUrls pageId,
        pageId := pageId,
        neuronId := some (Exact.Ref.neuron neuronId),
        isWebUrl := some false } : Exact.Tab)
      = embedTab (navigatedTab tab page pageId neuronId) := by
  rw [lookup_of_regular _ hp]
  unfold embedTab navigatedTab
  cases Dict.get mockPageUrls pageId <;> rfl

/-- From a state whose pages are regular and whose neuron counter is below
`2^53`, and for a page id that is no inherited name, the exact `navigateTo`
does what `navigateTo` of the model on regular inputs does. -/
theorem navigateTo_exact {s : State} {pageId : PageId} (hs : RegularPages s)
    (hp : pageId ∉ Exact.inheritedNames) (hn : s.lastNeuronId < 9007199254740992)
    (tabId : Option TabId) (sourceNeuronId : Option NeuronId) (withSynapse : Bool) (rnd : Rnd) :
    Exact.navigateTo (embed s) pageId tabId sourceNeuronId withSynapse rnd
      = embedOutcome (navigateTo s pageId tabId sourceNeuronId withSynapse rnd) := by
  have hactive : (tabId <|> (embed s).activeTabId) = (tabId <|> s.activeTabId) := rfl
  cases ht : tabId <|> s.activeTabId with
  | none =>
    rw [navigateTo_of_no_target ht]
    unfold Exact.navigateTo
    rw [hactive, ht]
    rfl
  | some t =>
    have hlookup := lookup_of_regular mockPages hp
    cases hpage : Dict.get mockPages pageId with
    | none =>
      rw [hpage] at hlookup
      rw [navigateTo_of_unknown_page hpage, navigateTo_of_undefined hlookup]
      rfl
    | some page =>
      rw [hpage] at hlookup
      have htabs : Dict.get (embed s).tabs t = (Dict.get s.tabs t).map embedTab :=
        Dict.get_mapVals embedTab s.tabs t
      cases htab : Dict.get s.tabs t with
      | none =>
        rw [navigateTo_of_closed_tab ht hpage htab]
        rw [htab] at htabs
        unfold Exact.navigateTo
        rw [hactive, ht]
        simp only [hlookup, htabs, Option.map]
        rfl
      | some tab =>
        rw [navigateTo_eq ht hpage htab]
        rw [htab] at htabs
        unfold Exact.navigateTo
        rw [hactive, ht]
        simp only [hlookup, htabs, Option.map, Option.getD, createNeuron_exact hs hp hn]
        rw [embedTab_navigatedTab tab page hp]
        have hset : Dict.set (embed (createNeuron s pageId page.title none rnd).1).tabs t
              (embedTab (navigatedTab tab page pageId (createNeuron s pageId page.title none rnd).2))
            = Dict.mapVals embedTab
                (Dict.set (createNeuron s pageId page.title none rnd).1.tabs t
                  (navigatedTab tab page pageId (createNeuron s pageId page.title none rnd).2)) :=
          (Dict.mapVals_set embedTab _ t _).symm
        rw [hset]
        refine congrArg Exact.Outcome.returned ?_
        refine Eq.trans ?_ (activateTab_exact _ t)
        refine congrArg (fun st => Exact.activateTab st t) ?_
        exact navigateSynapse_exact
          { (createNeuron s pageId page.title none rnd).1 with
            tabs := Dict.set (createNeuron s pageId page.title none rnd).1.tabs t
              (navigatedTab tab page pageId (createNeuron s pageId page.title none rnd).2) }
          pageId tab.pageId tab.neuronId (createNeuron s pageId page.title none rnd).2
          sourceNeuronId withSynapse

theorem embedOutcome_state (o : Outcome) : (embedOutcome o).state = embed o.state := by
  cases o <;> rfl

theorem embedOutcome_raised (o : Outcome) : (embedOutcome o).raised = o.raised := by
  cases o <;> rfl

/-- From a state whose pages are regular and whose two counters are below
`2^53`, the exact `createNewTab` returns the id `createNewTab` of the model on
regular inputs returns, raises when it raises, and leaves the state it leaves. -/
theorem createNewTab_exact {s : State} (hs : RegularPages s)
    (hn : s.lastNeuronId < 9007199254740992) (ht : s.lastTabId < 9007199254740992) (rnd : Rnd) :
    (Exact.createNewTab (embed s) rnd).2 = (createNewTab s rnd).2
      ∧ (Exact.createNewTab (embed s) rnd).1
          = embedOutcome (navigateTo (openedTab s) "home" (some (s.lastTabId + 1)) none true rnd)
      ∧ (Exact.createNewTab (embed s) rnd).1.state = embed (createNewTab s rnd).1 := by
  have hinc : Exact.increment (embed s).lastTabId = s.lastTabId + 1 := increment_of_lt ht
  have hopened : Exact.activateTab
        { embed s with
          lastTabId := s.lastTabId + 1,
          tabs := Dict.set (embed s).tabs (s.lastTabId + 1)
            { id := s.lastTabId + 1, title := some "New Tab", url := .own "", pageId := "",
              neuronId := none, isWebUrl := none } }
        (s.lastTabId + 1)
      = embed (openedTab s) := by
    refine Eq.trans ?_ (activateTab_exact _ _)
    refine congrArg (fun st => Exact.activateTab st (s.lastTabId + 1)) ?_
    show _ = embed
      { s with
        lastTabId := s.lastTabId + 1,
        tabs := Dict.set s.tabs (s.lastTabId + 1)
          { id := s.lastTabId + 1, title := "New Tab", url := some "", pageId := "",
            neuronId := none, isWebUrl := none } }
    unfold embed
    simp only [Dict.mapVals_set]
    rfl
  have hhome : "home" ∉ Exact.inheritedNames := by decide
  have hpages : RegularPages (openedTab s) := by
    intro p hmem
    exact hs p (by simpa [openedTab] using hmem)
  have hcounter : (openedTab s).lastNeuronId < 9007199254740992 := by
    simpa [openedTab] using hn
  have hout : (Exact.createNewTab (embed s) rnd).1
      = embedOutcome (navigateTo (openedTab s) "home" (some (s.lastTabId + 1)) none true rnd) := by
    unfold Exact.createNewTab
    dsimp only
    rw [hinc, hopened]
    exact navigateTo_exact hpages hhome hcounter _ _ _ _
  refine ⟨?_, hout, ?_⟩
  · unfold Exact.createNewTab
    dsimp only
    rw [hinc]
    rfl
  · rw [hout, embedOutcome_state]
    rfl

end BrainBrowser
